import Mathlib

/-!
# Digital library back end: reviews, rating aggregate and book assets

A shallow embedding of the Express/Mongoose back end
(`backend/models/Review.js`, `backend/models/Book.js`,
`backend/controllers/reviews.js`, `backend/controllers/books.js`,
`backend/middleware/upload.js`, `backend/routes/users.js`).

Conventions of the embedding

* A Mongo `ObjectId` is a natural number, the value of its 12 bytes; a route
  parameter is a string, cast by `castObjectId`, and a handler addressed through
  a parameter is run by `atParam`.  A JavaScript `Number` is a rational (exact
  arithmetic, no rounding); the `length` of a string counts UTF-16 code units.
* Request bodies are modelled after Mongoose casting: every schema path that a
  body may carry is an optional value of the path's type.  Paths that are not in
  the schema are dropped by Mongoose (strict mode) and do not appear at all.
* The collaborators whose outcome the code cannot decide (Cloudinary upload and
  destroy, the clock, the record-store write inside `getAverageRating`) are
  inputs of each handler, collected in `Env`.
* Handlers are functions `World → World × Response`; hooks registered on the
  schemas run to completion inside the handler that triggers them, although
  the source does not await them.
* Documents are kept in insertion order; `findById`, `findByIdAndUpdate` and
  `remove` act on the first document of the given `_id`.
* Not modelled: cast errors on numbers and on ids inside a request body, the
  paths `_id` and `createdAt` in a request body, and failures of the record
  store other than validation, the unique index and the aggregate write.
-/

namespace DigitalLibrary

/-! ## Data model -/

/-- Mongo object identifier. -/
abbrev ObjectId := Nat

/-- Document of `ReviewSchema` (`createdAt` is not modelled). -/
structure Review where
  _id : ObjectId
  rating : ℚ
  comment : String
  book : ObjectId
  user : ObjectId
  deriving DecidableEq

/-- Document of `BookSchema` (`createdAt` is not modelled).  The schema has no
`coverImagePublicId` path, so no book document carries one. -/
structure Book where
  _id : ObjectId
  title : String
  author : String
  description : String
  category : String
  coverImage : String
  fileUrl : String
  publicId : String
  averageRating : ℚ
  numReviews : ℚ
  user : ObjectId
  deriving DecidableEq

/-- The record store: the two collections and the next fresh `ObjectId`. -/
structure Db where
  books : List Book
  reviews : List Review
  nextId : ObjectId
  deriving DecidableEq

/-- `Book.findById`. -/
def Book.findById (books : List Book) (id : ObjectId) : Option Book :=
  books.find? (fun b => b._id == id)

/-- `Review.findById`. -/
def Review.findById (reviews : List Review) (id : ObjectId) : Option Review :=
  reviews.find? (fun r => r._id == id)

/-- `Review.findOne(\x7b user, book \x7d)`. -/
def Review.findOne (reviews : List Review) (user book : ObjectId) : Option Review :=
  reviews.find? (fun r => r.user == user && r.book == book)

/-! ## Primitive collection operations of the record store -/

/-- Replaces the first document satisfying `p` (`findOneAndUpdate`). -/
def updateFirst {α : Type} (p : α → Bool) (f : α → α) : List α → List α
  | [] => []
  | x :: xs => if p x then f x :: xs else x :: updateFirst p f xs

/-- Unique index `\x7b book: 1, user: 1 \x7d`: does one of `others` hold the key? -/
def Review.keyTaken (others : List Review) (book user : ObjectId) : Bool :=
  others.any (fun r => r.book == book && r.user == user)

/-! ## `Review.getAverageRating` -/

/-- Accumulator of the `$group` stage: running state of `$avg: '$rating'`
(sum and count) and of `$sum: 1`. -/
structure GroupAcc where
  ratingSum : ℚ
  ratingCount : ℕ
  numReviews : ℚ

/-- One document entering the `$group` stage. -/
def GroupAcc.push (acc : GroupAcc) (r : Review) : GroupAcc :=
  { ratingSum := acc.ratingSum + r.rating
    ratingCount := acc.ratingCount + 1
    numReviews := acc.numReviews + 1 }

/-- Row produced by the aggregation pipeline. -/
structure AggregateRow where
  _id : ObjectId
  averageRating : ℚ
  numReviews : ℚ

/-- The pipeline `[$match: book = bookId, $group: _id '$book', $avg, $sum]`.
All matched documents share the group key, so there is one row, or none when
nothing matches. -/
def Review.aggregate (reviews : List Review) (bookId : ObjectId) : List AggregateRow :=
  match reviews.filter (fun r => r.book == bookId) with
  | [] => []
  | r :: rs =>
    let acc := (r :: rs).foldl GroupAcc.push { ratingSum := 0, ratingCount := 0, numReviews := 0 }
    [{ _id := bookId
       averageRating := acc.ratingSum / (acc.ratingCount : ℚ)
       numReviews := acc.numReviews }]

/-- `Book.findByIdAndUpdate(id, \x7b averageRating, numReviews \x7d)` as issued by
`getAverageRating`: no validators run, both paths are overwritten. -/
def Book.setAggregate (books : List Book) (id : ObjectId) (avg num : ℚ) : List Book :=
  updateFirst (fun b => b._id == id) (fun b => { b with averageRating := avg, numReviews := num }) books

/-- `ReviewSchema.statics.getAverageRating`.  `writeOk = false` is the record
store rejecting the book update; the `catch` only logs it. -/
def Review.getAverageRating (writeOk : Bool) (bookId : ObjectId) (db : Db) : Db :=
  let obj := Review.aggregate db.reviews bookId
  let averageRating : ℚ := match obj with
    | row :: _ => row.averageRating
    | [] => 0
  let numReviews : ℚ := match obj with
    | row :: _ => row.numReviews
    | [] => 0
  if writeOk then
    { db with books := Book.setAggregate db.books bookId averageRating numReviews }
  else db

/-! ## Collaborators -/

/-- The caller as `protect` leaves it in `req.user`. -/
structure AuthUser where
  id : ObjectId
  role : String
  deriving DecidableEq

/-- A file staged on local disk by multer. -/
structure UploadedFile where
  path : String
  deriving DecidableEq

/-- What multer's `fields` leaves in `req.files`; an absent field is `[]`. -/
structure Files where
  file : List UploadedFile
  coverImage : List UploadedFile
  deriving DecidableEq

/-- Resolved value of `cloudinary.uploader.upload`. -/
structure UploadResult where
  secure_url : String
  public_id : String
  deriving DecidableEq

/-- Outcome of `cloudinary.uploader.destroy`: resolved with `ok`, resolved with
`not found`, or rejected. -/
inductive DestroyOutcome
  | ok
  | notFound
  | rejected
  deriving DecidableEq

/-- Outcomes the handler cannot decide itself. -/
structure Env where
  /-- `Date.now()`. -/
  now : Nat
  /-- Cloudinary's answer to an upload of the file at a path; `none` rejects. -/
  upload : String → Option UploadResult
  /-- Cloudinary's answer to a destroy of a public id. -/
  destroy : String → DestroyOutcome
  /-- Whether the book update inside `getAverageRating` is accepted. -/
  aggregateWriteOk : Bool

/-- Calls issued to collaborators, in order. -/
inductive Call
  | upload (path resourceType folder : String)
  | destroy (publicId : String)
  | unlink (path : String)
  | getAverageRating (bookId : ObjectId)
  deriving DecidableEq

/-- Everything a handler can read or change. -/
structure World where
  db : Db
  /-- Public ids held by Cloudinary. -/
  assets : List String
  /-- Files present under `uploads/`. -/
  tmpFiles : List String
  trace : List Call
  deriving DecidableEq

/-- Errors caught by the handlers' `catch` blocks. -/
inductive Failure
  | validation (paths : List String)
  | duplicateKey
  | cloudinary
  | enoent
  deriving DecidableEq

/-- Text of the `message` field of a failure response. -/
inductive Message
  | text (s : String)
  | ofError (e : Failure)
  /-- Message of the `CastError` Mongoose throws for a value it cannot cast
  to an `ObjectId`. -/
  | castError (value : String)
  deriving DecidableEq

/-- The `data` field of a success response. -/
inductive Data
  | book (b : Book)
  | review (r : Review)
  | empty
  deriving DecidableEq

/-- What `res.status(..).json(..)` sends. -/
inductive Response
  | ok (status : Nat) (data : Data)
  | fail (status : Nat) (message : Message)
  deriving DecidableEq

/-- Status code of a response. -/
def Response.status : Response → Nat
  | Response.ok s _ => s
  | Response.fail s _ => s

/-- `cloudinary.uploader.upload(path, \x7b resource_type, folder \x7d)`; the result is
`none` when the promise rejects (a missing local file rejects too). -/
def cloudinaryUpload (env : Env) (path resourceType folder : String) (w : World) :
    World × Option UploadResult :=
  let w1 := { w with trace := w.trace ++ [Call.upload path resourceType folder] }
  if path ∈ w.tmpFiles then
    match env.upload path with
    | some r => ({ w1 with assets := w1.assets ++ [r.public_id] }, some r)
    | none => (w1, none)
  else (w1, none)

/-- `cloudinary.uploader.destroy(publicId)`; `false` when the promise rejects. -/
def cloudinaryDestroy (env : Env) (publicId : String) (w : World) : World × Bool :=
  let w1 := { w with trace := w.trace ++ [Call.destroy publicId] }
  match env.destroy publicId with
  | DestroyOutcome.ok => ({ w1 with assets := w1.assets.filter (fun a => a != publicId) }, true)
  | DestroyOutcome.notFound => (w1, true)
  | DestroyOutcome.rejected => (w1, false)

/-- `fs.unlinkSync(path)`; `false` when it throws (no such file). -/
def unlinkSync (path : String) (w : World) : World × Bool :=
  let w1 := { w with trace := w.trace ++ [Call.unlink path] }
  if path ∈ w.tmpFiles then ({ w1 with tmpFiles := w1.tmpFiles.filter (fun p => p != path) }, true)
  else (w1, false)

/-- The `post('save')` and `post('remove')` hooks of `ReviewSchema`. -/
def Review.postHook (env : Env) (r : Review) (w : World) : World :=
  { w with
    db := Review.getAverageRating env.aggregateWriteOk r.book w.db
    trace := w.trace ++ [Call.getAverageRating r.book] }

/-! ## `controllers/reviews.js` -/

/-- Body of a review request after casting; `book` and `user` are schema paths
too, so a body may carry them. -/
structure ReviewBody where
  rating : Option ℚ
  comment : Option String
  book : Option ObjectId
  user : Option ObjectId
  deriving DecidableEq

/-- Validators of `ReviewSchema` on a new document: the paths that fail.
`book` and `user` are always present on the documents built here. -/
def Review.validate (rating : Option ℚ) (comment : Option String) : List String :=
  (match rating with
    | some x => if x < 1 ∨ 5 < x then ["rating"] else []
    | none => ["rating"]) ++
  (match comment with
    | some c => if c = "" then ["comment"] else []
    | none => ["comment"])

/-- Update validators (`runValidators: true`): only the paths the body sets. -/
def ReviewBody.validate (body : ReviewBody) : List String :=
  (match body.rating with
    | some x => if x < 1 ∨ 5 < x then ["rating"] else []
    | none => []) ++
  (match body.comment with
    | some c => if c = "" then ["comment"] else []
    | none => [])

/-- The `$set` a body amounts to. -/
def ReviewBody.apply (body : ReviewBody) (r : Review) : Review :=
  { r with
    rating := body.rating.getD r.rating
    comment := body.comment.getD r.comment
    book := body.book.getD r.book
    user := body.user.getD r.user }

/-- `Review.create(req.body)` without its hooks: validation, unique index,
insertion under a fresh `_id`. -/
def Review.create (body : ReviewBody) (book user : ObjectId) (db : Db) :
    Except Failure (Db × Review) :=
  if Review.validate body.rating body.comment ≠ [] then
    Except.error (Failure.validation (Review.validate body.rating body.comment))
  else if Review.keyTaken db.reviews book user then Except.error Failure.duplicateKey
  else
    let review : Review :=
      { _id := db.nextId, rating := body.rating.getD 0, comment := body.comment.getD ""
        book := book, user := user }
    Except.ok ({ db with reviews := db.reviews ++ [review], nextId := db.nextId + 1 }, review)

/-- `Review.findByIdAndUpdate(id, req.body, \x7b new: true, runValidators: true \x7d)`
for a review known to exist: update validators, unique index against the other
documents, then the write.  No `save` hook runs. -/
def Review.findByIdAndUpdate (id : ObjectId) (body : ReviewBody) (old : Review) (db : Db) :
    Except Failure (Db × Review) :=
  if body.validate ≠ [] then Except.error (Failure.validation body.validate)
  else
    let review := body.apply old
    if Review.keyTaken (db.reviews.eraseP (fun r => r._id == id)) review.book review.user then
      Except.error Failure.duplicateKey
    else
      Except.ok ({ db with reviews := updateFirst (fun r => r._id == id) body.apply db.reviews },
        review)

/-- Request of `addReview`: `req.params.bookId`, `req.user`, `req.body`. -/
structure AddReviewReq where
  bookId : ObjectId
  user : AuthUser
  body : ReviewBody

/-- Request of `updateReview`: `req.params.id`, `req.user`, `req.body`. -/
structure UpdateReviewReq where
  id : ObjectId
  user : AuthUser
  body : ReviewBody

/-- Request of `deleteReview`: `req.params.id`, `req.user`. -/
structure DeleteReviewReq where
  id : ObjectId
  user : AuthUser

/-- `exports.addReview`. -/
def addReview (env : Env) (req : AddReviewReq) (w : World) : World × Response :=
  match Book.findById w.db.books req.bookId with
  | none =>
    (w, Response.fail 404 (Message.text ("Book not found with id of " ++ toString req.bookId)))
  | some _ =>
    match Review.findOne w.db.reviews req.user.id req.bookId with
    | some _ => (w, Response.fail 400 (Message.text "You have already reviewed this book"))
    | none =>
      match Review.create req.body req.bookId req.user.id w.db with
      | Except.ok (db, review) =>
        (Review.postHook env review { w with db := db }, Response.ok 201 (Data.review review))
      | Except.error e => (w, Response.fail 500 (Message.ofError e))

/-- `exports.updateReview`. -/
def updateReview (req : UpdateReviewReq) (w : World) : World × Response :=
  match Review.findById w.db.reviews req.id with
  | none =>
    (w, Response.fail 404 (Message.text ("Review not found with id of " ++ toString req.id)))
  | some review =>
    if review.user ≠ req.user.id ∧ req.user.role ≠ "admin" then
      (w, Response.fail 401 (Message.text "Not authorized to update this review"))
    else
      match Review.findByIdAndUpdate req.id req.body review w.db with
      | Except.ok (db, updated) => ({ w with db := db }, Response.ok 200 (Data.review updated))
      | Except.error e => (w, Response.fail 500 (Message.ofError e))

/-- `exports.deleteReview`; `review.remove()` deletes the document and runs the
`post('remove')` hook. -/
def deleteReview (env : Env) (req : DeleteReviewReq) (w : World) : World × Response :=
  match Review.findById w.db.reviews req.id with
  | none =>
    (w, Response.fail 404 (Message.text ("Review not found with id of " ++ toString req.id)))
  | some review =>
    if review.user ≠ req.user.id ∧ req.user.role ≠ "admin" then
      (w, Response.fail 401 (Message.text "Not authorized to delete this review"))
    else
      let db := { w.db with reviews := w.db.reviews.eraseP (fun r => r._id == req.id) }
      (Review.postHook env review { w with db := db }, Response.ok 200 Data.empty)

/-! ## `controllers/books.js` -/

/-- Body of a book request after casting: every path of `BookSchema`. -/
structure BookBody where
  title : Option String
  author : Option String
  description : Option String
  category : Option String
  coverImage : Option String
  fileUrl : Option String
  publicId : Option String
  averageRating : Option ℚ
  numReviews : Option ℚ
  user : Option ObjectId
  deriving DecidableEq

/-- Request of `createBook` and `updateBook`.  The routes mount multer's
`fields`, which never sets `req.file`; the `if (req.file ..)` branches of the
two `catch` blocks are therefore dead and not modelled. -/
structure BookReq where
  user : Option AuthUser
  body : BookBody
  files : Option Files

/-- The `enum` of `category`. -/
def categories : List String :=
  ["Fiction", "Non-fiction", "Science", "Technology", "History", "Biography", "Self-help",
   "Business", "Literature", "Other"]

/-- URL of the shared placeholder book file. -/
def placeholderUrl : String :=
  "https://res.cloudinary.com/dmub7pac7/image/upload/v1652345678/digital_library/placeholder-book.pdf"

/-- JavaScript `s || d` on an optional string: the empty string is falsy. -/
def strOr (s : Option String) (d : String) : String :=
  match s with
  | some v => if v = "" then d else v
  | none => d

/-- White space and line terminators of ECMAScript, the characters that
`String.prototype.trim` strips: tab, line feed, vertical tab, form feed,
carriage return, space, no-break space, the other space separators of Unicode,
the line and paragraph separators and the byte order mark. -/
def isJsWhitespace (c : Char) : Bool :=
  c.toNat ∈ [0x9, 0xA, 0xB, 0xC, 0xD, 0x20, 0xA0, 0x1680, 0x2028, 0x2029, 0x202F, 0x205F, 0x3000,
    0xFEFF] ∨ (0x2000 ≤ c.toNat ∧ c.toNat ≤ 0x200A)

/-- `String.prototype.trim`. -/
def jsTrim (s : String) : String :=
  String.mk ((s.data.dropWhile isJsWhitespace).reverse.dropWhile isJsWhitespace).reverse

/-- The `length` of a JavaScript string: UTF-16 code units, two for a character
outside the basic plane.  (A string here is a sequence of Unicode characters;
a lone surrogate is not one.) -/
def utf16Length (s : String) : Nat :=
  (s.data.map (fun c => if c.toNat < 0x10000 then 1 else 2)).sum

/-- Validators of the `title` path (value already trimmed): `required` and
`maxlength: 100`, the length counted as JavaScript counts it. -/
def titleFails (t : String) : Bool := t = "" ∨ 100 < utf16Length t

/-- The `default` of `averageRating` in `BookSchema`: the rating of a book
without reviews. -/
def Book.defaultAverageRating : ℚ := 1

/-- Validators of `averageRating`. -/
def averageRatingFails (x : ℚ) : Bool := x < 1 ∨ 5 < x

/-- Validators of `BookSchema` on a document: the paths that fail. -/
def Book.validate (b : Book) : List String :=
  (if titleFails b.title then ["title"] else []) ++
  (if b.author = "" then ["author"] else []) ++
  (if b.description = "" then ["description"] else []) ++
  (if b.category = "" ∨ b.category ∉ categories then ["category"] else []) ++
  (if b.fileUrl = "" then ["fileUrl"] else []) ++
  (if averageRatingFails b.averageRating then ["averageRating"] else [])

/-- Setters of `BookSchema` (`trim: true` on `title` and `author`). -/
def Book.applySetters (b : Book) : Book :=
  { b with title := jsTrim b.title, author := jsTrim b.author }

/-- `Book.create(doc)`: setters, validation, insertion. -/
def Book.create (doc : Book) (db : Db) : Except Failure (Db × Book) :=
  let book := doc.applySetters
  if book.validate ≠ [] then Except.error (Failure.validation book.validate)
  else Except.ok ({ db with books := db.books ++ [book], nextId := db.nextId + 1 }, book)

/-- Primary upload of `createBook`: the world after it, `fileUrl`, `publicId`. -/
def createBook.uploadFile (env : Env) (files : Option Files) (w : World) :
    World × String × String :=
  match files.map (fun f => f.file) with
  | some (bookFile :: _) =>
    match cloudinaryUpload env bookFile.path "auto" "digital_library/books" w with
    | (w1, some result) =>
      match unlinkSync bookFile.path w1 with
      | (w2, true) => (w2, result.secure_url, result.public_id)
      | (w2, false) => (w2, placeholderUrl, "placeholder_" ++ toString env.now)
    | (w1, none) => (w1, placeholderUrl, "placeholder_" ++ toString env.now)
  | _ => (w, placeholderUrl, "placeholder_" ++ toString env.now)

/-- Cover upload of `createBook`: the world after it and `coverImageUrl`
(`coverImagePublicId` is not a schema path and is dropped by `Book.create`). -/
def createBook.uploadCover (env : Env) (files : Option Files) (w : World) : World × String :=
  match files.map (fun f => f.coverImage) with
  | some (coverImage :: _) =>
    match cloudinaryUpload env coverImage.path "image" "digital_library/covers" w with
    | (w1, some result) =>
      match unlinkSync coverImage.path w1 with
      | (w2, true) => (w2, result.secure_url)
      | (w2, false) => (w2, "")
    | (w1, none) => (w1, "")
  | _ => (w, "")

/-- `req.body.user` after `if (req.user) req.body.user = req.user.id`. -/
def createBook.bodyUser (req : BookReq) : Option ObjectId :=
  match req.user with
  | some u => some u.id
  | none => req.body.user

/-- `exports.createBook`. -/
def createBook (env : Env) (req : BookReq) (w : World) : World × Response :=
  match createBook.uploadFile env req.files w with
  | (w1, fileUrl, publicId) =>
    match createBook.uploadCover env req.files w1 with
    | (w2, coverImageUrl) =>
      let doc : Book :=
        { _id := w2.db.nextId
          title := strOr req.body.title "Untitled Book"
          author := strOr req.body.author "Unknown Author"
          description := strOr req.body.description "No description available"
          category := strOr req.body.category "Uncategorized"
          user := (createBook.bodyUser req).getD 0
          fileUrl := fileUrl
          publicId := publicId
          coverImage := coverImageUrl
          averageRating := 1
          numReviews := 0 }
      match Book.create doc w2.db with
      | Except.ok (db, book) => ({ w2 with db := db }, Response.ok 201 (Data.book book))
      | Except.error e => (w2, Response.fail 500 (Message.ofError e))

/-- Update validators of `BookSchema`: only the paths the body sets. -/
def BookBody.validate (body : BookBody) : List String :=
  (match body.title with
    | some t => if titleFails (jsTrim t) then ["title"] else []
    | none => []) ++
  (match body.author with
    | some a => if jsTrim a = "" then ["author"] else []
    | none => []) ++
  (match body.description with
    | some d => if d = "" then ["description"] else []
    | none => []) ++
  (match body.category with
    | some c => if c = "" ∨ c ∉ categories then ["category"] else []
    | none => []) ++
  (match body.fileUrl with
    | some u => if u = "" then ["fileUrl"] else []
    | none => []) ++
  (match body.averageRating with
    | some x => if averageRatingFails x then ["averageRating"] else []
    | none => [])

/-- The `$set` a body amounts to. -/
def BookBody.apply (body : BookBody) (b : Book) : Book :=
  { b with
    title := (body.title.map jsTrim).getD b.title
    author := (body.author.map jsTrim).getD b.author
    description := body.description.getD b.description
    category := body.category.getD b.category
    coverImage := body.coverImage.getD b.coverImage
    fileUrl := body.fileUrl.getD b.fileUrl
    publicId := body.publicId.getD b.publicId
    averageRating := body.averageRating.getD b.averageRating
    numReviews := body.numReviews.getD b.numReviews
    user := body.user.getD b.user }

/-- `book.coverImagePublicId` read from a document: the path is not in
`BookSchema`, so the value is always `undefined`. -/
def Book.coverImagePublicId (_b : Book) : Option String := none

/-- Outcome of one of the two replacement blocks of `updateBook`: the body
extended by the block, or the error thrown inside it. -/
abbrev Block := World × Except Failure BookBody

/-- Primary-file block of `updateBook`. -/
def updateBook.replaceFile (env : Env) (book : Book) (req : BookReq) (w : World) : Block :=
  match req.files.map (fun f => f.file) with
  | some (bookFile :: _) =>
    match (if book.publicId ≠ "" then cloudinaryDestroy env book.publicId w else (w, true)) with
    | (w1, false) => (w1, Except.error Failure.cloudinary)
    | (w1, true) =>
      match cloudinaryUpload env bookFile.path "raw" "digital_library/books" w1 with
      | (w2, none) => (w2, Except.error Failure.cloudinary)
      | (w2, some result) =>
        let body := { req.body with
          fileUrl := some result.secure_url, publicId := some result.public_id }
        match unlinkSync bookFile.path w2 with
        | (w3, false) => (w3, Except.error Failure.enoent)
        | (w3, true) => (w3, Except.ok body)
  | _ => (w, Except.ok req.body)

/-- Cover block of `updateBook`; it receives the body left by the first block. -/
def updateBook.replaceCover (env : Env) (book : Book) (files : Option Files) (body : BookBody)
    (w : World) : Block :=
  match files.map (fun f => f.coverImage) with
  | some (coverImage :: _) =>
    match (match book.coverImagePublicId with
      | some pid => if pid ≠ "" then cloudinaryDestroy env pid w else (w, true)
      | none => (w, true)) with
    | (w1, false) => (w1, Except.error Failure.cloudinary)
    | (w1, true) =>
      match cloudinaryUpload env coverImage.path "image" "digital_library/covers" w1 with
      | (w2, none) => (w2, Except.error Failure.cloudinary)
      | (w2, some result) =>
        match unlinkSync coverImage.path w2 with
        | (w3, false) => (w3, Except.error Failure.enoent)
        | (w3, true) => (w3, Except.ok { body with coverImage := some result.secure_url })
  | _ => (w, Except.ok body)

/-- `Book.findByIdAndUpdate(id, req.body, \x7b new: true, runValidators: true \x7d)` for
a book known to exist. -/
def Book.findByIdAndUpdate (id : ObjectId) (body : BookBody) (old : Book) (db : Db) :
    Except Failure (Db × Book) :=
  if body.validate ≠ [] then Except.error (Failure.validation body.validate)
  else
    Except.ok ({ db with books := updateFirst (fun b => b._id == id) body.apply db.books },
      body.apply old)

/-- `exports.updateBook`. -/
def updateBook (env : Env) (id : ObjectId) (req : BookReq) (w : World) : World × Response :=
  match Book.findById w.db.books id with
  | none => (w, Response.fail 404 (Message.text ("Book not found with id of " ++ toString id)))
  | some book =>
    match updateBook.replaceFile env book req w with
    | (w1, Except.error e) => (w1, Response.fail 500 (Message.ofError e))
    | (w1, Except.ok body1) =>
      match updateBook.replaceCover env book req.files body1 w1 with
      | (w2, Except.error e) => (w2, Response.fail 500 (Message.ofError e))
      | (w2, Except.ok body2) =>
        match Book.findByIdAndUpdate id body2 book w2.db with
        | Except.ok (db, updated) => ({ w2 with db := db }, Response.ok 200 (Data.book updated))
        | Except.error e => (w2, Response.fail 500 (Message.ofError e))

/-- `book.remove()`: the `pre('remove')` hook deletes the reviews of the book
(`deleteMany` runs no review hook), then the document is deleted. -/
def Book.remove (book : Book) (db : Db) : Db :=
  { db with
    reviews := db.reviews.filter (fun r => !(r.book == book._id))
    books := db.books.eraseP (fun b => b._id == book._id) }

/-- `exports.deleteBook`. -/
def deleteBook (env : Env) (id : ObjectId) (w : World) : World × Response :=
  match Book.findById w.db.books id with
  | none => (w, Response.fail 404 (Message.text ("Book not found with id of " ++ toString id)))
  | some book =>
    match (if book.publicId ≠ "" then cloudinaryDestroy env book.publicId w else (w, true)) with
    | (w1, false) => (w1, Response.fail 500 (Message.ofError Failure.cloudinary))
    | (w1, true) => ({ w1 with db := Book.remove book w1.db }, Response.ok 200 Data.empty)

/-! ## Sequences of operations -/

/-- One call of a handler together with the outcomes of its collaborators. -/
inductive Op
  | createBook (env : Env) (req : BookReq)
  | updateBook (env : Env) (id : ObjectId) (req : BookReq)
  | deleteBook (env : Env) (id : ObjectId)
  | addReview (env : Env) (req : AddReviewReq)
  | updateReview (req : UpdateReviewReq)
  | deleteReview (env : Env) (req : DeleteReviewReq)

/-- Multer's `fields` middleware, mounted ahead of `createBook` and
`updateBook`: the files of the request are on disk when the handler starts. -/
def multerFields (files : Option Files) (w : World) : World :=
  match files with
  | some f => { w with tmpFiles := w.tmpFiles ++ (f.file ++ f.coverImage).map (fun u => u.path) }
  | none => w

/-- Runs one handler. -/
def step (w : World) : Op → World × Response
  | Op.createBook env req => DigitalLibrary.createBook env req (multerFields req.files w)
  | Op.updateBook env id req => DigitalLibrary.updateBook env id req (multerFields req.files w)
  | Op.deleteBook env id => DigitalLibrary.deleteBook env id w
  | Op.addReview env req => DigitalLibrary.addReview env req w
  | Op.updateReview req => DigitalLibrary.updateReview req w
  | Op.deleteReview env req => DigitalLibrary.deleteReview env req w

/-- Runs handlers one after the other, each to completion. -/
def run (w : World) (ops : List Op) : World :=
  ops.foldl (fun acc op => (step acc op).1) w

/-- The empty deployment. -/
def World.empty : World :=
  { db := { books := [], reviews := [], nextId := 1 }, assets := [], tmpFiles := [], trace := [] }

/-! ## Reference notions used by the statements -/

/-- Reviews whose `book` field is `bookId`. -/
def reviewsOf (db : Db) (bookId : ObjectId) : List Review :=
  db.reviews.filter (fun r => r.book == bookId)

/-- Arithmetic mean of a list of ratings. -/
def mean (xs : List ℚ) : ℚ := xs.sum / (xs.length : ℚ)

/-- Ratings of the reviews of a book. -/
def ratingsOf (db : Db) (bookId : ObjectId) : List ℚ :=
  (reviewsOf db bookId).map (fun r => r.rating)

/-- State of a book's aggregate that agrees with its reviews: the count always,
the mean when there is a review. -/
def Book.agrees (b : Book) (db : Db) : Prop :=
  b.numReviews = ((reviewsOf db b._id).length : ℚ) ∧
    (reviewsOf db b._id ≠ [] → b.averageRating = mean (ratingsOf db b._id))

/-- No two reviews share the pair of `book` and `user`. -/
def UniquePairs (db : Db) : Prop :=
  db.reviews.Pairwise (fun a b => ¬(a.book = b.book ∧ a.user = b.user))

/-- Valid metadata of a book: the required fields title, author, description
and category are present (not blank), the trimmed title has a `length` of at
most 100 and the category is one of the enumeration. -/
def validMetadata (body : BookBody) : Prop :=
  (∃ t, body.title = some t ∧ jsTrim t ≠ "" ∧ utf16Length (jsTrim t) ≤ 100) ∧
    (∃ a, body.author = some a ∧ jsTrim a ≠ "") ∧
    (∃ d, body.description = some d ∧ d ≠ "") ∧
    (∃ c, body.category = some c ∧ c ∈ categories)

/-- The primary upload of a `createBook` request fails, or the request carries
no primary file. -/
def primaryUploadFails (env : Env) (req : BookReq) (w : World) : Prop :=
  match req.files.map (fun f => f.file) with
  | some (bookFile :: _) => bookFile.path ∉ w.tmpFiles ∨ env.upload bookFile.path = none
  | _ => True

/-- The request carries a cover image and Cloudinary rejects its upload. -/
def coverUploadFails (env : Env) (req : BookReq) : Prop :=
  match req.files.map (fun f => f.coverImage) with
  | some (coverImage :: _) => env.upload coverImage.path = none
  | _ => False

/-- The aggregate invariant of the record store: book ids are distinct and
below the next id, reviews reference ids below the next id, and every stored
book agrees with its reviews. -/
def Db.Consistent (db : Db) : Prop :=
  db.books.Pairwise (fun a b => a._id ≠ b._id) ∧
    (∀ b ∈ db.books, b._id < db.nextId) ∧
    (∀ r ∈ db.reviews, r.book < db.nextId) ∧
    (∀ b ∈ db.books, b.agrees db)

/-- Calls on which the aggregate is maintained: the aggregate write is accepted,
an `updateBook` body carries neither aggregate path, and an `updateReview` body
carries neither `rating` nor `book`. -/
def Op.keepsAggregate : Op → Prop
  | Op.createBook _ _ => True
  | Op.updateBook _ _ req => req.body.averageRating = none ∧ req.body.numReviews = none
  | Op.deleteBook _ _ => True
  | Op.addReview env _ => env.aggregateWriteOk = true
  | Op.updateReview req => req.body.rating = none ∧ req.body.book = none
  | Op.deleteReview env _ => env.aggregateWriteOk = true

/-! ## Sample requests -/

/-- Collaborators that accept every call. -/
def sampleEnv : Env :=
  { now := 1700000000000
    upload := fun p => some { secure_url := "https://cdn.example/" ++ p, public_id := "asset_" ++ p }
    destroy := fun _ => DestroyOutcome.ok
    aggregateWriteOk := true }

/-- Metadata of a book; the two aggregate paths are present and must be ignored
by `createBook`. -/
def sampleBody : BookBody :=
  { title := some "Dune", author := some "Frank Herbert", description := some "A novel"
    category := some "Fiction", coverImage := none, fileUrl := none, publicId := none
    averageRating := some 4, numReviews := some 9, user := none }

/-- A `createBook` request with a primary file staged at `path`. -/
def sampleCreate (path : String) : BookReq :=
  { user := some { id := 7, role := "admin" }
    body := sampleBody
    files := some { file := [{ path := path }], coverImage := [] } }

/-- Collaborators with Cloudinary rejecting every upload. -/
def rejectingEnv : Env := { sampleEnv with upload := fun _ => none }

/-- A `createBook` request with a book file and a cover image. -/
def coverCreate : BookReq :=
  { user := some { id := 7, role := "admin" }
    body := sampleBody
    files := some { file := [{ path := "dune.pdf" }], coverImage := [{ path := "dune.png" }] } }

/-- Two readers. -/
def alice : AuthUser := { id := 10, role := "user" }

/-- The second reader. -/
def bob : AuthUser := { id := 11, role := "user" }

/-- A review body with a rating and a comment only. -/
def rate (rating : ℚ) : ReviewBody :=
  { rating := some rating, comment := some "read it", book := none, user := none }

/-- One book (id 1) reviewed by `alice` with rating 5 (review id 2). -/
def oneReview : List Op :=
  [Op.createBook sampleEnv (sampleCreate "dune.pdf"),
   Op.addReview sampleEnv { bookId := 1, user := alice, body := rate 5 }]

/-- One book (id 1) reviewed by `alice` with rating 5 (review id 2) and by
`bob` with rating 3 (review id 3). -/
def twoReviews : List Op :=
  oneReview ++ [Op.addReview sampleEnv { bookId := 1, user := bob, body := rate 3 }]

/-- Two books (ids 1 and 2), the first reviewed by `alice` (review id 3). -/
def twoBooks : List Op :=
  [Op.createBook sampleEnv (sampleCreate "dune.pdf"),
   Op.createBook sampleEnv (sampleCreate "emma.pdf"),
   Op.addReview sampleEnv { bookId := 1, user := alice, body := rate 5 }]

/-- A book holding stale aggregate values. -/
def staleBook : Book :=
  { _id := 1, title := "Dune", author := "Frank Herbert", description := "A novel"
    category := "Fiction", coverImage := "", fileUrl := placeholderUrl, publicId := "p"
    averageRating := 1, numReviews := 7, user := 7 }

/-- A store where `staleBook` has two reviews, with ratings 5 and 3. -/
def staleDb : Db :=
  { books := [staleBook]
    reviews :=
      [{ _id := 2, rating := 5, comment := "a", book := 1, user := 10 },
       { _id := 3, rating := 3, comment := "b", book := 1, user := 11 },
       { _id := 4, rating := 1, comment := "c", book := 9, user := 11 }]
    nextId := 5 }

/-! ## Notions and sample requests for the asset lifecycle -/

/-- Is the call a `cloudinary.uploader.destroy`? -/
def Call.isDestroy : Call → Bool
  | Call.destroy _ => true
  | _ => false

/-- Is the call a `cloudinary.uploader.upload`? -/
def Call.isUpload : Call → Bool
  | Call.upload _ _ _ => true
  | _ => false

/-- Book ids are distinct and below the next fresh id. -/
def Db.WellFormed (db : Db) : Prop :=
  db.books.Pairwise (fun a b => a._id ≠ b._id) ∧ ∀ b ∈ db.books, b._id < db.nextId

/-- The category of the request is absent or outside the enumeration. -/
def badCategory (body : BookBody) : Prop :=
  ∀ c, body.category = some c → c ∉ categories

/-- A body that sets no path. -/
def emptyBody : BookBody :=
  { title := none, author := none, description := none, category := none, coverImage := none
    fileUrl := none, publicId := none, averageRating := none, numReviews := none, user := none }

/-- A `createBook` request that carries only a category, and no file. -/
def bareCreate : BookReq :=
  { user := some { id := 7, role := "admin" }
    body := { emptyBody with category := some "Fiction" }
    files := none }

/-- A `createBook` request with a book file whose body lacks the category. -/
def uncategorizedCreate : BookReq :=
  { user := some { id := 7, role := "admin" }
    body := { sampleBody with category := none }
    files := some { file := [{ path := "dune.pdf" }], coverImage := [] } }

/-- An `updateBook` request that supplies a new primary file only. -/
def fileUpdate (path : String) : BookReq :=
  { user := some { id := 7, role := "admin" }
    body := emptyBody
    files := some { file := [{ path := path }], coverImage := [] } }

/-- An `updateBook` request that supplies a new cover image only. -/
def coverUpdate (path : String) : BookReq :=
  { user := some { id := 7, role := "admin" }
    body := emptyBody
    files := some { file := [], coverImage := [{ path := path }] } }

/-- Collaborators with Cloudinary rejecting every destroy. -/
def destroyRejectingEnv : Env := { sampleEnv with destroy := fun _ => DestroyOutcome.rejected }

/-- One book (id 1) whose primary file was uploaded as `asset_dune.pdf`. -/
def uploadedBook : List Op := [Op.createBook sampleEnv (sampleCreate "dune.pdf")]

/-- One book (id 1) with an uploaded primary file and an uploaded cover image
(`asset_dune.pdf`, `asset_dune.png`). -/
def coveredBook : List Op := [Op.createBook sampleEnv coverCreate]

/-- One book (id 1) created without a file: its primary asset is the
placeholder. -/
def placeholderBook : List Op := [Op.createBook sampleEnv bareCreate]

/-- The book stored by `uploadedBook`. -/
def duneBook : Book :=
  { _id := 1, title := "Dune", author := "Frank Herbert", description := "A novel"
    category := "Fiction", coverImage := "", fileUrl := "https://cdn.example/dune.pdf"
    publicId := "asset_dune.pdf", averageRating := 1, numReviews := 0, user := 7 }


/-! ## Notions and sample requests for frame properties -/

/-- Is the call an upload into the folder of the book files? -/
def Call.isBookUpload : Call → Bool
  | Call.upload _ _ folder => folder == "digital_library/books"
  | _ => false

/-- The request supplies no primary file: `req.files.file` is absent or empty. -/
def noPrimaryFile (req : BookReq) : Prop :=
  ∀ files, req.files = some files → files.file = []

/-- The request supplies no cover image: `req.files.coverImage` is absent or
empty. -/
def noCoverImage (req : BookReq) : Prop :=
  ∀ files, req.files = some files → files.coverImage = []

/-- An `updateBook` request without files whose body names another primary
asset. -/
def assetBodyUpdate : BookReq :=
  { user := some { id := 7, role := "admin" }
    body := { emptyBody with
      fileUrl := some "https://elsewhere.example/x.pdf", publicId := some "x"
      coverImage := some "https://elsewhere.example/x.png" }
    files := none }

/-- An `updateBook` request without files whose body carries the two aggregate
paths. -/
def aggregateBodyUpdate : BookReq :=
  { user := some { id := 7, role := "admin" }
    body := { emptyBody with averageRating := some 5, numReviews := some 100 }
    files := none }

/-- An `updateBook` request without files that changes the title only. -/
def titleUpdate : BookReq :=
  { user := some { id := 7, role := "admin" }
    body := { emptyBody with title := some "Dune Messiah" }
    files := none }

/-! ## Sample collaborators for the review claims -/

/-- Collaborators whose record store rejects the aggregate write. -/
def writeFailingEnv : Env := { sampleEnv with aggregateWriteOk := false }

/-- A reader who wrote no review and is no admin. -/
def carol : AuthUser := { id := 12, role := "user" }

/-! ## `middleware/upload.js`: `fileFilter` -/

/-- A file as multer presents it to `fileFilter`. -/
structure IncomingFile where
  originalname : String
  mimetype : String
  deriving DecidableEq

/-- Does the text begin with the pattern? -/
def startsWith : List Char → List Char → Bool
  | [], _ => true
  | _ :: _, [] => false
  | p :: ps, c :: cs => p == c && startsWith ps cs

/-- Does the pattern occur somewhere in the text? -/
def occursIn (pat : List Char) : List Char → Bool
  | [] => startsWith pat []
  | c :: cs => startsWith pat (c :: cs) || occursIn pat cs

/-- The alternatives of the regular expression `/pdf|epub|jpg|jpeg|png/`. -/
def filetypes : List String := ["pdf", "epub", "jpg", "jpeg", "png"]

/-- `filetypes.test(s)`: the expression has no anchor, so it matches when one of
its alternatives occurs anywhere in `s`. -/
def filetypesTest (s : String) : Bool :=
  filetypes.any (fun t => occursIn t.data s.data)

/-- `String.prototype.toLowerCase` (on the letters `A` to `Z`; no other
character lower-cases to a letter of the alternatives). -/
def toLowerCase (s : String) : String :=
  String.mk (s.data.map Char.toLower)

/-- `path.extname` (POSIX): the part of the last path segment from its last dot
on; empty when the segment has no dot, when the dot is its first character, and
for the segment `..`.  Trailing separators are ignored. -/
def extname (p : String) : String :=
  let trimmed := (p.data.reverse.dropWhile (fun c => c == '/')).reverse
  let base := (trimmed.reverse.takeWhile (fun c => c != '/')).reverse
  let ext := (base.reverse.takeWhile (fun c => c != '.')).reverse
  if base.all (fun c => c != '.') then ""
  else if base.length = ext.length + 1 then ""
  else if base = ['.', '.'] then ""
  else String.mk ('.' :: ext)

/-- What `fileFilter` hands to its callback. -/
inductive FilterResult
  | accept
  | reject (message : String)
  deriving DecidableEq

/-- `fileFilter` of `middleware/upload.js`. -/
def fileFilter (file : IncomingFile) : FilterResult :=
  let extnameOk := filetypesTest (toLowerCase (extname file.originalname))
  let mimetypeOk := filetypesTest file.mimetype
  if extnameOk && mimetypeOk then FilterResult.accept
  else FilterResult.reject "Only PDF, EPUB, and image files are allowed"

/-- The pattern occurs in the text: the text is the pattern between two
texts. -/
def Occurs (pat text : List Char) : Prop :=
  ∃ before after, text = before ++ pat ++ after

/-- One of the alternatives occurs in the string. -/
def mentionsFiletype (s : String) : Prop :=
  ∃ t ∈ filetypes, Occurs t.data s.data

/-- The extensions the filter is meant for. -/
def listedExtensions : List String := [".pdf", ".epub", ".jpg", ".jpeg", ".png"]

/-- The usual MIME types of the files the filter is meant for. -/
def listedMimetypes : List String :=
  ["application/pdf", "application/epub+zip", "image/jpeg", "image/png"]

/-! ## `routes/users.js`: `PUT /api/users/:id` -/

/-- A JSON value of a request body; an array or an object is kept as its
text. -/
inductive Json
  | null
  | bool (b : Bool)
  | num (x : ℚ)
  | str (s : String)
  | structured (text : String)
  deriving DecidableEq

/-- JavaScript truthiness of a JSON value. -/
def Json.truthy : Json → Bool
  | Json.null => false
  | Json.bool b => b
  | Json.num x => x != 0
  | Json.str s => s != ""
  | Json.structured _ => true

/-- A parsed JSON object: its fields, with distinct keys. -/
abbrev JsonObject := List (String × Json)

/-- Is `body[key]` truthy?  An absent field is `undefined`. -/
def truthyField (body : JsonObject) (key : String) : Bool :=
  match body.lookup key with
  | some v => v.truthy
  | none => false

/-- `delete body[key]`. -/
def deleteField (body : JsonObject) (key : String) : JsonObject :=
  body.filter (fun kv => kv.1 != key)

/-- Request of `PUT /api/users/:id`: `req.user`, `req.params.id`, `req.body`. -/
structure PutUserReq where
  user : AuthUser
  id : ObjectId
  body : JsonObject

/-- The `PUT /:id` handler up to the record store: `none` when the caller is
answered 401, otherwise the update document handed to
`User.findByIdAndUpdate`. -/
def putUser.updateDocument (req : PutUserReq) : Option JsonObject :=
  if req.user.role ≠ "admin" ∧ req.user.id ≠ req.id then none
  else
    let body1 :=
      if truthyField req.body "password" then deleteField req.body "password" else req.body
    let body2 :=
      if req.user.role ≠ "admin" ∧ truthyField body1 "role" then deleteField body1 "role"
      else body1
    some body2

/-- Does the document carry the field? -/
def hasField (doc : JsonObject) (key : String) : Bool :=
  doc.any (fun kv => kv.1 == key)

/-! ## Request parameters: the cast to `ObjectId` -/

/-- A character of the class `[0-9a-fA-F]`. -/
def isHexDigit (c : Char) : Bool :=
  (48 ≤ c.toNat ∧ c.toNat ≤ 57) ∨ (65 ≤ c.toNat ∧ c.toNat ≤ 70) ∨ (97 ≤ c.toNat ∧ c.toNat ≤ 102)

/-- Value of a hexadecimal digit. -/
def hexDigitValue (c : Char) : Nat :=
  if c.toNat ≤ 57 then c.toNat - 48 else if c.toNat ≤ 70 then c.toNat - 55 else c.toNat - 87

/-- The cast Mongoose applies to `req.params.id` inside `findById`: a string of
24 hexadecimal digits is the id with that value, a string of 12 one-byte
characters is the id with these bytes, and every other string is a `CastError`
(`none`).  Releases of the driver differ on strings of 12 characters with a
character outside ASCII; here they are errors, and the statements about
malformed ids leave strings of `length` 12 out. -/
def castObjectId (s : String) : Option ObjectId :=
  if s.data.length = 24 ∧ s.data.all isHexDigit then
    some (s.data.foldl (fun acc c => 16 * acc + hexDigitValue c) 0)
  else if s.data.length = 12 ∧ s.data.all (fun c => c.toNat < 128) then
    some (s.data.foldl (fun acc c => 256 * acc + c.toNat) 0)
  else none

/-- A handler addressed through a route parameter.  The handler hands the
parameter to `findById` inside its `try` block before it reads or writes
anything else; when the cast fails, the error is caught by the `catch` block of
the handler, which answers 500 with the message of the error and does nothing
else. -/
def atParam (raw : String) (handler : ObjectId → World → World × Response) (w : World) :
    World × Response :=
  match castObjectId raw with
  | some id => handler id w
  | none => (w, Response.fail 500 (Message.castError raw))

/-! ## Notions for the assets of `createBook` -/

/-- Public ids Cloudinary stores for the upload of the first file of a field:
the id it returns when the file is staged and the upload resolves. -/
def storedFor (env : Env) (staged : List String) : List UploadedFile → List String
  | f :: _ =>
    if f.path ∈ staged then
      match env.upload f.path with
      | some r => [r.public_id]
      | none => []
    else []
  | [] => []

/-- Staged files left by an upload block: the file of a resolved upload is
removed from the disk. -/
def stagedAfter (env : Env) (staged : List String) : List UploadedFile → List String
  | f :: _ =>
    if f.path ∈ staged then
      match env.upload f.path with
      | some _ => staged.filter (fun p => p != f.path)
      | none => staged
    else staged
  | [] => staged

/-- Public ids Cloudinary stores for the uploads of a `createBook` request: for
the book file, then for the cover image. -/
def storedAssets (env : Env) (files : Option Files) (staged : List String) : List String :=
  match files with
  | none => []
  | some fs =>
    storedFor env staged fs.file ++ storedFor env (stagedAfter env staged fs.file) fs.coverImage

/-! # Theorems -/

/-! ## Lemmas on the collection primitives -/

theorem find?_updateFirst {α : Type} (p : α → Bool) (f : α → α)
    (hf : ∀ x, p x = true → p (f x) = true) (l : List α) :
    (updateFirst p f l).find? p = (l.find? p).map f := by
  induction l with
  | nil => rfl
  | cons x xs ih =>
    by_cases hx : p x = true
    · simp [updateFirst, hx, List.find?, hf x hx]
    · simp [updateFirst, hx, List.find?, ih]

theorem updateFirst_idem {α : Type} (p : α → Bool) (f : α → α)
    (hf : ∀ x, p x = true → p (f x) = true) (hff : ∀ x, f (f x) = f x) (l : List α) :
    updateFirst p f (updateFirst p f l) = updateFirst p f l := by
  induction l with
  | nil => rfl
  | cons x xs ih =>
    by_cases hx : p x = true
    · simp [updateFirst, hx, hf x hx, hff]
    · simp [updateFirst, hx, ih]

/-! ## The aggregation pipeline computes count and mean -/

theorem foldl_push (l : List Review) (acc : GroupAcc) :
    l.foldl GroupAcc.push acc =
      { ratingSum := acc.ratingSum + (l.map (fun r => r.rating)).sum
        ratingCount := acc.ratingCount + l.length
        numReviews := acc.numReviews + (l.length : ℚ) } := by
  induction l generalizing acc with
  | nil => simp
  | cons r rs ih =>
    simp only [List.foldl_cons, ih, GroupAcc.push, List.map_cons, List.sum_cons, List.length_cons]
    congr 1
    · ring
    · omega
    · push_cast; ring

theorem aggregate_of_ne_nil (db : Db) (bookId : ObjectId) (h : reviewsOf db bookId ≠ []) :
    Review.aggregate db.reviews bookId =
      [{ _id := bookId
         averageRating := mean (ratingsOf db bookId)
         numReviews := ((reviewsOf db bookId).length : ℚ) }] := by
  unfold Review.aggregate
  unfold ratingsOf
  unfold reviewsOf at h ⊢
  split
  · rename_i heq
    exact absurd heq h
  · rename_i r rs heq
    simp only [heq, foldl_push, mean]
    simp

theorem aggregate_of_nil (db : Db) (bookId : ObjectId) (h : reviewsOf db bookId = []) :
    Review.aggregate db.reviews bookId = [] := by
  unfold Review.aggregate
  unfold reviewsOf at h
  rw [h]

theorem getAverageRating_reviews (ok : Bool) (bookId : ObjectId) (db : Db) :
    (Review.getAverageRating ok bookId db).reviews = db.reviews := by
  unfold Review.getAverageRating
  cases ok <;> simp

theorem getAverageRating_idem (ok : Bool) (bookId : ObjectId) (db : Db) :
    Review.getAverageRating ok bookId (Review.getAverageRating ok bookId db) =
      Review.getAverageRating ok bookId db := by
  cases ok
  · simp [Review.getAverageRating]
  · simp only [Review.getAverageRating, if_true, Book.setAggregate]
    rw [updateFirst_idem]
    · intro x hx; simpa using hx
    · intro x; rfl

theorem getAverageRating_findById (db : Db) (bookId : ObjectId) (b : Book)
    (hb : Book.findById db.books bookId = some b) (hr : reviewsOf db bookId ≠ []) :
    Book.findById (Review.getAverageRating true bookId db).books bookId =
      some { b with
        numReviews := ((reviewsOf db bookId).length : ℚ)
        averageRating := mean (ratingsOf db bookId) } := by
  unfold Book.findById at hb ⊢
  simp only [Review.getAverageRating, if_true, Book.setAggregate, aggregate_of_ne_nil db bookId hr]
  rw [find?_updateFirst _ _ (by intro x hx; simpa using hx), hb]
  rfl

theorem getAverageRating_findById_nil (db : Db) (bookId : ObjectId) (b : Book)
    (hb : Book.findById db.books bookId = some b) (hr : reviewsOf db bookId = []) :
    Book.findById (Review.getAverageRating true bookId db).books bookId =
      some { b with numReviews := 0, averageRating := 0 } := by
  unfold Book.findById at hb ⊢
  simp only [Review.getAverageRating, if_true, Book.setAggregate, aggregate_of_nil db bookId hr]
  rw [find?_updateFirst _ _ (by intro x hx; simpa using hx), hb]
  rfl

/-! ## C1: what `getAverageRating` writes -/

/-- C1. For a stored book with at least one review, `getAverageRating` (its
write accepted) leaves the book with `numReviews` equal to the number of reviews
whose `book` is the id and `averageRating` equal to the arithmetic mean of their
ratings, whatever the two fields held before; the reviews are untouched and a
second run changes nothing. -/
theorem getAverageRating_writes_count_and_mean (db : Db) (bookId : ObjectId) (b : Book)
    (hb : Book.findById db.books bookId = some b) (hr : reviewsOf db bookId ≠ []) :
    Book.findById (Review.getAverageRating true bookId db).books bookId =
        some { b with
          numReviews := ((reviewsOf db bookId).length : ℚ)
          averageRating := mean (ratingsOf db bookId) } ∧
      (Review.getAverageRating true bookId db).reviews = db.reviews ∧
      Review.getAverageRating true bookId (Review.getAverageRating true bookId db) =
        Review.getAverageRating true bookId db :=
  ⟨getAverageRating_findById db bookId b hb hr, getAverageRating_reviews _ _ _,
    getAverageRating_idem _ _ _⟩

/-- C1 on `staleDb`: the stale values 1 and 7 are replaced by the mean 4 and the
count 2 of the two reviews of book 1. -/
theorem getAverageRating_writes_count_and_mean_witness :
    Book.findById staleDb.books 1 = some staleBook ∧ reviewsOf staleDb 1 ≠ [] ∧
      Book.findById (Review.getAverageRating true 1 staleDb).books 1 =
        some { staleBook with numReviews := 2, averageRating := 4 } := by
  refine ⟨rfl, by decide, ?_⟩
  rw [(getAverageRating_writes_count_and_mean staleDb 1 staleBook rfl (by decide)).1]
  with_unfolding_all decide

/-! ## C2: a book left without reviews -/

/-- C2 on a concrete run: `createBook` gives the new book the schema default
`averageRating` 1; after the book's only review is added and deleted again the
recompute writes `numReviews = 0` and `averageRating = 0`, which is not the
default. -/
theorem recompute_without_reviews_writes_zero :
    (run World.empty [Op.createBook sampleEnv (sampleCreate "dune.pdf")]).db.books.map
        (fun b => (b.numReviews, b.averageRating)) = [(0, Book.defaultAverageRating)] ∧
      reviewsOf (run World.empty
        (oneReview ++ [Op.deleteReview sampleEnv { id := 2, user := alice }])).db 1 = [] ∧
      (run World.empty
        (oneReview ++ [Op.deleteReview sampleEnv { id := 2, user := alice }])).db.books.map
        (fun b => (b.numReviews, b.averageRating)) = [(0, 0)] ∧
      (0 : ℚ) ≠ Book.defaultAverageRating := by
  with_unfolding_all decide

/-! ## C3, C4, C5: `updateReview` runs no recompute -/

/-- C3 on a concrete run: with books 1 and 2 stored and book 1 reviewed once,
an accepted `updateReview` whose body names book 2 moves the review; book 1
keeps `numReviews = 1` with no review left and book 2 keeps `numReviews = 0`
with one review. -/
theorem updateReview_leaves_numReviews_stale :
    (step (run World.empty twoBooks)
        (Op.updateReview { id := 3, user := alice, body := { rate 5 with book := some 2 } })).2.status
        = 200 ∧
      (run World.empty (twoBooks ++
        [Op.updateReview { id := 3, user := alice, body := { rate 5 with book := some 2 } }])).db.books.map
        (fun b => (b._id, b.numReviews)) = [(1, 1), (2, 0)] ∧
      (reviewsOf (run World.empty (twoBooks ++
        [Op.updateReview { id := 3, user := alice, body := { rate 5 with book := some 2 } }])).db
        1).length = 0 ∧
      (reviewsOf (run World.empty (twoBooks ++
        [Op.updateReview { id := 3, user := alice, body := { rate 5 with book := some 2 } }])).db
        2).length = 1 := by
  with_unfolding_all decide

/-- C4 on a concrete run: book 1 has reviews rated 5 and 3; after an accepted
`updateReview` sets the first rating to 1 the book has `numReviews = 2` and
`averageRating = 4`, while the mean of the ratings 1 and 3 is 2. -/
theorem updateReview_leaves_averageRating_stale :
    (run World.empty (twoReviews ++
        [Op.updateReview { id := 2, user := alice, body := rate 1 }])).db.books.map
        (fun b => (b._id, b.numReviews, b.averageRating)) = [(1, 2, 4)] ∧
      ratingsOf (run World.empty (twoReviews ++
        [Op.updateReview { id := 2, user := alice, body := rate 1 }])).db 1 = [1, 3] ∧
      mean [1, 3] = 2 := by
  with_unfolding_all decide

/-- C5 on a concrete run: book 1 has one review rated 5; `updateReview` by its
author with rating 3 answers 200, issues no `getAverageRating` call and leaves
the book's `averageRating` at 5, while the review now carries rating 3. -/
theorem updateReview_issues_no_recompute :
    (step (run World.empty oneReview)
        (Op.updateReview { id := 2, user := alice, body := rate 3 })).2.status = 200 ∧
      (step (run World.empty oneReview)
        (Op.updateReview { id := 2, user := alice, body := rate 3 })).1.trace =
        (run World.empty oneReview).trace ∧
      (step (run World.empty oneReview)
        (Op.updateReview { id := 2, user := alice, body := rate 3 })).1.db.books.map
        (fun b => b.averageRating) = [5] ∧
      ratingsOf (step (run World.empty oneReview)
        (Op.updateReview { id := 2, user := alice, body := rate 3 })).1.db 1 = [3] := by
  with_unfolding_all decide

theorem reviewUpdate_ok (id : ObjectId) (body : ReviewBody) (old : Review) (db db' : Db)
    (r : Review) (h : Review.findByIdAndUpdate id body old db = Except.ok (db', r)) :
    body.validate = [] ∧
      Review.keyTaken (db.reviews.eraseP (fun x => x._id == id)) (body.apply old).book
        (body.apply old).user = false ∧
      db' = { db with reviews := updateFirst (fun x => x._id == id) body.apply db.reviews } ∧
      r = body.apply old := by
  unfold Review.findByIdAndUpdate at h
  by_cases hv : body.validate = []
  · by_cases hk : Review.keyTaken (db.reviews.eraseP (fun x => x._id == id)) (body.apply old).book
        (body.apply old).user = true
    · simp [hv, hk] at h
    · have hk' : Review.keyTaken (db.reviews.eraseP (fun x => x._id == id)) (body.apply old).book
          (body.apply old).user = false := by simpa using hk
      simp only [hv, ne_eq, not_true_eq_false, if_false, hk', Bool.false_eq_true, Except.ok.injEq,
        Prod.mk.injEq] at h
      exact ⟨hv, hk', h.1.symm, h.2.symm⟩
  · simp [hv] at h

/-- The world of `updateReview` changes in the review collection only: books,
assets, files and the call trace are as before. -/
theorem updateReview_frame (req : UpdateReviewReq) (w : World) :
    (updateReview req w).1.db.books = w.db.books ∧
      (updateReview req w).1.trace = w.trace ∧
      (updateReview req w).1.assets = w.assets ∧
      (updateReview req w).1.tmpFiles = w.tmpFiles := by
  unfold updateReview
  split
  · simp
  · split
    · simp
    · split
      · rename_i db updated heq
        obtain ⟨-, -, hdb, -⟩ := reviewUpdate_ok _ _ _ _ _ _ heq
        simp [hdb]
      · simp

/-! ## C6: `addReview` and `deleteReview` recompute once -/

theorem reviewCreate_ok (body : ReviewBody) (book user : ObjectId) (db db' : Db) (r : Review)
    (h : Review.create body book user db = Except.ok (db', r)) :
    Review.validate body.rating body.comment = [] ∧ Review.keyTaken db.reviews book user = false ∧
      r = { _id := db.nextId, rating := body.rating.getD 0, comment := body.comment.getD ""
            book := book, user := user } ∧
      db' = { db with reviews := db.reviews ++ [r], nextId := db.nextId + 1 } := by
  unfold Review.create at h
  by_cases hv : Review.validate body.rating body.comment = []
  · by_cases hk : Review.keyTaken db.reviews book user = true
    · simp [hv, hk] at h
    · have hk' : Review.keyTaken db.reviews book user = false := by simpa using hk
      simp only [hv, ne_eq, not_true_eq_false, if_false, hk', Bool.false_eq_true, Except.ok.injEq,
        Prod.mk.injEq] at h
      obtain ⟨h1, h2⟩ := h
      subst h2
      exact ⟨hv, hk', rfl, h1.symm⟩
  · simp [hv] at h

theorem addReview_created (env : Env) (req : AddReviewReq) (w w' : World) (review : Review)
    (h : addReview env req w = (w', Response.ok 201 (Data.review review))) :
    (∃ b, Book.findById w.db.books req.bookId = some b) ∧
      Review.findOne w.db.reviews req.user.id req.bookId = none ∧
      review.book = req.bookId ∧ review.user = req.user.id ∧
      w' = Review.postHook env review
        { w with db := { w.db with reviews := w.db.reviews ++ [review], nextId := w.db.nextId + 1 } } := by
  unfold addReview at h
  split at h
  · simp at h
  · rename_i b hb
    split at h
    · simp at h
    · rename_i hone
      split at h
      · rename_i db r hc
        obtain ⟨-, -, hr, hdb⟩ := reviewCreate_ok _ _ _ _ _ _ hc
        simp only [Prod.mk.injEq, Response.ok.injEq, Data.review.injEq, true_and] at h
        obtain ⟨h1, h2⟩ := h
        subst h2
        refine ⟨⟨b, hb⟩, hone, by rw [hr], by rw [hr], ?_⟩
        rw [← h1, hdb]
      · simp at h

theorem deleteReview_done (env : Env) (req : DeleteReviewReq) (w w' : World) (review : Review)
    (hf : Review.findById w.db.reviews req.id = some review)
    (h : deleteReview env req w = (w', Response.ok 200 Data.empty)) :
    w' = Review.postHook env review
      { w with db := { w.db with reviews := w.db.reviews.eraseP (fun r => r._id == req.id) } } := by
  unfold deleteReview at h
  rw [hf] at h
  simp only at h
  split_ifs at h
  · simp at h
  · simp only [Prod.mk.injEq, and_true] at h
    exact h.symm

theorem reviewsOf_getAverageRating (ok : Bool) (id bookId : ObjectId) (db : Db) :
    reviewsOf (Review.getAverageRating ok id db) bookId = reviewsOf db bookId := by
  unfold reviewsOf
  rw [getAverageRating_reviews]

theorem ratingsOf_getAverageRating (ok : Bool) (id bookId : ObjectId) (db : Db) :
    ratingsOf (Review.getAverageRating ok id db) bookId = ratingsOf db bookId := by
  unfold ratingsOf
  rw [reviewsOf_getAverageRating]

theorem findById_id (books : List Book) (id : ObjectId) (b : Book)
    (h : Book.findById books id = some b) : b._id = id := by
  unfold Book.findById at h
  have := List.find?_some h
  simpa using this

/-- After `getAverageRating` (write accepted) a stored book agrees with its
reviews. -/
theorem getAverageRating_agrees (db : Db) (bookId : ObjectId) (b : Book)
    (hb : Book.findById db.books bookId = some b) :
    ∃ b', Book.findById (Review.getAverageRating true bookId db).books bookId = some b' ∧
      b'.agrees (Review.getAverageRating true bookId db) := by
  have hid := findById_id _ _ _ hb
  by_cases hr : reviewsOf db bookId = []
  · refine ⟨_, getAverageRating_findById_nil db bookId b hb hr, ?_⟩
    simp [Book.agrees, reviewsOf_getAverageRating, hid, hr]
  · refine ⟨_, getAverageRating_findById db bookId b hb hr, ?_⟩
    simp [Book.agrees, reviewsOf_getAverageRating, ratingsOf_getAverageRating, hid]

theorem postHook_trace (env : Env) (r : Review) (w : World) :
    (Review.postHook env r w).trace = w.trace ++ [Call.getAverageRating r.book] := rfl

theorem postHook_reviews (env : Env) (r : Review) (w : World) :
    (Review.postHook env r w).db.reviews = w.db.reviews := by
  simp [Review.postHook, getAverageRating_reviews]

/-- C6. With the aggregate write accepted: an `addReview` answered 201 issues
exactly one `getAverageRating` call, for the review's book, stores the review,
and leaves that book with `numReviews` the count and `averageRating` the mean of
its reviews; a `deleteReview` answered 200 issues exactly one such call, removes
the review, and leaves the book (when stored) with `numReviews` the count and,
when reviews remain, `averageRating` their mean.  On the sample run, ratings 5
then 3 give count 2 and average 4, and deleting the rating-5 review gives count
1 and average 3. -/
theorem review_hooks_recompute_once (env : Env) (w w' : World)
    (hw : env.aggregateWriteOk = true) :
    (∀ (req : AddReviewReq) (review : Review),
        addReview env req w = (w', Response.ok 201 (Data.review review)) →
        w'.trace = w.trace ++ [Call.getAverageRating review.book] ∧
          w'.db.reviews = w.db.reviews ++ [review] ∧
          ∃ b, Book.findById w'.db.books review.book = some b ∧
            b.numReviews = ((reviewsOf w'.db review.book).length : ℚ) ∧
            b.averageRating = mean (ratingsOf w'.db review.book)) ∧
      (∀ (req : DeleteReviewReq) (review : Review) (b0 : Book),
        Review.findById w.db.reviews req.id = some review →
        Book.findById w.db.books review.book = some b0 →
        deleteReview env req w = (w', Response.ok 200 Data.empty) →
        w'.trace = w.trace ++ [Call.getAverageRating review.book] ∧
          w'.db.reviews = w.db.reviews.eraseP (fun r => r._id == req.id) ∧
          ∃ b, Book.findById w'.db.books review.book = some b ∧ b.agrees w'.db) ∧
      (run World.empty twoReviews).db.books.map (fun b => (b.numReviews, b.averageRating)) =
        [(2, 4)] ∧
      (run World.empty (twoReviews ++ [Op.deleteReview sampleEnv { id := 2, user := alice }])).db.books.map
        (fun b => (b.numReviews, b.averageRating)) = [(1, 3)] := by
  refine ⟨?_, ?_, by with_unfolding_all decide, by with_unfolding_all decide⟩
  · intro req review h
    obtain ⟨⟨b0, hb0⟩, -, hbook, -, hw'⟩ := addReview_created env req w w' review h
    subst hw'
    refine ⟨postHook_trace _ _ _, by rw [postHook_reviews], ?_⟩
    simp only [Review.postHook, hw]
    rw [hbook]
    obtain ⟨b, hb, hcount, hmean⟩ := getAverageRating_agrees
      { w.db with reviews := w.db.reviews ++ [review], nextId := w.db.nextId + 1 } req.bookId b0 hb0
    have hid := findById_id _ _ _ hb
    rw [hid] at hcount hmean
    refine ⟨b, hb, hcount, hmean ?_⟩
    rw [reviewsOf_getAverageRating]
    simp [reviewsOf, hbook, List.filter_append]
  · intro req review b0 hf hb0 h
    have hw' := deleteReview_done env req w w' review hf h
    subst hw'
    refine ⟨postHook_trace _ _ _, by rw [postHook_reviews], ?_⟩
    simp only [Review.postHook, hw]
    exact getAverageRating_agrees
      { w.db with reviews := w.db.reviews.eraseP (fun r => r._id == req.id) } review.book b0 hb0

/-- C6 at the sample run: `bob` adds rating 3 to the book `alice` rated 5, then
`alice` deletes her review. -/
theorem review_hooks_recompute_once_witness :
    (run World.empty twoReviews).trace =
        (run World.empty oneReview).trace ++ [Call.getAverageRating 1] ∧
      (∃ b, Book.findById (run World.empty twoReviews).db.books 1 = some b ∧
        b.numReviews = ((reviewsOf (run World.empty twoReviews).db 1).length : ℚ) ∧
        b.averageRating = mean (ratingsOf (run World.empty twoReviews).db 1)) ∧
      (∃ b, Book.findById (run World.empty
          (twoReviews ++ [Op.deleteReview sampleEnv { id := 2, user := alice }])).db.books 1 = some b ∧
        b.agrees (run World.empty
          (twoReviews ++ [Op.deleteReview sampleEnv { id := 2, user := alice }])).db) := by
  have hadd := (review_hooks_recompute_once sampleEnv (run World.empty oneReview)
    (run World.empty twoReviews) rfl).1
    { bookId := 1, user := bob, body := rate 3 }
    { _id := 3, rating := 3, comment := "read it", book := 1, user := 11 }
    (by with_unfolding_all decide)
  have hdel := (review_hooks_recompute_once sampleEnv (run World.empty twoReviews)
    (run World.empty (twoReviews ++ [Op.deleteReview sampleEnv { id := 2, user := alice }]))
    rfl).2.1
    { id := 2, user := alice }
    { _id := 2, rating := 5, comment := "read it", book := 1, user := 10 }
    { _id := 1, title := "Dune", author := "Frank Herbert", description := "A novel"
      category := "Fiction", coverImage := "", fileUrl := "https://cdn.example/dune.pdf"
      publicId := "asset_dune.pdf", averageRating := 4, numReviews := 2, user := 7 }
    (by with_unfolding_all decide) (by with_unfolding_all decide) (by with_unfolding_all decide)
  exact ⟨hadd.1, hadd.2.2, hdel.2.2⟩

/-! ## C7: a second review by the same user -/

/-- C7. When the book is stored and a review by the caller for that book
exists, `addReview` answers 400 with `You have already reviewed this book` and
the world (reviews, every book's aggregate, assets, files, call trace) is
exactly as before. -/
theorem addReview_duplicate_rejected (env : Env) (req : AddReviewReq) (w : World) (b : Book)
    (r : Review) (hb : Book.findById w.db.books req.bookId = some b) (hr : r ∈ w.db.reviews)
    (hu : r.user = req.user.id) (hbk : r.book = req.bookId) :
    addReview env req w =
      (w, Response.fail 400 (Message.text "You have already reviewed this book")) := by
  unfold addReview
  rw [hb]
  have hsome : (Review.findOne w.db.reviews req.user.id req.bookId).isSome = true := by
    unfold Review.findOne
    rw [List.find?_isSome]
    exact ⟨r, hr, by simp [hu, hbk]⟩
  obtain ⟨r', hr'⟩ := Option.isSome_iff_exists.mp hsome
  simp [hr']

/-- C7 at the sample run: `alice` reviews book 1 a second time. -/
theorem addReview_duplicate_rejected_witness :
    addReview sampleEnv { bookId := 1, user := alice, body := rate 1 } (run World.empty oneReview) =
      (run World.empty oneReview,
        Response.fail 400 (Message.text "You have already reviewed this book")) :=
  addReview_duplicate_rejected sampleEnv { bookId := 1, user := alice, body := rate 1 }
    (run World.empty oneReview)
    { _id := 1, title := "Dune", author := "Frank Herbert", description := "A novel"
      category := "Fiction", coverImage := "", fileUrl := "https://cdn.example/dune.pdf"
      publicId := "asset_dune.pdf", averageRating := 5, numReviews := 1, user := 7 }
    { _id := 2, rating := 5, comment := "read it", book := 1, user := 10 }
    (by with_unfolding_all decide) (by with_unfolding_all decide) rfl rfl

/-! ## Effect of the collaborators and handlers on the record store -/

theorem cloudinaryUpload_db (env : Env) (path rt folder : String) (w : World) :
    (cloudinaryUpload env path rt folder w).1.db = w.db := by
  unfold cloudinaryUpload
  split_ifs
  · split <;> rfl
  · rfl

theorem cloudinaryDestroy_db (env : Env) (publicId : String) (w : World) :
    (cloudinaryDestroy env publicId w).1.db = w.db := by
  unfold cloudinaryDestroy
  split <;> rfl

theorem unlinkSync_db (path : String) (w : World) : (unlinkSync path w).1.db = w.db := by
  unfold unlinkSync
  split_ifs <;> rfl

theorem multerFields_db (files : Option Files) (w : World) : (multerFields files w).db = w.db := by
  unfold multerFields
  split <;> rfl

theorem uploadFile_db (env : Env) (files : Option Files) (w : World) :
    (createBook.uploadFile env files w).1.db = w.db := by
  unfold createBook.uploadFile
  split
  · rename_i bookFile _ _
    have h1 := cloudinaryUpload_db env bookFile.path "auto" "digital_library/books" w
    split
    · rename_i w1 result hup
      rw [hup] at h1
      have h2 := unlinkSync_db bookFile.path w1
      split <;> rename_i w2 hun <;> rw [hun] at h2 <;> simp_all
    · rename_i w1 hup
      rw [hup] at h1
      simpa using h1
  · rfl

theorem uploadCover_db (env : Env) (files : Option Files) (w : World) :
    (createBook.uploadCover env files w).1.db = w.db := by
  unfold createBook.uploadCover
  split
  · rename_i coverImage _ _
    have h1 := cloudinaryUpload_db env coverImage.path "image" "digital_library/covers" w
    split
    · rename_i w1 result hup
      rw [hup] at h1
      have h2 := unlinkSync_db coverImage.path w1
      split <;> rename_i w2 hun <;> rw [hun] at h2 <;> simp_all
    · rename_i w1 hup
      rw [hup] at h1
      simpa using h1
  · rfl

theorem bookCreate_ok (doc : Book) (db db' : Db) (book : Book)
    (h : Book.create doc db = Except.ok (db', book)) :
    book = doc.applySetters ∧ book.validate = [] ∧
      db' = { db with books := db.books ++ [book], nextId := db.nextId + 1 } := by
  unfold Book.create at h
  by_cases hv : doc.applySetters.validate = []
  · simp only [hv, ne_eq, not_true_eq_false, if_false, Except.ok.injEq, Prod.mk.injEq] at h
    obtain ⟨h1, h2⟩ := h
    subst h2
    exact ⟨rfl, hv, h1.symm⟩
  · simp [hv] at h

/-- `createBook` leaves the reviews as they are. -/
theorem createBook_reviews (env : Env) (req : BookReq) (w : World) :
    (createBook env req w).1.db.reviews = w.db.reviews := by
  have h1 := uploadFile_db env req.files w
  rcases hf : createBook.uploadFile env req.files w with ⟨w1, fileUrl, publicId⟩
  rw [hf] at h1
  have h2 := uploadCover_db env req.files w1
  rcases hc : createBook.uploadCover env req.files w1 with ⟨w2, coverImageUrl⟩
  rw [hc] at h2
  simp only at h1 h2
  simp only [createBook, hf, hc]
  split
  · rename_i db book hcreate
    obtain ⟨-, -, hdb⟩ := bookCreate_ok _ _ _ _ hcreate
    simp [hdb, h2, h1]
  · simp [h2, h1]
theorem replaceFile_db (env : Env) (book : Book) (req : BookReq) (w : World) :
    (updateBook.replaceFile env book req w).1.db = w.db := by
  unfold updateBook.replaceFile
  split
  · rename_i bookFile _ _
    have h0 : (if book.publicId ≠ "" then cloudinaryDestroy env book.publicId w
        else (w, true)).1.db = w.db := by
      split_ifs
      · exact cloudinaryDestroy_db env book.publicId w
      · rfl
    split
    · rename_i w1 hd
      rw [hd] at h0
      simpa using h0
    · rename_i w1 hd
      rw [hd] at h0
      have h1 := cloudinaryUpload_db env bookFile.path "raw" "digital_library/books" w1
      split
      · rename_i w2 hup
        rw [hup] at h1
        simp_all
      · rename_i w2 result hup
        rw [hup] at h1
        have h2 := unlinkSync_db bookFile.path w2
        split <;> rename_i w3 hun <;> rw [hun] at h2 <;> simp_all
  · rfl

theorem replaceCover_db (env : Env) (book : Book) (files : Option Files) (body : BookBody)
    (w : World) : (updateBook.replaceCover env book files body w).1.db = w.db := by
  unfold updateBook.replaceCover
  split
  · rename_i coverImage _ _
    simp only [Book.coverImagePublicId]
    have h1 := cloudinaryUpload_db env coverImage.path "image" "digital_library/covers" w
    split
    · rename_i w2 hup
      rw [hup] at h1
      simp_all
    · rename_i w2 result hup
      rw [hup] at h1
      have h2 := unlinkSync_db coverImage.path w2
      split <;> rename_i w3 hun <;> rw [hun] at h2 <;> simp_all
  · rfl

theorem bookUpdate_ok (id : ObjectId) (body : BookBody) (old : Book) (db db' : Db)
    (b : Book) (h : Book.findByIdAndUpdate id body old db = Except.ok (db', b)) :
    body.validate = [] ∧
      db' = { db with books := updateFirst (fun x => x._id == id) body.apply db.books } ∧
      b = body.apply old := by
  unfold Book.findByIdAndUpdate at h
  by_cases hv : body.validate = []
  · simp only [hv, ne_eq, not_true_eq_false, if_false, Except.ok.injEq, Prod.mk.injEq] at h
    exact ⟨hv, h.1.symm, h.2.symm⟩
  · simp [hv] at h

/-- `updateBook` leaves the reviews as they are. -/
theorem updateBook_reviews (env : Env) (id : ObjectId) (req : BookReq) (w : World) :
    (updateBook env id req w).1.db.reviews = w.db.reviews := by
  unfold updateBook
  split
  · rfl
  · rename_i book _
    have h1 := replaceFile_db env book req w
    rcases hf : updateBook.replaceFile env book req w with ⟨w1, r1⟩
    rw [hf] at h1
    cases r1 with
    | error e => simp_all
    | ok body1 =>
      have h2 := replaceCover_db env book req.files body1 w1
      dsimp only
      rcases hc : updateBook.replaceCover env book req.files body1 w1 with ⟨w2, r2⟩
      rw [hc] at h2
      cases r2 with
      | error e => simp_all
      | ok body2 =>
        dsimp only at h1 h2 ⊢
        split
        · rename_i db updated hup
          obtain ⟨-, hdb, -⟩ := bookUpdate_ok _ _ _ _ _ _ hup
          simp [hdb, h2, h1]
        · simp [h2, h1]

/-- The reviews after `deleteBook`: as before, or without those of the book. -/
theorem deleteBook_reviews (env : Env) (id : ObjectId) (w : World) :
    (deleteBook env id w).1.db.reviews = w.db.reviews ∨
      (deleteBook env id w).1.db.reviews = w.db.reviews.filter (fun r => !(r.book == id)) := by
  unfold deleteBook
  split
  · exact Or.inl rfl
  · rename_i book hb
    have hid := findById_id _ _ _ hb
    have h0 : (if book.publicId ≠ "" then cloudinaryDestroy env book.publicId w
        else (w, true)).1.db = w.db := by
      split_ifs
      · exact cloudinaryDestroy_db env book.publicId w
      · rfl
    split
    · rename_i w1 hd
      rw [hd] at h0
      exact Or.inl (by simpa using congrArg Db.reviews h0)
    · rename_i w1 hd
      rw [hd] at h0
      simp only at h0
      exact Or.inr (by simp [Book.remove, h0, hid])

/-- The reviews after `addReview`: as before, or with one review appended whose
key was free. -/
theorem addReview_reviews (env : Env) (req : AddReviewReq) (w : World) :
    (addReview env req w).1.db.reviews = w.db.reviews ∨
      ∃ r, Review.keyTaken w.db.reviews r.book r.user = false ∧
        (addReview env req w).1.db.reviews = w.db.reviews ++ [r] := by
  unfold addReview
  split
  · exact Or.inl rfl
  · split
    · exact Or.inl rfl
    · split
      · rename_i db review hc
        obtain ⟨-, hk, hr, hdb⟩ := reviewCreate_ok _ _ _ _ _ _ hc
        refine Or.inr ⟨review, ?_, ?_⟩
        · rw [hr]; exact hk
        · simp [postHook_reviews, hdb]
      · exact Or.inl rfl

/-- The reviews after `deleteReview`: as before, or with one review removed. -/
theorem deleteReview_reviews (env : Env) (req : DeleteReviewReq) (w : World) :
    (deleteReview env req w).1.db.reviews = w.db.reviews ∨
      (deleteReview env req w).1.db.reviews = w.db.reviews.eraseP (fun r => r._id == req.id) := by
  unfold deleteReview
  split
  · exact Or.inl rfl
  · split_ifs
    · exact Or.inl rfl
    · exact Or.inr (by simp [postHook_reviews])

/-- The reviews after `updateReview`: as before, or with the first review of the
given id replaced by a review whose key no other review holds. -/
theorem updateReview_reviews (req : UpdateReviewReq) (w : World) :
    (updateReview req w).1.db.reviews = w.db.reviews ∨
      ∃ old, w.db.reviews.find? (fun r => r._id == req.id) = some old ∧
        Review.keyTaken (w.db.reviews.eraseP (fun r => r._id == req.id)) (req.body.apply old).book
          (req.body.apply old).user = false ∧
        (updateReview req w).1.db.reviews =
          updateFirst (fun r => r._id == req.id) req.body.apply w.db.reviews := by
  unfold updateReview
  split
  · exact Or.inl rfl
  · rename_i review hf
    split_ifs
    · exact Or.inl rfl
    · split
      · rename_i db updated hup
        obtain ⟨-, hk, hdb, -⟩ := reviewUpdate_ok _ _ _ _ _ _ hup
        exact Or.inr ⟨review, hf, hk, by simp [hdb]⟩
      · exact Or.inl rfl

/-! ## C8: one review per pair of book and user -/

theorem keyTaken_false (l : List Review) (book user : ObjectId)
    (h : Review.keyTaken l book user = false) (r : Review) (hr : r ∈ l) :
    ¬(r.book = book ∧ r.user = user) := by
  unfold Review.keyTaken at h
  rw [List.any_eq_false] at h
  simpa using h r hr

theorem mem_updateFirst {α : Type} (p : α → Bool) (f : α → α) (l : List α) (old y : α)
    (hfind : l.find? p = some old) (hy : y ∈ updateFirst p f l) : y ∈ l.eraseP p ∨ y = f old := by
  induction l with
  | nil => simp at hfind
  | cons x xs ih =>
    by_cases hx : p x = true
    · simp only [List.find?, hx, Option.some.injEq] at hfind
      simp only [updateFirst, hx, if_true, List.mem_cons] at hy
      rw [List.eraseP_cons_of_pos hx]
      rcases hy with hy | hy
      · exact Or.inr (by rw [hy, hfind])
      · exact Or.inl hy
    · have hx' : p x = false := by simpa using hx
      simp only [List.find?, hx'] at hfind
      simp only [updateFirst, hx', Bool.false_eq_true, if_false, List.mem_cons] at hy
      rw [List.eraseP_cons_of_neg hx]
      rcases hy with hy | hy
      · exact Or.inl (by simp [hy])
      · rcases ih hfind hy with h | h
        · exact Or.inl (List.mem_cons_of_mem _ h)
        · exact Or.inr h

theorem pairwise_updateFirst (p : Review → Bool) (f : Review → Review) (l : List Review)
    (old : Review) (hfind : l.find? p = some old)
    (hl : l.Pairwise (fun a b => ¬(a.book = b.book ∧ a.user = b.user)))
    (hk : Review.keyTaken (l.eraseP p) (f old).book (f old).user = false) :
    (updateFirst p f l).Pairwise (fun a b => ¬(a.book = b.book ∧ a.user = b.user)) := by
  induction l with
  | nil => simp [updateFirst]
  | cons x xs ih =>
    rw [List.pairwise_cons] at hl
    by_cases hx : p x = true
    · simp only [List.find?, hx, Option.some.injEq] at hfind
      rw [List.eraseP_cons_of_pos hx] at hk
      simp only [updateFirst, hx, if_true]
      rw [List.pairwise_cons]
      refine ⟨fun y hy hkey => ?_, hl.2⟩
      rw [hfind] at hkey
      exact keyTaken_false _ _ _ hk y hy ⟨hkey.1.symm, hkey.2.symm⟩
    · have hx' : p x = false := by simpa using hx
      simp only [List.find?, hx'] at hfind
      rw [List.eraseP_cons_of_neg hx] at hk
      simp only [updateFirst, hx', Bool.false_eq_true, if_false]
      rw [List.pairwise_cons]
      have hk' : Review.keyTaken (xs.eraseP p) (f old).book (f old).user = false := by
        unfold Review.keyTaken at hk ⊢
        rw [List.any_cons, Bool.or_eq_false_iff] at hk
        exact hk.2
      refine ⟨fun y hy => ?_, ih hfind hl.2 hk'⟩
      rcases mem_updateFirst p f xs old y hfind hy with h | h
      · exact hl.1 y (List.mem_of_mem_eraseP h)
      · rw [h]
        exact keyTaken_false _ _ _ hk x (List.mem_cons_self _ _)

/-- One handler keeps the pairs of book and user distinct. -/
theorem step_uniquePairs (w : World) (op : Op) (h : UniquePairs w.db) :
    UniquePairs (step w op).1.db := by
  unfold UniquePairs at h ⊢
  cases op with
  | createBook env req =>
    simp only [step]
    rw [createBook_reviews, multerFields_db]
    exact h
  | updateBook env id req =>
    simp only [step]
    rw [updateBook_reviews, multerFields_db]
    exact h
  | deleteBook env id =>
    simp only [step]
    rcases deleteBook_reviews env id w with h1 | h1 <;> rw [h1]
    · exact h
    · exact h.sublist (List.filter_sublist _)
  | addReview env req =>
    simp only [step]
    rcases addReview_reviews env req w with h1 | ⟨r, hk, h1⟩ <;> rw [h1]
    · exact h
    · rw [List.pairwise_append]
      refine ⟨h, List.pairwise_singleton _ _, fun a ha b hb => ?_⟩
      rw [List.mem_singleton] at hb
      subst hb
      exact keyTaken_false _ _ _ hk a ha
  | updateReview req =>
    simp only [step]
    rcases updateReview_reviews req w with h1 | ⟨old, hfind, hk, h1⟩ <;> rw [h1]
    · exact h
    · exact pairwise_updateFirst _ _ _ old hfind h hk
  | deleteReview env req =>
    simp only [step]
    rcases deleteReview_reviews env req w with h1 | h1 <;> rw [h1]
    · exact h
    · exact h.sublist (List.eraseP_sublist _)

/-- C8. From a store in which no two reviews share the pair of `book` and
`user`, any finite sequence of handler calls (`addReview`, `updateReview`,
`deleteReview`, and the three book handlers as well) ends in such a store, also
when an `updateReview` body names another book or user: the unique index
rejects the write that would create a second review for a pair. -/
theorem run_uniquePairs (w : World) (ops : List Op) (h : UniquePairs w.db) :
    UniquePairs (run w ops).db := by
  induction ops generalizing w with
  | nil => exact h
  | cons op ops ih =>
    simp only [run, List.foldl_cons]
    exact ih (step w op).1 (step_uniquePairs w op h)

set_option maxRecDepth 8000 in
/-- C8 from the empty deployment: `bob` tries to turn his review into a second
review by `alice` for book 1; the update is refused and the two reviews keep
their distinct pairs. -/
theorem run_uniquePairs_witness :
    UniquePairs World.empty.db ∧
      UniquePairs (run World.empty (twoReviews ++
        [Op.updateReview { id := 3, user := bob, body := { rate 3 with user := some 10 } }])).db ∧
      (step (run World.empty twoReviews)
        (Op.updateReview { id := 3, user := bob, body := { rate 3 with user := some 10 } })).2 =
        Response.fail 500 (Message.ofError Failure.duplicateKey) :=
  ⟨List.Pairwise.nil, run_uniquePairs World.empty _ List.Pairwise.nil,
    by with_unfolding_all decide⟩

/-! ## C9, C10: `createBook` -/

theorem jsTrim_ne_empty (s : String) (h : jsTrim s ≠ "") : s ≠ "" := by
  intro hs
  subst hs
  exact h rfl

theorem strOr_some (s d : String) (h : s ≠ "") : strOr (some s) d = s := by
  simp [strOr, h]

/-- Valid metadata and a non-empty file URL pass the validators of
`BookSchema`. -/
theorem validate_of_validMetadata (body : BookBody) (hv : validMetadata body) (id user : ObjectId)
    (fileUrl publicId coverImage : String) (hurl : fileUrl ≠ "") :
    (Book.applySetters
      { _id := id
        title := strOr body.title "Untitled Book"
        author := strOr body.author "Unknown Author"
        description := strOr body.description "No description available"
        category := strOr body.category "Uncategorized"
        user := user
        fileUrl := fileUrl
        publicId := publicId
        coverImage := coverImage
        averageRating := 1
        numReviews := 0 }).validate = [] := by
  obtain ⟨⟨t, ht, ht1, ht2⟩, ⟨a, ha, ha1⟩, ⟨d, hd, hd1⟩, ⟨c, hc, hc1⟩⟩ := hv
  have hc2 : c ≠ "" := by
    intro h
    subst h
    revert hc1
    decide
  have hrat : averageRatingFails 1 = false := by with_unfolding_all decide
  simp only [Book.validate, Book.applySetters, ht, ha, hd, hc, strOr_some _ _ (jsTrim_ne_empty t ht1),
    strOr_some _ _ (jsTrim_ne_empty a ha1), strOr_some _ _ hd1, strOr_some _ _ hc2, titleFails, hrat]
  simp [ht1, ht2, ha1, hd1, hc1, hc2, hurl]

theorem bookCreate_of_valid (doc : Book) (db : Db) (h : doc.applySetters.validate = []) :
    Book.create doc db =
      Except.ok ({ db with books := db.books ++ [doc.applySetters], nextId := db.nextId + 1 },
        doc.applySetters) := by
  simp [Book.create, h]

/-- What the primary upload of `createBook` leaves: the urls of a resolved
upload, or the placeholder; the placeholder whenever the upload fails or no file
is supplied. -/
theorem uploadFile_cases (env : Env) (req : BookReq) (w : World) :
    ((createBook.uploadFile env req.files w).2.1 = placeholderUrl ∨
        ∃ p r, env.upload p = some r ∧
          (createBook.uploadFile env req.files w).2 = (r.secure_url, r.public_id)) ∧
      (primaryUploadFails env req w →
        (createBook.uploadFile env req.files w).2.1 = placeholderUrl) := by
  unfold createBook.uploadFile primaryUploadFails
  split
  · rename_i bookFile _ _
    unfold cloudinaryUpload
    by_cases hmem : bookFile.path ∈ w.tmpFiles
    · cases hup : env.upload bookFile.path with
      | none => simp [hmem, hup]
      | some r =>
        simp only [hmem, if_true, hup]
        constructor
        · unfold unlinkSync
          simp only [hmem, if_true]
          exact Or.inr ⟨bookFile.path, r, hup, rfl⟩
        · intro h
          simp [hmem] at h
    · simp [hmem]
  · simp

/-- A failed cover upload of `createBook` leaves an empty cover. -/
theorem uploadCover_fails (env : Env) (req : BookReq) (w : World)
    (h : coverUploadFails env req) : (createBook.uploadCover env req.files w).2 = "" := by
  unfold coverUploadFails at h
  unfold createBook.uploadCover
  split
  · rename_i coverImage _ heq
    rw [heq] at h
    simp only at h
    unfold cloudinaryUpload
    split_ifs <;> simp [h]
  · rename_i hne
    split at h
    · rename_i c rest heq
      exact absurd heq (hne c rest)
    · exact absurd h id
/-- Primary upload of `createBook` when the staged file is uploaded: the urls
of the upload result. -/
theorem uploadFile_ok (env : Env) (req : BookReq) (w : World) (files : Files) (f : UploadedFile)
    (rest : List UploadedFile) (r : UploadResult) (hfiles : req.files = some files)
    (hfile : files.file = f :: rest) (hstaged : f.path ∈ w.tmpFiles)
    (hup : env.upload f.path = some r) :
    (createBook.uploadFile env req.files w).2 = (r.secure_url, r.public_id) := by
  unfold createBook.uploadFile
  simp only [hfiles, Option.map_some', hfile]
  unfold cloudinaryUpload
  simp only [hstaged, if_true, hup]
  unfold unlinkSync
  simp only [hstaged, if_true]

/-- `createBook` on valid metadata, for any outcome of the two uploads whose
primary url is not empty: the book is stored with the urls the upload blocks
left, `numReviews = 0` and `averageRating = 1`. -/
theorem createBook_of_valid (env : Env) (req : BookReq) (w : World) (hv : validMetadata req.body)
    (hurl : (createBook.uploadFile env req.files w).2.1 ≠ "") :
    ∃ w' book, createBook env req w = (w', Response.ok 201 (Data.book book)) ∧
      w'.db.books = w.db.books ++ [book] ∧
      book.numReviews = 0 ∧ book.averageRating = Book.defaultAverageRating ∧
      book.fileUrl = (createBook.uploadFile env req.files w).2.1 ∧
      book.publicId = (createBook.uploadFile env req.files w).2.2 ∧
      book.coverImage = (createBook.uploadCover env req.files
        (createBook.uploadFile env req.files w).1).2 := by
  have h1 := uploadFile_db env req.files w
  rcases hf : createBook.uploadFile env req.files w with ⟨w1, fileUrl, publicId⟩
  rw [hf] at h1 hurl
  have h2 := uploadCover_db env req.files w1
  rcases hc : createBook.uploadCover env req.files w1 with ⟨w2, coverImageUrl⟩
  rw [hc] at h2
  dsimp only at h1 h2 hurl ⊢
  have hval := validate_of_validMetadata req.body hv w2.db.nextId ((createBook.bodyUser req).getD 0)
    fileUrl publicId coverImageUrl hurl
  simp only [createBook, hf, hc, bookCreate_of_valid _ _ hval]
  refine ⟨_, _, rfl, ?_, rfl, rfl, rfl, rfl, rfl⟩
  simp [h2, h1]

set_option maxRecDepth 8000 in
/-- The title validators follow JavaScript: a title made of a no-break space is
blank after `trim` and fails `required`, and a title of 51 characters outside
the basic plane has `length` 102 and fails `maxlength`; `createBook` answers 500
for both and stores nothing. -/
theorem title_validators_follow_javascript :
    jsTrim (String.mk [Char.ofNat 160]) = "" ∧
      utf16Length (String.mk (List.replicate 51 (Char.ofNat 128512))) = 102 ∧
      createBook sampleEnv
          { bareCreate with body := { sampleBody with title := some (String.mk [Char.ofNat 160]) } }
          World.empty =
        (World.empty, Response.fail 500 (Message.ofError (Failure.validation ["title"]))) ∧
      createBook sampleEnv
          { bareCreate with
            body := { sampleBody with
              title := some (String.mk (List.replicate 51 (Char.ofNat 128512))) } }
          World.empty =
        (World.empty, Response.fail 500 (Message.ofError (Failure.validation ["title"]))) := by
  with_unfolding_all decide

/-- C9. For a `createBook` request with valid metadata whose staged primary
file is uploaded (Cloudinary resolves with a non-empty url), the book is stored
and answered with 201; it has `numReviews = 0`, `averageRating` equal to the
schema default, and `fileUrl` and `publicId` equal to the url and the public id
Cloudinary returned, whatever `averageRating` and `numReviews` the body
carries. -/
theorem createBook_persists_upload (env : Env) (req : BookReq) (w : World) (files : Files)
    (f : UploadedFile) (rest : List UploadedFile) (r : UploadResult)
    (hv : validMetadata req.body) (hfiles : req.files = some files)
    (hfile : files.file = f :: rest) (hstaged : f.path ∈ w.tmpFiles)
    (hup : env.upload f.path = some r) (hurl : r.secure_url ≠ "") :
    ∃ w' book, createBook env req w = (w', Response.ok 201 (Data.book book)) ∧
      w'.db.books = w.db.books ++ [book] ∧
      book.numReviews = 0 ∧ book.averageRating = Book.defaultAverageRating ∧
      book.fileUrl = r.secure_url ∧ book.publicId = r.public_id := by
  have hu := uploadFile_ok env req w files f rest r hfiles hfile hstaged hup
  obtain ⟨w', book, h1, h2, h3, h4, h5, h6, -⟩ :=
    createBook_of_valid env req w hv (by rw [hu]; exact hurl)
  rw [hu] at h5 h6
  exact ⟨w', book, h1, h2, h3, h4, h5, h6⟩

/-- C9 at the sample request: the body carries `averageRating = 4` and
`numReviews = 9`, and the stored book has 1 and 0. -/
theorem createBook_persists_upload_witness :
    sampleBody.averageRating = some 4 ∧ sampleBody.numReviews = some 9 ∧
      ∃ w' book,
        createBook sampleEnv (sampleCreate "dune.pdf")
          (multerFields (sampleCreate "dune.pdf").files World.empty) =
          (w', Response.ok 201 (Data.book book)) ∧
        w'.db.books = [book] ∧ book.numReviews = 0 ∧ book.averageRating = 1 ∧
        book.fileUrl = "https://cdn.example/dune.pdf" ∧ book.publicId = "asset_dune.pdf" :=
  ⟨rfl, rfl,
    createBook_persists_upload sampleEnv (sampleCreate "dune.pdf")
      (multerFields (sampleCreate "dune.pdf").files World.empty)
      { file := [{ path := "dune.pdf" }], coverImage := [] } { path := "dune.pdf" } []
      { secure_url := "https://cdn.example/dune.pdf", public_id := "asset_dune.pdf" }
      ⟨⟨"Dune", rfl, by decide, by decide⟩, ⟨"Frank Herbert", rfl, by decide⟩,
        ⟨"A novel", rfl, by decide⟩, ⟨"Fiction", rfl, by decide⟩⟩
      rfl rfl (by decide) (by decide) (by decide)⟩

/-- C10. With valid metadata and every resolved upload carrying a non-empty
url, `createBook` stores the book and answers 201 whatever the uploads do; when
the primary upload fails or no primary file is supplied the stored `fileUrl` is
the placeholder url, and when the cover upload fails the stored `coverImage` is
empty.  Every book stored by `createBook` has a non-empty `fileUrl`. -/
theorem createBook_survives_upload_failure :
    (∀ (env : Env) (req : BookReq) (w : World), validMetadata req.body →
        (∀ p r, env.upload p = some r → r.secure_url ≠ "") →
        ∃ w' book, createBook env req w = (w', Response.ok 201 (Data.book book)) ∧
          w'.db.books = w.db.books ++ [book] ∧
          (primaryUploadFails env req w → book.fileUrl = placeholderUrl) ∧
          (coverUploadFails env req → book.coverImage = "")) ∧
      (∀ (env : Env) (req : BookReq) (w w' : World) (book : Book),
        createBook env req w = (w', Response.ok 201 (Data.book book)) →
        book ∈ w'.db.books ∧ book.fileUrl ≠ "") := by
  constructor
  · intro env req w hv hurl
    obtain ⟨hcases, hfail⟩ := uploadFile_cases env req w
    have hne : (createBook.uploadFile env req.files w).2.1 ≠ "" := by
      rcases hcases with h | ⟨p, r, hup, h⟩
      · rw [h]; decide
      · rw [h]; exact hurl p r hup
    obtain ⟨w', book, h1, h2, -, -, h5, -, h7⟩ := createBook_of_valid env req w hv hne
    refine ⟨w', book, h1, h2, fun hp => ?_, fun hcv => ?_⟩
    · rw [h5]; exact hfail hp
    · rw [h7]; exact uploadCover_fails env req _ hcv
  · intro env req w w' book h
    rcases hf : createBook.uploadFile env req.files w with ⟨w1, fileUrl, publicId⟩
    rcases hc : createBook.uploadCover env req.files w1 with ⟨w2, coverImageUrl⟩
    simp only [createBook, hf, hc] at h
    split at h
    · rename_i db created hcreate
      obtain ⟨-, hval, hdb⟩ := bookCreate_ok _ _ _ _ hcreate
      simp only [Prod.mk.injEq, Response.ok.injEq, Data.book.injEq, true_and] at h
      obtain ⟨hw, hb⟩ := h
      subst hb
      refine ⟨by rw [← hw, hdb]; simp, fun hurl => ?_⟩
      simp [Book.validate, hurl] at hval
    · simp at h

/-- C10 at a request with a book file and a cover image while Cloudinary rejects
every upload: the book is stored with the placeholder url and an empty cover. -/
theorem createBook_survives_upload_failure_witness :
    ∃ w' book,
      createBook rejectingEnv coverCreate (multerFields coverCreate.files World.empty) =
        (w', Response.ok 201 (Data.book book)) ∧
      book.fileUrl = placeholderUrl ∧ book.coverImage = "" ∧ book.fileUrl ≠ "" := by
  obtain ⟨w', book, h1, -, h3, h4⟩ := createBook_survives_upload_failure.1 rejectingEnv coverCreate
    (multerFields coverCreate.files World.empty)
    ⟨⟨"Dune", rfl, by decide, by decide⟩, ⟨"Frank Herbert", rfl, by decide⟩,
      ⟨"A novel", rfl, by decide⟩, ⟨"Fiction", rfl, by decide⟩⟩
    (fun p r h => by simp [rejectingEnv] at h)
  exact ⟨w', book, h1, h3 (Or.inr rfl), h4 rfl,
    (createBook_survives_upload_failure.2 _ _ _ _ _ h1).2⟩

/-! ## The aggregate invariant along calls that maintain it -/

theorem updateFirst_eq_map {α : Type} (p : α → Bool) (f : α → α) (l : List α)
    (h : l.Pairwise (fun a b => ¬(p a = true ∧ p b = true))) :
    updateFirst p f l = l.map (fun x => if p x then f x else x) := by
  induction l with
  | nil => rfl
  | cons x xs ih =>
    rw [List.pairwise_cons] at h
    by_cases hx : p x = true
    · simp only [updateFirst, hx, if_true, List.map_cons, List.cons.injEq, true_and]
      symm
      calc xs.map (fun y => if p y then f y else y) = xs.map id := by
            apply List.map_congr_left
            intro y hy
            have : p y ≠ true := fun hpy => h.1 y hy ⟨hx, hpy⟩
            simp [this]
        _ = xs := List.map_id xs
    · simp [updateFirst, hx, ih h.2]

theorem eraseP_eq_filter {α : Type} (p : α → Bool) (l : List α)
    (h : l.Pairwise (fun a b => ¬(p a = true ∧ p b = true))) :
    l.eraseP p = l.filter (fun x => !p x) := by
  induction l with
  | nil => rfl
  | cons x xs ih =>
    rw [List.pairwise_cons] at h
    by_cases hx : p x = true
    · rw [List.eraseP_cons_of_pos hx]
      simp only [List.filter_cons, hx, Bool.not_true, Bool.false_eq_true, if_false]
      symm
      rw [List.filter_eq_self]
      intro y hy
      have : p y ≠ true := fun hpy => h.1 y hy ⟨hx, hpy⟩
      simpa using this
    · rw [List.eraseP_cons_of_neg hx]
      simp [List.filter_cons, hx, ih h.2]

theorem ids_pairwise (books : List Book) (id : ObjectId)
    (h : books.Pairwise (fun a b => a._id ≠ b._id)) :
    books.Pairwise (fun a b => ¬((a._id == id) = true ∧ (b._id == id) = true)) := by
  refine h.imp ?_
  intro a b hab hboth
  simp only [beq_iff_eq] at hboth
  exact hab (hboth.1.trans hboth.2.symm)

theorem length_reviewsOf (db : Db) (id : ObjectId) :
    (reviewsOf db id).length = (ratingsOf db id).length := by
  simp [ratingsOf]

theorem reviewsOf_ne_nil_iff (db : Db) (id : ObjectId) :
    reviewsOf db id ≠ [] ↔ ratingsOf db id ≠ [] := by
  simp [ratingsOf]

/-- Agreement depends on the ratings of the book's reviews only. -/
theorem agrees_of_ratingsOf_eq (a b : Book) (db db' : Db) (hid : b._id = a._id)
    (hn : b.numReviews = a.numReviews) (ha : b.averageRating = a.averageRating)
    (hr : ratingsOf db' a._id = ratingsOf db a._id) (h : a.agrees db) : b.agrees db' := by
  unfold Book.agrees at h ⊢
  rw [hid, hn, ha, length_reviewsOf, reviewsOf_ne_nil_iff, hr, ← length_reviewsOf,
    ← reviewsOf_ne_nil_iff]
  exact h

/-- After `getAverageRating` with an accepted write every stored book agrees
with its reviews, when the books of other ids did before. -/
theorem getAverageRating_all_agree (db : Db) (id : ObjectId)
    (hids : db.books.Pairwise (fun a b => a._id ≠ b._id))
    (hothers : ∀ b ∈ db.books, b._id ≠ id → b.agrees db) :
    ∀ b ∈ (Review.getAverageRating true id db).books, b.agrees (Review.getAverageRating true id db) := by
  intro b' hb'
  simp only [Review.getAverageRating, if_true, Book.setAggregate] at hb'
  rw [updateFirst_eq_map _ _ _ (ids_pairwise _ id hids), List.mem_map] at hb'
  obtain ⟨b, hb, hbb'⟩ := hb'
  by_cases hid : b._id = id
  · simp only [hid, beq_self_eq_true, if_true] at hbb'
    subst hbb'
    unfold Book.agrees
    simp only [reviewsOf_getAverageRating, ratingsOf_getAverageRating, hid]
    by_cases hr : reviewsOf db id = []
    · simp [aggregate_of_nil db id hr, hr]
    · simp [aggregate_of_ne_nil db id hr]
  · have hne : (b._id == id) = false := by simpa using hid
    simp only [hne, Bool.false_eq_true, if_false] at hbb'
    subst hbb'
    exact agrees_of_ratingsOf_eq b b db _ rfl rfl rfl (ratingsOf_getAverageRating _ _ _ _)
      (hothers b hb hid)

theorem getAverageRating_ids (ok : Bool) (id : ObjectId) (db : Db) :
    (Review.getAverageRating ok id db).books.map (fun b => b._id) = db.books.map (fun b => b._id) ∧
      (Review.getAverageRating ok id db).nextId = db.nextId := by
  cases ok
  · simp [Review.getAverageRating]
  · simp only [Review.getAverageRating, if_true, Book.setAggregate, and_true]
    generalize db.books = l
    induction l with
    | nil => rfl
    | cons x xs ih =>
      by_cases hx : (x._id == id) = true
      · simp [updateFirst, hx]
      · simp [updateFirst, hx, ih]

theorem pairwise_ids_of_map_eq (l l' : List Book)
    (h : l'.map (fun b => b._id) = l.map (fun b => b._id))
    (hl : l.Pairwise (fun a b => a._id ≠ b._id)) : l'.Pairwise (fun a b => a._id ≠ b._id) := by
  have h1 : (l.map (fun b => b._id)).Pairwise (fun a b => a ≠ b) := by
    rw [List.pairwise_map]; exact hl
  rw [← h, List.pairwise_map] at h1
  exact h1

theorem bound_ids_of_map_eq (l l' : List Book) (n : ObjectId)
    (h : l'.map (fun b => b._id) = l.map (fun b => b._id)) (hl : ∀ b ∈ l, b._id < n) :
    ∀ b ∈ l', b._id < n := by
  intro b hb
  have : b._id ∈ l'.map (fun b => b._id) := List.mem_map_of_mem _ hb
  rw [h, List.mem_map] at this
  obtain ⟨a, ha, hab⟩ := this
  rw [← hab]
  exact hl a ha

/-- The record store after `createBook`: as before, or with one book appended
under the next id and without reviews counted. -/
theorem createBook_db (env : Env) (req : BookReq) (w : World) :
    (createBook env req w).1.db = w.db ∨
      ∃ book : Book, book._id = w.db.nextId ∧ book.numReviews = 0 ∧
        (createBook env req w).1.db =
          { w.db with books := w.db.books ++ [book], nextId := w.db.nextId + 1 } := by
  have h1 := uploadFile_db env req.files w
  rcases hf : createBook.uploadFile env req.files w with ⟨w1, fileUrl, publicId⟩
  rw [hf] at h1
  have h2 := uploadCover_db env req.files w1
  rcases hc : createBook.uploadCover env req.files w1 with ⟨w2, coverImageUrl⟩
  rw [hc] at h2
  dsimp only at h1 h2
  simp only [createBook, hf, hc]
  split
  · rename_i db book hcreate
    obtain ⟨hb, -, hdb⟩ := bookCreate_ok _ _ _ _ hcreate
    refine Or.inr ⟨book, ?_, ?_, ?_⟩
    · rw [hb, h2, h1]; rfl
    · rw [hb]; rfl
    · simp [hdb, h2, h1]
  · exact Or.inl (by simp [h2, h1])

theorem replaceFile_body (env : Env) (book : Book) (req : BookReq) (w w1 : World)
    (body : BookBody) (h : updateBook.replaceFile env book req w = (w1, Except.ok body)) :
    body.averageRating = req.body.averageRating ∧ body.numReviews = req.body.numReviews := by
  unfold updateBook.replaceFile at h
  split at h
  · split at h
    · simp at h
    · split at h
      · simp at h
      · split at h
        · simp at h
        · simp only [Prod.mk.injEq, Except.ok.injEq] at h
          rw [← h.2]
          exact ⟨rfl, rfl⟩
  · simp only [Prod.mk.injEq, Except.ok.injEq] at h
    rw [← h.2]
    exact ⟨rfl, rfl⟩

theorem replaceCover_body (env : Env) (book : Book) (files : Option Files) (body0 : BookBody)
    (w w1 : World) (body : BookBody)
    (h : updateBook.replaceCover env book files body0 w = (w1, Except.ok body)) :
    body.averageRating = body0.averageRating ∧ body.numReviews = body0.numReviews := by
  unfold updateBook.replaceCover at h
  split at h
  · split at h
    · simp at h
    · split at h
      · simp at h
      · split at h
        · simp at h
        · simp only [Prod.mk.injEq, Except.ok.injEq] at h
          rw [← h.2]
          exact ⟨rfl, rfl⟩
  · simp only [Prod.mk.injEq, Except.ok.injEq] at h
    rw [← h.2]
    exact ⟨rfl, rfl⟩

/-- The record store after `updateBook`: as before, or with the first book of
the id updated by a body that carries the aggregate paths of the request. -/
theorem updateBook_db (env : Env) (id : ObjectId) (req : BookReq) (w : World) :
    (updateBook env id req w).1.db = w.db ∨
      ∃ body : BookBody, body.averageRating = req.body.averageRating ∧
        body.numReviews = req.body.numReviews ∧
        (updateBook env id req w).1.db =
          { w.db with books := updateFirst (fun b => b._id == id) body.apply w.db.books } := by
  unfold updateBook
  split
  · exact Or.inl rfl
  · rename_i book _
    have h1 := replaceFile_db env book req w
    rcases hf : updateBook.replaceFile env book req w with ⟨w1, r1⟩
    rw [hf] at h1
    cases r1 with
    | error e => exact Or.inl (by simpa using h1)
    | ok body1 =>
      have hb1 := replaceFile_body env book req w w1 body1 hf
      have h2 := replaceCover_db env book req.files body1 w1
      dsimp only
      rcases hc : updateBook.replaceCover env book req.files body1 w1 with ⟨w2, r2⟩
      rw [hc] at h2
      cases r2 with
      | error e => exact Or.inl (by simp_all)
      | ok body2 =>
        have hb2 := replaceCover_body env book req.files body1 w1 w2 body2 hc
        dsimp only at h1 h2 ⊢
        split
        · rename_i db updated hup
          obtain ⟨-, hdb, -⟩ := bookUpdate_ok _ _ _ _ _ _ hup
          refine Or.inr ⟨body2, hb2.1.trans hb1.1, hb2.2.trans hb1.2, ?_⟩
          simp [hdb, h2, h1]
        · exact Or.inl (by simp [h2, h1])

/-- The record store after `deleteBook`: as before, or without the book and its
reviews. -/
theorem deleteBook_db (env : Env) (id : ObjectId) (w : World) :
    (deleteBook env id w).1.db = w.db ∨
      (deleteBook env id w).1.db =
        { w.db with
          reviews := w.db.reviews.filter (fun r => !(r.book == id))
          books := w.db.books.eraseP (fun b => b._id == id) } := by
  unfold deleteBook
  split
  · exact Or.inl rfl
  · rename_i book hb
    have hid := findById_id _ _ _ hb
    have h0 : (if book.publicId ≠ "" then cloudinaryDestroy env book.publicId w
        else (w, true)).1.db = w.db := by
      split_ifs
      · exact cloudinaryDestroy_db env book.publicId w
      · rfl
    split
    · rename_i w1 hd
      rw [hd] at h0
      exact Or.inl (by simpa using h0)
    · rename_i w1 hd
      rw [hd] at h0
      simp only at h0
      exact Or.inr (by simp [Book.remove, h0, hid])

/-- The record store after `addReview`: as before, or with one review of the
stored book appended and the book's aggregate recomputed. -/
theorem addReview_db (env : Env) (req : AddReviewReq) (w : World) :
    (addReview env req w).1.db = w.db ∨
      ∃ (r : Review) (b : Book), Book.findById w.db.books req.bookId = some b ∧ r.book = req.bookId ∧
        (addReview env req w).1.db = Review.getAverageRating env.aggregateWriteOk req.bookId
          { w.db with reviews := w.db.reviews ++ [r], nextId := w.db.nextId + 1 } := by
  unfold addReview
  split
  · exact Or.inl rfl
  · rename_i b hb
    split
    · exact Or.inl rfl
    · split
      · rename_i db review hc
        obtain ⟨-, -, hr, hdb⟩ := reviewCreate_ok _ _ _ _ _ _ hc
        have hbook : review.book = req.bookId := by rw [hr]
        exact Or.inr ⟨review, b, hb, hbook, by simp [Review.postHook, hdb, hbook]⟩
      · exact Or.inl rfl

/-- The record store after `deleteReview`: as before, or with the review removed
and its book's aggregate recomputed. -/
theorem deleteReview_db (env : Env) (req : DeleteReviewReq) (w : World) :
    (deleteReview env req w).1.db = w.db ∨
      ∃ review : Review, w.db.reviews.find? (fun r => r._id == req.id) = some review ∧
        (deleteReview env req w).1.db = Review.getAverageRating env.aggregateWriteOk review.book
          { w.db with reviews := w.db.reviews.eraseP (fun r => r._id == req.id) } := by
  unfold deleteReview
  split
  · exact Or.inl rfl
  · rename_i review hf
    split_ifs
    · exact Or.inl rfl
    · exact Or.inr ⟨review, hf, by simp [Review.postHook]⟩

/-- The record store after `updateReview`: as before, or with the first review
of the id updated by the body. -/
theorem updateReview_db (req : UpdateReviewReq) (w : World) :
    (updateReview req w).1.db = w.db ∨
      (updateReview req w).1.db =
        { w.db with reviews := updateFirst (fun r => r._id == req.id) req.body.apply w.db.reviews } := by
  unfold updateReview
  split
  · exact Or.inl rfl
  · split_ifs
    · exact Or.inl rfl
    · split
      · rename_i db updated hup
        obtain ⟨-, -, hdb, -⟩ := reviewUpdate_ok _ _ _ _ _ _ hup
        exact Or.inr (by simp [hdb])
      · exact Or.inl rfl

theorem ratingsOf_eq (db : Db) (id : ObjectId) :
    ratingsOf db id = (db.reviews.filter (fun r => r.book == id)).map (fun r => r.rating) := rfl

theorem filter_eraseP_of_find? {α : Type} (p q : α → Bool) (l : List α) (x : α)
    (hfind : l.find? p = some x) (hq : q x = false) : (l.eraseP p).filter q = l.filter q := by
  induction l with
  | nil => rfl
  | cons y ys ih =>
    by_cases hy : p y = true
    · simp only [List.find?, hy, Option.some.injEq] at hfind
      rw [List.eraseP_cons_of_pos hy, List.filter_cons]
      simp [hfind, hq]
    · have hy' : p y = false := by simpa using hy
      simp only [List.find?, hy'] at hfind
      rw [List.eraseP_cons_of_neg hy, List.filter_cons, List.filter_cons, ih hfind]

theorem ratings_updateFirst (p : Review → Bool) (f : Review → Review) (id : ObjectId)
    (hbook : ∀ r, (f r).book = r.book) (hrating : ∀ r, (f r).rating = r.rating) (l : List Review) :
    ((updateFirst p f l).filter (fun r => r.book == id)).map (fun r => r.rating) =
      (l.filter (fun r => r.book == id)).map (fun r => r.rating) := by
  induction l with
  | nil => rfl
  | cons x xs ih =>
    by_cases hx : p x = true
    · simp only [updateFirst, hx, if_true, List.filter_cons, hbook]
      split_ifs <;> simp [hrating]
    · simp only [updateFirst, hx, Bool.false_eq_true, if_false, List.filter_cons]
      split_ifs <;> simp [ih]

theorem mem_updateFirst_image {α : Type} (p : α → Bool) (f : α → α) (l : List α) (y : α)
    (hy : y ∈ updateFirst p f l) : y ∈ l ∨ ∃ x ∈ l, y = f x := by
  induction l with
  | nil => simp [updateFirst] at hy
  | cons x xs ih =>
    by_cases hx : p x = true
    · simp only [updateFirst, hx, if_true, List.mem_cons] at hy
      rcases hy with hy | hy
      · exact Or.inr ⟨x, List.mem_cons_self _ _, hy⟩
      · exact Or.inl (List.mem_cons_of_mem _ hy)
    · simp only [updateFirst, hx, Bool.false_eq_true, if_false, List.mem_cons] at hy
      rcases hy with hy | hy
      · exact Or.inl (by simp [hy])
      · rcases ih hy with h | ⟨z, hz, h⟩
        · exact Or.inl (List.mem_cons_of_mem _ h)
        · exact Or.inr ⟨z, List.mem_cons_of_mem _ hz, h⟩

/-- One handler call that maintains the aggregate keeps the store consistent. -/
theorem step_consistent (w : World) (op : Op) (hop : op.keepsAggregate) (h : w.db.Consistent) :
    (step w op).1.db.Consistent := by
  obtain ⟨hids, hlt, hrlt, hagree⟩ := h
  cases op with
  | createBook env req =>
    simp only [step]
    rcases createBook_db env req (multerFields req.files w) with h1 | ⟨book, hid, hnum, h1⟩ <;>
      simp only [multerFields_db] at h1 <;> rw [h1]
    · exact ⟨hids, hlt, hrlt, hagree⟩
    · rw [multerFields_db] at hid
      have hnone : reviewsOf { w.db with books := w.db.books ++ [book], nextId := w.db.nextId + 1 }
          book._id = [] := by
        simp only [reviewsOf, List.filter_eq_nil_iff, beq_iff_eq, hid]
        intro r hr hrb
        exact absurd hrb (Nat.ne_of_lt (hrlt r hr))
      refine ⟨?_, ?_, ?_, ?_⟩
      · rw [List.pairwise_append]
        refine ⟨hids, List.pairwise_singleton _ _, fun a ha b hb => ?_⟩
        rw [List.mem_singleton] at hb
        rw [hb, hid]
        exact Nat.ne_of_lt (hlt a ha)
      · intro b hb
        rw [List.mem_append, List.mem_singleton] at hb
        rcases hb with hb | hb
        · exact Nat.lt_succ_of_lt (hlt b hb)
        · rw [hb, hid]; exact Nat.lt_succ_self _
      · intro r hr
        exact Nat.lt_succ_of_lt (hrlt r hr)
      · intro b hb
        rw [List.mem_append, List.mem_singleton] at hb
        rcases hb with hb | hb
        · exact agrees_of_ratingsOf_eq b b w.db _ rfl rfl rfl rfl (hagree b hb)
        · subst hb
          exact ⟨by rw [hnone, hnum]; simp, fun hne => absurd hnone hne⟩
  | updateBook env id req =>
    simp only [step]
    rcases updateBook_db env id req (multerFields req.files w) with h1 | ⟨body, ha, hn, h1⟩ <;>
      simp only [multerFields_db] at h1 <;> rw [h1]
    · exact ⟨hids, hlt, hrlt, hagree⟩
    · simp only [Op.keepsAggregate] at hop
      rw [hop.1] at ha
      rw [hop.2] at hn
      have hmap : (updateFirst (fun b => b._id == id) body.apply w.db.books).map (fun b => b._id) =
          w.db.books.map (fun b => b._id) := by
        rw [updateFirst_eq_map _ _ _ (ids_pairwise _ id hids), List.map_map]
        apply List.map_congr_left
        intro b _
        simp only [Function.comp]
        split_ifs <;> rfl
      refine ⟨pairwise_ids_of_map_eq _ _ hmap hids, bound_ids_of_map_eq _ _ _ hmap hlt, hrlt, ?_⟩
      intro b' hb'
      rw [updateFirst_eq_map _ _ _ (ids_pairwise _ id hids), List.mem_map] at hb'
      obtain ⟨b, hb, hbb'⟩ := hb'
      split_ifs at hbb'
      · subst hbb'
        exact agrees_of_ratingsOf_eq b _ w.db _ rfl (by simp [BookBody.apply, hn])
          (by simp [BookBody.apply, ha]) rfl (hagree b hb)
      · subst hbb'
        exact agrees_of_ratingsOf_eq b b w.db _ rfl rfl rfl rfl (hagree b hb)
  | deleteBook env id =>
    simp only [step]
    rcases deleteBook_db env id w with h1 | h1 <;> rw [h1]
    · exact ⟨hids, hlt, hrlt, hagree⟩
    · have hsub : (w.db.books.eraseP (fun b => b._id == id)).Sublist w.db.books :=
        List.eraseP_sublist _
      refine ⟨hids.sublist hsub, fun b hb => hlt b (hsub.subset hb),
        fun r hr => hrlt r (List.mem_of_mem_filter hr), ?_⟩
      intro b hb
      have hb0 : b ∈ w.db.books := hsub.subset hb
      simp only at hb
      rw [eraseP_eq_filter _ _ (ids_pairwise _ id hids), List.mem_filter] at hb
      have hne : b._id ≠ id := by simpa using hb.2
      refine agrees_of_ratingsOf_eq b b w.db _ rfl rfl rfl ?_ (hagree b hb0)
      simp only [ratingsOf_eq, List.filter_filter]
      congr 1
      apply List.filter_congr
      intro r _
      by_cases hr : r.book = b._id
      · simp [hr, hne]
      · simp [hr]
  | addReview env req =>
    simp only [step]
    simp only [Op.keepsAggregate] at hop
    rcases addReview_db env req w with h1 | ⟨r, b0, hb0, hrb, h1⟩ <;> rw [h1]
    · exact ⟨hids, hlt, hrlt, hagree⟩
    · rw [hop]
      have hb0mem : b0 ∈ w.db.books := List.mem_of_find?_eq_some hb0
      have hb0id := findById_id _ _ _ hb0
      obtain ⟨hmap, hnext⟩ := getAverageRating_ids true req.bookId
        { w.db with reviews := w.db.reviews ++ [r], nextId := w.db.nextId + 1 }
      refine ⟨pairwise_ids_of_map_eq _ _ hmap hids, ?_, ?_, ?_⟩
      · rw [hnext]
        exact bound_ids_of_map_eq _ _ _ hmap (fun b hb => Nat.lt_succ_of_lt (hlt b hb))
      · rw [hnext, getAverageRating_reviews]
        intro r' hr'
        simp only [List.mem_append, List.mem_singleton] at hr'
        rcases hr' with hr' | hr'
        · exact Nat.lt_succ_of_lt (hrlt r' hr')
        · rw [hr', hrb, ← hb0id]
          exact Nat.lt_succ_of_lt (hlt b0 hb0mem)
      · refine getAverageRating_all_agree
          { w.db with reviews := w.db.reviews ++ [r], nextId := w.db.nextId + 1 } req.bookId hids ?_
        intro b hb hne
        refine agrees_of_ratingsOf_eq b b w.db _ rfl rfl rfl ?_ (hagree b hb)
        have : (r.book == b._id) = false := by
          rw [hrb]; simpa using fun h => hne h.symm
        simp [ratingsOf_eq, List.filter_append, List.filter_cons, this]
  | updateReview req =>
    simp only [step]
    simp only [Op.keepsAggregate] at hop
    rcases updateReview_db req w with h1 | h1 <;> rw [h1]
    · exact ⟨hids, hlt, hrlt, hagree⟩
    · have hbook : ∀ r, (req.body.apply r).book = r.book := by
        intro r; simp [ReviewBody.apply, hop.2]
      have hrating : ∀ r, (req.body.apply r).rating = r.rating := by
        intro r; simp [ReviewBody.apply, hop.1]
      refine ⟨hids, hlt, ?_, ?_⟩
      · intro r hr
        rcases mem_updateFirst_image _ _ _ r hr with h | ⟨x, hx, h⟩
        · exact hrlt r h
        · rw [h, hbook]
          exact hrlt x hx
      · intro b hb
        exact agrees_of_ratingsOf_eq b b w.db _ rfl rfl rfl
          (ratings_updateFirst _ _ _ hbook hrating _) (hagree b hb)
  | deleteReview env req =>
    simp only [step]
    simp only [Op.keepsAggregate] at hop
    rcases deleteReview_db env req w with h1 | ⟨review, hfind, h1⟩ <;> rw [h1]
    · exact ⟨hids, hlt, hrlt, hagree⟩
    · rw [hop]
      obtain ⟨hmap, hnext⟩ := getAverageRating_ids true review.book
        { w.db with reviews := w.db.reviews.eraseP (fun r => r._id == req.id) }
      refine ⟨pairwise_ids_of_map_eq _ _ hmap hids, ?_, ?_, ?_⟩
      · rw [hnext]
        exact bound_ids_of_map_eq _ _ _ hmap hlt
      · rw [hnext, getAverageRating_reviews]
        intro r' hr'
        exact hrlt r' (List.mem_of_mem_eraseP hr')
      · refine getAverageRating_all_agree
          { w.db with reviews := w.db.reviews.eraseP (fun r => r._id == req.id) } review.book hids ?_
        intro b hb hne
        refine agrees_of_ratingsOf_eq b b w.db _ rfl rfl rfl ?_ (hagree b hb)
        simp only [ratingsOf_eq]
        rw [filter_eraseP_of_find? _ _ _ review hfind (by simpa using fun h => hne h.symm)]


/-- Along any finite sequence of calls that maintain the aggregate, a consistent
store stays consistent: every stored book has `numReviews` equal to the number
of its reviews and, when it has reviews, `averageRating` equal to their mean. -/
theorem run_consistent (w : World) (ops : List Op) (hops : ∀ op ∈ ops, op.keepsAggregate)
    (h : w.db.Consistent) : (run w ops).db.Consistent := by
  induction ops generalizing w with
  | nil => exact h
  | cons op ops ih =>
    simp only [run, List.foldl_cons]
    exact ih (step w op).1 (fun o ho => hops o (List.mem_cons_of_mem _ ho))
      (step_consistent w op (hops op (List.mem_cons_self _ _)) h)

/-- The empty deployment is consistent. -/
theorem empty_consistent : World.empty.db.Consistent :=
  ⟨List.Pairwise.nil, fun _ hb => absurd hb (List.not_mem_nil _),
    fun _ hr => absurd hr (List.not_mem_nil _), fun _ hb => absurd hb (List.not_mem_nil _)⟩

/-! ## C11, C12: validation in `createBook` -/

theorem strOr_default_category (body : BookBody) (h : badCategory body) :
    strOr body.category "Uncategorized" ∉ categories := by
  unfold strOr
  cases hc : body.category with
  | none => simp only; decide
  | some c =>
    simp only
    split_ifs
    · decide
    · exact h c hc

/-- The validators report `category` when the category is outside the enumeration. -/
theorem validate_category (b : Book) (h : b.category ∉ categories) : "category" ∈ b.validate := by
  unfold Book.validate
  simp [h]

theorem bookCreate_error (doc : Book) (db : Db) (h : doc.applySetters.validate ≠ []) :
    Book.create doc db = Except.error (Failure.validation doc.applySetters.validate) := by
  simp [Book.create, h]

/-- C11 as stated fails: a request without title, author and description (and
without a file) is answered 201 and the book is stored under the defaults
`Untitled Book`, `Unknown Author`, `No description available`. -/
theorem createBook_defaults_missing_fields :
    bareCreate.body.title = none ∧ bareCreate.body.author = none ∧
      bareCreate.body.description = none ∧
      (step World.empty (Op.createBook sampleEnv bareCreate)).2.status = 201 ∧
      (step World.empty (Op.createBook sampleEnv bareCreate)).1.db.books.map
        (fun b => (b.title, b.author, b.description)) =
        [("Untitled Book", "Unknown Author", "No description available")] := by
  with_unfolding_all decide

/-- C11, amended. Whenever the category is missing from the request or is not
one of the enumerated values, `createBook` answers 500 with a validation error
that names `category`, and the record store is as before: no book is
persisted. -/
theorem createBook_rejects_bad_category (env : Env) (req : BookReq) (w : World)
    (h : badCategory req.body) :
    ∃ w' paths, createBook env req w =
        (w', Response.fail 500 (Message.ofError (Failure.validation paths))) ∧
      "category" ∈ paths ∧ w'.db = w.db := by
  have h1 := uploadFile_db env req.files w
  rcases hf : createBook.uploadFile env req.files w with ⟨w1, fileUrl, publicId⟩
  rw [hf] at h1
  have h2 := uploadCover_db env req.files w1
  rcases hc : createBook.uploadCover env req.files w1 with ⟨w2, coverImageUrl⟩
  rw [hc] at h2
  dsimp only at h1 h2
  simp only [createBook, hf, hc]
  have hcat := strOr_default_category req.body h
  have hmem := validate_category (Book.applySetters
    { _id := w2.db.nextId
      title := strOr req.body.title "Untitled Book"
      author := strOr req.body.author "Unknown Author"
      description := strOr req.body.description "No description available"
      category := strOr req.body.category "Uncategorized"
      user := (createBook.bodyUser req).getD 0
      fileUrl := fileUrl
      publicId := publicId
      coverImage := coverImageUrl
      averageRating := 1
      numReviews := 0 }) hcat
  rw [bookCreate_error _ _ (List.ne_nil_of_mem hmem)]
  exact ⟨w2, _, rfl, hmem, h2.trans h1⟩

/-- C11, amended, at two requests: the category is absent, and the category is
`Poetry`, which is not enumerated. -/
theorem createBook_rejects_bad_category_witness :
    (∃ w' paths, createBook sampleEnv uncategorizedCreate World.empty =
        (w', Response.fail 500 (Message.ofError (Failure.validation paths))) ∧
      "category" ∈ paths ∧ w'.db = World.empty.db) ∧
    (∃ w' paths, createBook sampleEnv
        { bareCreate with body := { sampleBody with category := some "Poetry" } } World.empty =
        (w', Response.fail 500 (Message.ofError (Failure.validation paths))) ∧
      "category" ∈ paths ∧ w'.db = World.empty.db) :=
  ⟨createBook_rejects_bad_category sampleEnv uncategorizedCreate World.empty
      (fun c hc => by simp [uncategorizedCreate] at hc),
    createBook_rejects_bad_category sampleEnv _ World.empty
      (fun c hc => by
        simp only [sampleBody, Option.some.injEq] at hc
        subst hc
        decide)⟩

/-- Assets after an upload call: one more when Cloudinary resolves, for a staged
file and with the public id it returned. -/
theorem cloudinaryUpload_assets (env : Env) (path rt folder : String) (w : World) :
    ((cloudinaryUpload env path rt folder w).2 = none ∧
        (cloudinaryUpload env path rt folder w).1.assets = w.assets) ∨
      ∃ r, env.upload path = some r ∧ path ∈ w.tmpFiles ∧
        (cloudinaryUpload env path rt folder w).2 = some r ∧
        (cloudinaryUpload env path rt folder w).1.assets = w.assets ++ [r.public_id] := by
  unfold cloudinaryUpload
  split_ifs with hmem
  · cases hup : env.upload path with
    | none => exact Or.inl ⟨rfl, rfl⟩
    | some r => exact Or.inr ⟨r, rfl, hmem, rfl, rfl⟩
  · exact Or.inl ⟨rfl, rfl⟩

theorem unlinkSync_assets (path : String) (w : World) :
    (unlinkSync path w).1.assets = w.assets := by
  unfold unlinkSync
  split_ifs <;> rfl

theorem cloudinaryUpload_tmpFiles (env : Env) (path rt folder : String) (w : World) :
    (cloudinaryUpload env path rt folder w).1.tmpFiles = w.tmpFiles := by
  unfold cloudinaryUpload
  split_ifs
  · split <;> rfl
  · rfl

/-- Assets after the primary upload of `createBook`: as before, or one more,
returned by a resolved upload, whose urls the block hands on. -/
theorem uploadFile_assets (env : Env) (files : Option Files) (w : World) :
    ((createBook.uploadFile env files w).1.assets = w.assets ∧
        (createBook.uploadFile env files w).2 =
          (placeholderUrl, "placeholder_" ++ toString env.now)) ∨
      ∃ p r, env.upload p = some r ∧
        (createBook.uploadFile env files w).1.assets = w.assets ++ [r.public_id] ∧
        ((createBook.uploadFile env files w).2 = (r.secure_url, r.public_id) ∨
          (createBook.uploadFile env files w).2 =
            (placeholderUrl, "placeholder_" ++ toString env.now)) := by
  unfold createBook.uploadFile
  split
  · rename_i bookFile _ _
    rcases cloudinaryUpload_assets env bookFile.path "auto" "digital_library/books" w with
      ⟨h2, ha⟩ | ⟨r, hup, -, h2, ha⟩
    · rcases hcu : cloudinaryUpload env bookFile.path "auto" "digital_library/books" w with ⟨w1, o⟩
      rw [hcu] at h2 ha
      dsimp only at h2 ha
      subst h2
      exact Or.inl ⟨ha, rfl⟩
    · rcases hcu : cloudinaryUpload env bookFile.path "auto" "digital_library/books" w with ⟨w1, o⟩
      rw [hcu] at h2 ha
      dsimp only at h2 ha
      subst h2
      have hu := unlinkSync_assets bookFile.path w1
      refine Or.inr ⟨bookFile.path, r, hup, ?_⟩
      dsimp only
      rcases hun : unlinkSync bookFile.path w1 with ⟨w2, ok⟩
      rw [hun] at hu
      cases ok
      · exact ⟨hu.trans ha, Or.inr rfl⟩
      · exact ⟨hu.trans ha, Or.inl rfl⟩
  · exact Or.inl ⟨rfl, rfl⟩

/-- Assets after the cover upload of `createBook`: as before, or one more,
returned by a resolved upload. -/
theorem uploadCover_assets (env : Env) (files : Option Files) (w : World) :
    (createBook.uploadCover env files w).1.assets = w.assets ∨
      ∃ p r, env.upload p = some r ∧
        (createBook.uploadCover env files w).1.assets = w.assets ++ [r.public_id] := by
  unfold createBook.uploadCover
  split
  · rename_i coverImage _ _
    rcases cloudinaryUpload_assets env coverImage.path "image" "digital_library/covers" w with
      ⟨h2, ha⟩ | ⟨r, hup, -, h2, ha⟩
    · rcases hcu : cloudinaryUpload env coverImage.path "image" "digital_library/covers" w
        with ⟨w1, o⟩
      rw [hcu] at h2 ha
      dsimp only at h2 ha
      subst h2
      exact Or.inl ha
    · rcases hcu : cloudinaryUpload env coverImage.path "image" "digital_library/covers" w
        with ⟨w1, o⟩
      rw [hcu] at h2 ha
      dsimp only at h2 ha
      subst h2
      have hu := unlinkSync_assets coverImage.path w1
      refine Or.inr ⟨coverImage.path, r, hup, ?_⟩
      dsimp only
      rcases hun : unlinkSync coverImage.path w1 with ⟨w2, ok⟩
      rw [hun] at hu
      cases ok <;> exact hu.trans ha
  · exact Or.inl rfl

theorem uploadFile_none (env : Env) (w : World) :
    createBook.uploadFile env none w = (w, placeholderUrl, "placeholder_" ++ toString env.now) :=
  rfl

theorem uploadCover_none (env : Env) (w : World) : createBook.uploadCover env none w = (w, "") :=
  rfl

/-- The assets of `createBook` are those of its two upload blocks. -/
theorem createBook_assets (env : Env) (req : BookReq) (w : World) :
    (createBook env req w).1.assets =
      (createBook.uploadCover env req.files (createBook.uploadFile env req.files w).1).1.assets := by
  rcases hf : createBook.uploadFile env req.files w with ⟨w1, fileUrl, publicId⟩
  rcases hc : createBook.uploadCover env req.files w1 with ⟨w2, coverImageUrl⟩
  simp only [createBook, hf, hc]
  split <;> rfl

set_option maxRecDepth 8000 in
/-- C12 as stated fails: the request lacks the category and carries a book file;
Cloudinary stores the file before the validators run, the call is answered 500,
the record store is as before and the asset store holds a new asset. -/
theorem createBook_invalid_keeps_upload :
    uncategorizedCreate.body.category = none ∧
      (step World.empty (Op.createBook sampleEnv uncategorizedCreate)).2 =
        Response.fail 500 (Message.ofError (Failure.validation ["category"])) ∧
      (step World.empty (Op.createBook sampleEnv uncategorizedCreate)).1.db = World.empty.db ∧
      World.empty.assets = [] ∧
      (step World.empty (Op.createBook sampleEnv uncategorizedCreate)).1.assets =
        ["asset_dune.pdf"] := by
  with_unfolding_all decide

/-- Assets and staged files after the primary upload block of `createBook`. -/
theorem uploadFile_stored (env : Env) (files : Files) (w : World) :
    (createBook.uploadFile env (some files) w).1.assets =
        w.assets ++ storedFor env w.tmpFiles files.file ∧
      (createBook.uploadFile env (some files) w).1.tmpFiles =
        stagedAfter env w.tmpFiles files.file := by
  obtain ⟨file, cover⟩ := files
  cases file with
  | nil => simp [createBook.uploadFile, storedFor, stagedAfter]
  | cons f rest =>
    simp only [createBook.uploadFile, Option.map_some', storedFor, stagedAfter, cloudinaryUpload]
    by_cases hmem : f.path ∈ w.tmpFiles
    · cases hup : env.upload f.path with
      | none => simp [hmem]
      | some r => simp [hmem, unlinkSync]
    · simp [hmem]

/-- Assets after the cover upload block of `createBook`. -/
theorem uploadCover_stored (env : Env) (files : Files) (w : World) :
    (createBook.uploadCover env (some files) w).1.assets =
      w.assets ++ storedFor env w.tmpFiles files.coverImage := by
  obtain ⟨file, cover⟩ := files
  cases cover with
  | nil => simp [createBook.uploadCover, storedFor]
  | cons c rest =>
    simp only [createBook.uploadCover, Option.map_some', storedFor, cloudinaryUpload]
    by_cases hmem : c.path ∈ w.tmpFiles
    · cases hup : env.upload c.path with
      | none => simp [hmem]
      | some r => simp [hmem, unlinkSync]
    · simp [hmem]

/-- The asset store after `createBook`, whatever it answers: the assets it held
followed by those Cloudinary stored for the uploads of the call. -/
theorem createBook_assets_stored (env : Env) (req : BookReq) (w : World) :
    (createBook env req w).1.assets = w.assets ++ storedAssets env req.files w.tmpFiles := by
  rw [createBook_assets]
  cases hfiles : req.files with
  | none => simp [uploadFile_none, uploadCover_none, storedAssets]
  | some files =>
    obtain ⟨ha, ht⟩ := uploadFile_stored env files w
    rw [uploadCover_stored, ha, ht]
    simp [storedAssets]

/-- C12, amended. When `createBook` fails, the record store is as before (no new
book); the asset store holds its previous assets followed by exactly the public
ids Cloudinary returned for the resolved uploads of the call, the book file
first and the cover image second, none of them rolled back; it is as before when
the request carries neither a book file nor a cover image. -/
theorem createBook_failure_keeps_records (env : Env) (req : BookReq) (w : World) (s : Nat)
    (m : Message) (h : (createBook env req w).2 = Response.fail s m) :
    (createBook env req w).1.db = w.db ∧
      (createBook env req w).1.assets = w.assets ++ storedAssets env req.files w.tmpFiles ∧
      (noPrimaryFile req → noCoverImage req → (createBook env req w).1.assets = w.assets) := by
  refine ⟨?_, createBook_assets_stored env req w, fun hnf hnc => ?_⟩
  · have h1 := uploadFile_db env req.files w
    rcases hf : createBook.uploadFile env req.files w with ⟨w1, fileUrl, publicId⟩
    rw [hf] at h1
    have h2 := uploadCover_db env req.files w1
    rcases hc : createBook.uploadCover env req.files w1 with ⟨w2, coverImageUrl⟩
    rw [hc] at h2
    dsimp only at h1 h2
    simp only [createBook, hf, hc] at h ⊢
    split at h
    · simp at h
    · rename_i e he
      simp only [he]
      exact h2.trans h1
  · rw [createBook_assets_stored]
    cases hfiles : req.files with
    | none => simp [storedAssets]
    | some files =>
      simp [storedAssets, hnf files hfiles, hnc files hfiles, storedFor, stagedAfter]

set_option maxRecDepth 8000 in
/-- C12, amended, at three failing requests: one without files and one that went
through multer without any file, whose asset store stays as it was, and one with
a staged book file, whose upload stays in the asset store. -/
theorem createBook_failure_keeps_records_witness :
    (createBook sampleEnv { bareCreate with body := emptyBody } World.empty).1.assets =
        World.empty.assets ∧
      (createBook sampleEnv
        { bareCreate with body := emptyBody, files := some { file := [], coverImage := [] } }
        World.empty).1.assets = World.empty.assets ∧
      (createBook sampleEnv uncategorizedCreate
        (multerFields uncategorizedCreate.files World.empty)).1.db = World.empty.db ∧
      (createBook sampleEnv uncategorizedCreate
        (multerFields uncategorizedCreate.files World.empty)).1.assets = ["asset_dune.pdf"] :=
  ⟨(createBook_failure_keeps_records sampleEnv { bareCreate with body := emptyBody } World.empty 500
      (Message.ofError (Failure.validation ["category"])) (by with_unfolding_all decide)).2.2
      (fun files hf => by simp [bareCreate] at hf) (fun files hf => by simp [bareCreate] at hf),
    (createBook_failure_keeps_records sampleEnv
      { bareCreate with body := emptyBody, files := some { file := [], coverImage := [] } }
      World.empty 500
      (Message.ofError (Failure.validation ["category"])) (by with_unfolding_all decide)).2.2
      (fun files hf => by
        simp only [Option.some.injEq] at hf
        rw [← hf])
      (fun files hf => by
        simp only [Option.some.injEq] at hf
        rw [← hf]),
    (createBook_failure_keeps_records sampleEnv uncategorizedCreate
      (multerFields uncategorizedCreate.files World.empty) 500
      (Message.ofError (Failure.validation ["category"])) (by with_unfolding_all decide)).1,
    (createBook_failure_keeps_records sampleEnv uncategorizedCreate
      (multerFields uncategorizedCreate.files World.empty) 500
      (Message.ofError (Failure.validation ["category"])) (by with_unfolding_all decide)).2.1.trans
      (by with_unfolding_all decide)⟩

/-! ## C13 to C17: replacing assets in `updateBook` -/

theorem cloudinaryUpload_trace (env : Env) (path rt folder : String) (w : World) :
    (cloudinaryUpload env path rt folder w).1.trace = w.trace ++ [Call.upload path rt folder] := by
  unfold cloudinaryUpload
  split_ifs
  · split <;> rfl
  · rfl

theorem cloudinaryDestroy_trace (env : Env) (publicId : String) (w : World) :
    (cloudinaryDestroy env publicId w).1.trace = w.trace ++ [Call.destroy publicId] := by
  unfold cloudinaryDestroy
  split <;> rfl

theorem unlinkSync_trace (path : String) (w : World) :
    (unlinkSync path w).1.trace = w.trace ++ [Call.unlink path] := by
  unfold unlinkSync
  split_ifs <;> rfl

/-- Calls of the primary-file block of `updateBook` when a file is supplied and
the book has a public id: the destroy of that id first, then no other destroy. -/
theorem replaceFile_trace (env : Env) (book : Book) (req : BookReq) (w : World) (files : Files)
    (f : UploadedFile) (rest : List UploadedFile) (hfiles : req.files = some files)
    (hfile : files.file = f :: rest) (hpid : book.publicId ≠ "") :
    ∃ calls, (updateBook.replaceFile env book req w).1.trace =
        w.trace ++ Call.destroy book.publicId :: calls ∧
      calls.filter Call.isDestroy = [] := by
  unfold updateBook.replaceFile
  simp only [hfiles, Option.map_some', hfile, hpid, ne_eq, not_false_eq_true, if_true]
  have hd := cloudinaryDestroy_trace env book.publicId w
  rcases hdes : cloudinaryDestroy env book.publicId w with ⟨w1, ok⟩
  rw [hdes] at hd
  dsimp only at hd
  cases ok
  · exact ⟨[], by simpa using hd, rfl⟩
  · dsimp only
    have hu := cloudinaryUpload_trace env f.path "raw" "digital_library/books" w1
    rcases hup : cloudinaryUpload env f.path "raw" "digital_library/books" w1 with ⟨w2, o⟩
    rw [hup] at hu
    dsimp only at hu
    cases o with
    | none => exact ⟨[Call.upload f.path "raw" "digital_library/books"], by simp [hu, hd], rfl⟩
    | some result =>
      dsimp only
      have hl := unlinkSync_trace f.path w2
      rcases hun : unlinkSync f.path w2 with ⟨w3, ok2⟩
      rw [hun] at hl
      dsimp only at hl
      refine ⟨[Call.upload f.path "raw" "digital_library/books", Call.unlink f.path], ?_, rfl⟩
      cases ok2 <;> simp [hl, hu, hd]

/-- Calls of the cover block of `updateBook`: no destroy among them. -/
theorem replaceCover_trace (env : Env) (book : Book) (files : Option Files) (body : BookBody)
    (w : World) :
    ∃ calls, (updateBook.replaceCover env book files body w).1.trace = w.trace ++ calls ∧
      calls.filter Call.isDestroy = [] := by
  unfold updateBook.replaceCover
  split
  · rename_i coverImage _ _
    simp only [Book.coverImagePublicId]
    have hu := cloudinaryUpload_trace env coverImage.path "image" "digital_library/covers" w
    rcases hup : cloudinaryUpload env coverImage.path "image" "digital_library/covers" w
      with ⟨w2, o⟩
    rw [hup] at hu
    dsimp only at hu
    cases o with
    | none => exact ⟨[Call.upload coverImage.path "image" "digital_library/covers"], hu, rfl⟩
    | some result =>
      dsimp only
      have hl := unlinkSync_trace coverImage.path w2
      rcases hun : unlinkSync coverImage.path w2 with ⟨w3, ok2⟩
      rw [hun] at hl
      dsimp only at hl
      refine ⟨[Call.upload coverImage.path "image" "digital_library/covers",
        Call.unlink coverImage.path], ?_, rfl⟩
      cases ok2 <;> simp [hl, hu]
  · exact ⟨[], by simp, rfl⟩

/-- The trace of `updateBook` on a stored book is the trace of its two blocks:
the record-store write issues no call. -/
theorem updateBook_trace (env : Env) (id : ObjectId) (req : BookReq) (w : World) (book : Book)
    (hb : Book.findById w.db.books id = some book) :
    (updateBook env id req w).1.trace = (updateBook.replaceFile env book req w).1.trace ∨
      ∃ body1, (updateBook.replaceFile env book req w).2 = Except.ok body1 ∧
        (updateBook env id req w).1.trace =
          (updateBook.replaceCover env book req.files body1
            (updateBook.replaceFile env book req w).1).1.trace := by
  unfold updateBook
  rw [hb]
  dsimp only
  rcases hf : updateBook.replaceFile env book req w with ⟨w1, r1⟩
  cases r1 with
  | error e => exact Or.inl rfl
  | ok body1 =>
    refine Or.inr ⟨body1, rfl, ?_⟩
    dsimp only
    rcases hc : updateBook.replaceCover env book req.files body1 w1 with ⟨w2, r2⟩
    cases r2 with
    | error e => rfl
    | ok body2 =>
      dsimp only
      split <;> rfl

/-- What a completed primary-file block of `updateBook` leaves when a file is
supplied: the destroy of the old id was not rejected, Cloudinary resolved the
upload, the body carries the urls of the result and the new asset is stored. -/
theorem replaceFile_ok (env : Env) (book : Book) (req : BookReq) (w w1 : World) (body : BookBody)
    (files : Files) (f : UploadedFile) (rest : List UploadedFile) (hfiles : req.files = some files)
    (hfile : files.file = f :: rest)
    (h : updateBook.replaceFile env book req w = (w1, Except.ok body)) :
    ∃ r, env.upload f.path = some r ∧
      body = { req.body with fileUrl := some r.secure_url, publicId := some r.public_id } ∧
      r.public_id ∈ w1.assets ∧
      (book.publicId ≠ "" → env.destroy book.publicId ≠ DestroyOutcome.rejected) := by
  unfold updateBook.replaceFile at h
  simp only [hfiles, Option.map_some', hfile] at h
  have hrej : ∀ w0 : World, (book.publicId ≠ "" → env.destroy book.publicId ≠ DestroyOutcome.rejected) ∨
      (if book.publicId ≠ "" then cloudinaryDestroy env book.publicId w0 else (w0, true)).2 = false := by
    intro w0
    by_cases hp : book.publicId = ""
    · exact Or.inl (fun hne => absurd hp hne)
    · simp only [ne_eq, hp, not_false_eq_true, if_true]
      unfold cloudinaryDestroy
      cases hd : env.destroy book.publicId
      · exact Or.inl (fun _ => by simp)
      · exact Or.inl (fun _ => by simp)
      · exact Or.inr rfl
  have hrej' := hrej w
  rcases hdes : (if book.publicId ≠ "" then cloudinaryDestroy env book.publicId w else (w, true))
    with ⟨w0, ok⟩
  rw [hdes] at h hrej'
  cases ok
  · simp at h
  · dsimp only at h hrej'
    rcases cloudinaryUpload_assets env f.path "raw" "digital_library/books" w0 with
      ⟨h2, -⟩ | ⟨r, hup, -, h2, ha⟩
    · rcases hcu : cloudinaryUpload env f.path "raw" "digital_library/books" w0 with ⟨w2, o⟩
      rw [hcu] at h h2
      dsimp only at h2
      subst h2
      simp at h
    · rcases hcu : cloudinaryUpload env f.path "raw" "digital_library/books" w0 with ⟨w2, o⟩
      rw [hcu] at h h2 ha
      dsimp only at h2 ha
      subst h2
      dsimp only at h
      have hu := unlinkSync_assets f.path w2
      rcases hun : unlinkSync f.path w2 with ⟨w3, ok2⟩
      rw [hun] at h hu
      cases ok2
      · simp at h
      · simp only [Prod.mk.injEq, Except.ok.injEq] at h
        obtain ⟨hw, hbody⟩ := h
        subst hw
        refine ⟨r, hup, hbody.symm, ?_, ?_⟩
        · rw [hu, ha]
          simp
        · rcases hrej' with h' | h'
          · exact h'
          · simp at h'

/-- What a completed cover block of `updateBook` leaves: the paths of the primary
file are as the first block left them, and every stored asset is still stored. -/
theorem replaceCover_ok (env : Env) (book : Book) (files : Option Files) (body body2 : BookBody)
    (w w2 : World) (h : updateBook.replaceCover env book files body w = (w2, Except.ok body2)) :
    body2.fileUrl = body.fileUrl ∧ body2.publicId = body.publicId ∧
      ∀ a ∈ w.assets, a ∈ w2.assets := by
  unfold updateBook.replaceCover at h
  split at h
  · rename_i coverImage _ _
    simp only [Book.coverImagePublicId] at h
    rcases cloudinaryUpload_assets env coverImage.path "image" "digital_library/covers" w with
      ⟨h2, -⟩ | ⟨r, hup, -, h2, ha⟩
    · rcases hcu : cloudinaryUpload env coverImage.path "image" "digital_library/covers" w
        with ⟨w1, o⟩
      rw [hcu] at h h2
      dsimp only at h2
      subst h2
      simp at h
    · rcases hcu : cloudinaryUpload env coverImage.path "image" "digital_library/covers" w
        with ⟨w1, o⟩
      rw [hcu] at h h2 ha
      dsimp only at h2 ha
      subst h2
      dsimp only at h
      have hu := unlinkSync_assets coverImage.path w1
      rcases hun : unlinkSync coverImage.path w1 with ⟨w3, ok2⟩
      rw [hun] at h hu
      cases ok2
      · simp at h
      · simp only [Prod.mk.injEq, Except.ok.injEq] at h
        obtain ⟨hw, hbody⟩ := h
        subst hw
        subst hbody
        refine ⟨rfl, rfl, fun a ha' => ?_⟩
        rw [hu, ha]
        exact List.mem_append_left _ ha'
  · simp only [Prod.mk.injEq, Except.ok.injEq] at h
    obtain ⟨hw, hbody⟩ := h
    subst hw
    subst hbody
    exact ⟨rfl, rfl, fun a ha => ha⟩

/-- Inversion of a successful `updateBook`: both blocks completed, the update
validators passed, and the stored book is the old one with the body applied. -/
theorem updateBook_ok (env : Env) (id : ObjectId) (req : BookReq) (w w' : World) (b : Book)
    (h : updateBook env id req w = (w', Response.ok 200 (Data.book b))) :
    ∃ book w1 body1 w2 body2, Book.findById w.db.books id = some book ∧
      updateBook.replaceFile env book req w = (w1, Except.ok body1) ∧
      updateBook.replaceCover env book req.files body1 w1 = (w2, Except.ok body2) ∧
      body2.validate = [] ∧ b = body2.apply book ∧ w'.assets = w2.assets ∧
      w'.db = { w.db with books := updateFirst (fun x => x._id == id) body2.apply w.db.books } := by
  unfold updateBook at h
  split at h
  · simp at h
  · rename_i book hb
    have h1 := replaceFile_db env book req w
    rcases hf : updateBook.replaceFile env book req w with ⟨w1, r1⟩
    rw [hf] at h h1
    cases r1 with
    | error e => simp at h
    | ok body1 =>
      dsimp only at h h1
      have h2 := replaceCover_db env book req.files body1 w1
      rcases hc : updateBook.replaceCover env book req.files body1 w1 with ⟨w2, r2⟩
      rw [hc] at h h2
      cases r2 with
      | error e => simp at h
      | ok body2 =>
        dsimp only at h h2
        split at h
        · rename_i db updated hup
          obtain ⟨hv, hdb, hupd⟩ := bookUpdate_ok _ _ _ _ _ _ hup
          simp only [Prod.mk.injEq, Response.ok.injEq, Data.book.injEq, true_and] at h
          obtain ⟨hw, hbb⟩ := h
          subst hw
          subst hbb
          refine ⟨book, w1, body1, w2, body2, hb, hf, hc, hv, hupd, rfl, ?_⟩
          simp [hdb, h2, h1]
        · simp at h

/-- After a successful `updateBook` that supplied a primary file, the stored
book carries the urls of the upload Cloudinary resolved, the new asset is in the
store, and the destroy of the old id was not rejected. -/
theorem updateBook_file_success (env : Env) (id : ObjectId) (req : BookReq) (w w' : World)
    (b : Book) (files : Files) (f : UploadedFile) (rest : List UploadedFile)
    (hfiles : req.files = some files) (hfile : files.file = f :: rest)
    (h : updateBook env id req w = (w', Response.ok 200 (Data.book b))) :
    ∃ book r, Book.findById w.db.books id = some book ∧ env.upload f.path = some r ∧
      b.fileUrl = r.secure_url ∧ b.publicId = r.public_id ∧ r.public_id ∈ w'.assets ∧
      Book.findById w'.db.books id = some b ∧
      (book.publicId ≠ "" → env.destroy book.publicId ≠ DestroyOutcome.rejected) := by
  obtain ⟨book, w1, body1, w2, body2, hb, hrf, hrc, -, hbb, hassets, hdb⟩ :=
    updateBook_ok env id req w w' b h
  obtain ⟨r, hup, hbody1, hmem, hrej⟩ := replaceFile_ok env book req w w1 body1 files f rest hfiles
    hfile hrf
  obtain ⟨hfu, hpi, hmono⟩ := replaceCover_ok env book req.files body1 body2 w1 w2 hrc
  refine ⟨book, r, hb, hup, ?_, ?_, ?_, ?_, hrej⟩
  · rw [hbb]
    simp [BookBody.apply, hfu, hbody1]
  · rw [hbb]
    simp [BookBody.apply, hpi, hbody1]
  · rw [hassets]
    exact hmono _ hmem
  · rw [hdb, hbb]
    unfold Book.findById at hb ⊢
    dsimp only
    rw [find?_updateFirst _ _ (by intro x hx; simpa [BookBody.apply] using hx), hb]
    rfl

/-- Inversion of a successful `createBook`: the stored book carries the urls the
primary upload block left, and the assets are those after the two blocks. -/
theorem createBook_ok (env : Env) (req : BookReq) (w w' : World) (b : Book)
    (h : createBook env req w = (w', Response.ok 201 (Data.book b))) :
    b.fileUrl = (createBook.uploadFile env req.files w).2.1 ∧
      b.publicId = (createBook.uploadFile env req.files w).2.2 ∧
      w'.assets =
        (createBook.uploadCover env req.files (createBook.uploadFile env req.files w).1).1.assets := by
  have ha := createBook_assets env req w
  rw [h] at ha
  refine ⟨?_, ?_, ha⟩ <;>
  · rcases hf : createBook.uploadFile env req.files w with ⟨w1, fileUrl, publicId⟩
    rcases hc : createBook.uploadCover env req.files w1 with ⟨w2, coverImageUrl⟩
    simp only [createBook, hf, hc] at h
    split at h
    · rename_i db created hcreate
      obtain ⟨hcr, -, -⟩ := bookCreate_ok _ _ _ _ hcreate
      simp only [Prod.mk.injEq, Response.ok.injEq, Data.book.injEq, true_and] at h
      rw [← h.2, hcr]
      rfl
    · simp at h

set_option maxRecDepth 8000 in
/-- C13 as stated fails: book 1 holds the uploaded asset `asset_dune.pdf`; an
`updateBook` with a new file destroys that asset, Cloudinary rejects the upload,
the call is answered 500 and the record still carries `asset_dune.pdf`, which is
no longer in the asset store and is not the placeholder. -/
theorem updateBook_failure_leaves_dangling_publicId :
    (run World.empty uploadedBook).assets = ["asset_dune.pdf"] ∧
      (step (run World.empty uploadedBook)
        (Op.updateBook rejectingEnv 1 (fileUpdate "dune2.pdf"))).2 =
        Response.fail 500 (Message.ofError Failure.cloudinary) ∧
      (step (run World.empty uploadedBook)
        (Op.updateBook rejectingEnv 1 (fileUpdate "dune2.pdf"))).1.db.books.map
        (fun b => (b.publicId, b.fileUrl)) =
        [("asset_dune.pdf", "https://cdn.example/dune.pdf")] ∧
      (step (run World.empty uploadedBook)
        (Op.updateBook rejectingEnv 1 (fileUpdate "dune2.pdf"))).1.assets = [] := by
  with_unfolding_all decide

/-- C13, amended. After a `createBook` that succeeds, the stored book's
`publicId` is the id of an asset in the asset store, or it is the placeholder id
next to the placeholder url; after an `updateBook` that supplies a primary file
and succeeds, the stored book's `publicId` is the id of an asset in the asset
store. -/
theorem primary_publicId_stored_after_success :
    (∀ (env : Env) (req : BookReq) (w w' : World) (b : Book),
        createBook env req w = (w', Response.ok 201 (Data.book b)) →
        b.publicId ∈ w'.assets ∨
          (b.publicId = "placeholder_" ++ toString env.now ∧ b.fileUrl = placeholderUrl)) ∧
      (∀ (env : Env) (id : ObjectId) (req : BookReq) (w w' : World) (b : Book) (files : Files)
        (f : UploadedFile) (rest : List UploadedFile),
        req.files = some files → files.file = f :: rest →
        updateBook env id req w = (w', Response.ok 200 (Data.book b)) →
        Book.findById w'.db.books id = some b ∧ b.publicId ∈ w'.assets) := by
  constructor
  · intro env req w w' b h
    obtain ⟨hurl, hpid, hassets⟩ := createBook_ok env req w w' b h
    have hmono : ∀ a ∈ (createBook.uploadFile env req.files w).1.assets, a ∈ w'.assets := by
      intro a ha
      rw [hassets]
      rcases uploadCover_assets env req.files (createBook.uploadFile env req.files w).1 with
        hc | ⟨q, t, -, hc⟩ <;> rw [hc]
      · exact ha
      · exact List.mem_append_left _ ha
    rcases uploadFile_assets env req.files w with ⟨-, h2⟩ | ⟨p, r, -, ha, h2 | h2⟩
    · exact Or.inr ⟨by rw [hpid, h2], by rw [hurl, h2]⟩
    · refine Or.inl (hmono _ ?_)
      rw [ha, hpid, h2]
      simp
    · exact Or.inr ⟨by rw [hpid, h2], by rw [hurl, h2]⟩
  · intro env id req w w' b files f rest hfiles hfile h
    obtain ⟨book, r, -, -, -, hpid, hmem, hfind, -⟩ :=
      updateBook_file_success env id req w w' b files f rest hfiles hfile h
    exact ⟨hfind, by rw [hpid]; exact hmem⟩

set_option maxRecDepth 8000 in
/-- C13, amended, on the sample deployment: the book created with `dune.pdf`
points at `asset_dune.pdf`, and after a successful replacement by `dune2.pdf` it
points at `asset_dune2.pdf`; both are in the asset store at that moment. -/
theorem primary_publicId_stored_after_success_witness :
    ("asset_dune.pdf" ∈ (run World.empty uploadedBook).assets ∨
        ("asset_dune.pdf" = "placeholder_" ++ toString sampleEnv.now ∧
          duneBook.fileUrl = placeholderUrl)) ∧
      (Book.findById (step (run World.empty uploadedBook)
          (Op.updateBook sampleEnv 1 (fileUpdate "dune2.pdf"))).1.db.books 1 =
          some { duneBook with
            fileUrl := "https://cdn.example/dune2.pdf", publicId := "asset_dune2.pdf" } ∧
        "asset_dune2.pdf" ∈ (step (run World.empty uploadedBook)
          (Op.updateBook sampleEnv 1 (fileUpdate "dune2.pdf"))).1.assets) :=
  ⟨primary_publicId_stored_after_success.1 sampleEnv (sampleCreate "dune.pdf")
      (multerFields (sampleCreate "dune.pdf").files World.empty) (run World.empty uploadedBook)
      duneBook (by with_unfolding_all decide),
    primary_publicId_stored_after_success.2 sampleEnv 1 (fileUpdate "dune2.pdf")
      (multerFields (fileUpdate "dune2.pdf").files (run World.empty uploadedBook))
      (step (run World.empty uploadedBook) (Op.updateBook sampleEnv 1 (fileUpdate "dune2.pdf"))).1
      { duneBook with fileUrl := "https://cdn.example/dune2.pdf", publicId := "asset_dune2.pdf" }
      { file := [{ path := "dune2.pdf" }], coverImage := [] } { path := "dune2.pdf" } [] rfl rfl
      (by with_unfolding_all decide)⟩

/-- The primary-file block of `updateBook` when the destroy of the old id is
rejected: the error is thrown right after the destroy call. -/
theorem replaceFile_destroy_rejected (env : Env) (book : Book) (req : BookReq) (w : World)
    (files : Files) (f : UploadedFile) (rest : List UploadedFile) (hfiles : req.files = some files)
    (hfile : files.file = f :: rest) (hpid : book.publicId ≠ "")
    (hrej : env.destroy book.publicId = DestroyOutcome.rejected) :
    updateBook.replaceFile env book req w =
      ({ w with trace := w.trace ++ [Call.destroy book.publicId] },
        Except.error Failure.cloudinary) := by
  unfold updateBook.replaceFile
  simp only [hfiles, Option.map_some', hfile, hpid, ne_eq, not_false_eq_true, if_true,
    cloudinaryDestroy, hrej]

set_option maxRecDepth 8000 in
/-- C14 as stated fails: book 1 holds `asset_dune.pdf`; an `updateBook` with a
new file while Cloudinary rejects the destroy call is answered 500, issues no
upload, and leaves the record with the old `fileUrl` and `publicId`. -/
theorem updateBook_fails_on_rejected_destroy :
    (step (run World.empty uploadedBook)
        (Op.updateBook destroyRejectingEnv 1 (fileUpdate "dune2.pdf"))).2 =
        Response.fail 500 (Message.ofError Failure.cloudinary) ∧
      (step (run World.empty uploadedBook)
        (Op.updateBook destroyRejectingEnv 1 (fileUpdate "dune2.pdf"))).1.trace =
        (run World.empty uploadedBook).trace ++ [Call.destroy "asset_dune.pdf"] ∧
      (step (run World.empty uploadedBook)
        (Op.updateBook destroyRejectingEnv 1 (fileUpdate "dune2.pdf"))).1.db.books.map
        (fun b => (b.fileUrl, b.publicId)) =
        [("https://cdn.example/dune.pdf", "asset_dune.pdf")] := by
  with_unfolding_all decide

/-- C14, amended. For an `updateBook` call on a stored book that supplies a new
primary file: when the call succeeds, the stored book's `fileUrl` and `publicId`
are those of the upload Cloudinary resolved for the file; when the book has a
public id and Cloudinary rejects its destroy, the call is answered 500 right
after the destroy call, with no upload and the record store, the assets and the
staged files as before. -/
theorem updateBook_replaces_primary_file (env : Env) (id : ObjectId) (req : BookReq) (w : World)
    (book : Book) (files : Files) (f : UploadedFile) (rest : List UploadedFile)
    (hb : Book.findById w.db.books id = some book) (hfiles : req.files = some files)
    (hfile : files.file = f :: rest) :
    (∀ (w' : World) (b : Book), updateBook env id req w = (w', Response.ok 200 (Data.book b)) →
        ∃ r, env.upload f.path = some r ∧ b.fileUrl = r.secure_url ∧ b.publicId = r.public_id ∧
          Book.findById w'.db.books id = some b) ∧
      (book.publicId ≠ "" → env.destroy book.publicId = DestroyOutcome.rejected →
        updateBook env id req w =
          ({ w with trace := w.trace ++ [Call.destroy book.publicId] },
            Response.fail 500 (Message.ofError Failure.cloudinary))) := by
  constructor
  · intro w' b h
    obtain ⟨-, r, -, hup, hurl, hpid, -, hfind, -⟩ :=
      updateBook_file_success env id req w w' b files f rest hfiles hfile h
    exact ⟨r, hup, hurl, hpid, hfind⟩
  · intro hpid hrej
    unfold updateBook
    rw [hb]
    dsimp only
    rw [replaceFile_destroy_rejected env book req w files f rest hfiles hfile hpid hrej]

set_option maxRecDepth 8000 in
/-- C14, amended, on the sample deployment: replacing `dune.pdf` by `dune2.pdf`
succeeds when every store call resolves, and is answered 500 when the destroy is
rejected. -/
theorem updateBook_replaces_primary_file_witness :
    (∃ r, sampleEnv.upload "dune2.pdf" = some r ∧
        "https://cdn.example/dune2.pdf" = r.secure_url ∧ "asset_dune2.pdf" = r.public_id ∧
        Book.findById (step (run World.empty uploadedBook)
          (Op.updateBook sampleEnv 1 (fileUpdate "dune2.pdf"))).1.db.books 1 =
          some { duneBook with
            fileUrl := "https://cdn.example/dune2.pdf", publicId := "asset_dune2.pdf" }) ∧
      updateBook destroyRejectingEnv 1 (fileUpdate "dune2.pdf")
          (multerFields (fileUpdate "dune2.pdf").files (run World.empty uploadedBook)) =
        ({ multerFields (fileUpdate "dune2.pdf").files (run World.empty uploadedBook) with
            trace := (run World.empty uploadedBook).trace ++ [Call.destroy "asset_dune.pdf"] },
          Response.fail 500 (Message.ofError Failure.cloudinary)) :=
  ⟨(updateBook_replaces_primary_file sampleEnv 1 (fileUpdate "dune2.pdf")
      (multerFields (fileUpdate "dune2.pdf").files (run World.empty uploadedBook)) duneBook
      { file := [{ path := "dune2.pdf" }], coverImage := [] } { path := "dune2.pdf" } []
      (by with_unfolding_all decide) rfl rfl).1
      (step (run World.empty uploadedBook) (Op.updateBook sampleEnv 1 (fileUpdate "dune2.pdf"))).1
      { duneBook with fileUrl := "https://cdn.example/dune2.pdf", publicId := "asset_dune2.pdf" }
      (by with_unfolding_all decide),
    (updateBook_replaces_primary_file destroyRejectingEnv 1 (fileUpdate "dune2.pdf")
      (multerFields (fileUpdate "dune2.pdf").files (run World.empty uploadedBook)) duneBook
      { file := [{ path := "dune2.pdf" }], coverImage := [] } { path := "dune2.pdf" } []
      (by with_unfolding_all decide) rfl rfl).2 (by decide) rfl⟩

/-! ### C15: one destroy call, for the previous public id -/

/-- C15. For a stored book with a public id, an `updateBook` call that supplies a
new primary file issues exactly one destroy call, and its argument is the book's
previous `publicId`; this holds whatever the store calls answer and whether or
not a cover image is supplied too. -/
theorem updateBook_destroys_previous_once (env : Env) (id : ObjectId) (req : BookReq) (w : World)
    (book : Book) (files : Files) (f : UploadedFile) (rest : List UploadedFile)
    (hb : Book.findById w.db.books id = some book) (hpid : book.publicId ≠ "")
    (hfiles : req.files = some files) (hfile : files.file = f :: rest) :
    ∃ calls, (updateBook env id req w).1.trace = w.trace ++ calls ∧
      calls.filter Call.isDestroy = [Call.destroy book.publicId] := by
  obtain ⟨calls1, ht1, hn1⟩ := replaceFile_trace env book req w files f rest hfiles hfile hpid
  rcases updateBook_trace env id req w book hb with ht | ⟨body1, -, ht⟩
  · refine ⟨Call.destroy book.publicId :: calls1, by rw [ht, ht1], ?_⟩
    simp [List.filter_cons, Call.isDestroy, hn1]
  · obtain ⟨calls2, ht2, hn2⟩ := replaceCover_trace env book req.files body1
      (updateBook.replaceFile env book req w).1
    refine ⟨Call.destroy book.publicId :: (calls1 ++ calls2), ?_, ?_⟩
    · rw [ht, ht2, ht1]
      simp
    · simp [List.filter_cons, Call.isDestroy, hn1, hn2]

set_option maxRecDepth 8000 in
/-- C15 on the sample deployment: replacing the file of book 1, whose public id
is `asset_dune.pdf`. -/
theorem updateBook_destroys_previous_once_witness :
    Book.findById (run World.empty uploadedBook).db.books 1 = some duneBook ∧
      duneBook.publicId ≠ "" ∧
      ∃ calls, (step (run World.empty uploadedBook)
          (Op.updateBook sampleEnv 1 (fileUpdate "dune2.pdf"))).1.trace =
          (run World.empty uploadedBook).trace ++ calls ∧
        calls.filter Call.isDestroy = [Call.destroy "asset_dune.pdf"] :=
  ⟨by with_unfolding_all decide, by decide,
    updateBook_destroys_previous_once sampleEnv 1 (fileUpdate "dune2.pdf")
      (multerFields (fileUpdate "dune2.pdf").files (run World.empty uploadedBook)) duneBook
      { file := [{ path := "dune2.pdf" }], coverImage := [] } { path := "dune2.pdf" } []
      (by with_unfolding_all decide) (by decide) rfl rfl⟩

/-! ### C16, C17: the placeholder id and the cover id -/

theorem placeholder_ne_empty (s : String) : "placeholder_" ++ s ≠ "" := by
  intro h
  have hlen := congrArg String.length h
  simp only [String.length_append, String.length_empty, Nat.add_eq_zero_iff] at hlen
  exact absurd hlen.1 (by decide)

/-- `deleteBook` on a stored book with a public id issues one call: the destroy
of that id. -/
theorem deleteBook_trace (env : Env) (id : ObjectId) (w : World) (book : Book)
    (hb : Book.findById w.db.books id = some book) (hpid : book.publicId ≠ "") :
    (deleteBook env id w).1.trace = w.trace ++ [Call.destroy book.publicId] := by
  unfold deleteBook
  rw [hb]
  simp only [hpid, ne_eq, not_false_eq_true, if_true]
  have hd := cloudinaryDestroy_trace env book.publicId w
  rcases hdes : cloudinaryDestroy env book.publicId w with ⟨w1, ok⟩
  rw [hdes] at hd
  cases ok <;> exact hd

set_option maxRecDepth 8000 in
/-- C16 as stated fails: book 1 is created without a file and carries the
placeholder url and the id `placeholder_1700000000000`; `deleteBook` issues a
destroy call for that id, and so does an `updateBook` that supplies a file. -/
theorem placeholder_book_gets_destroy_call :
    (run World.empty placeholderBook).db.books.map (fun b => (b.fileUrl, b.publicId)) =
        [(placeholderUrl, "placeholder_1700000000000")] ∧
      (run World.empty placeholderBook).trace = [] ∧
      (step (run World.empty placeholderBook) (Op.deleteBook sampleEnv 1)).1.trace =
        [Call.destroy "placeholder_1700000000000"] ∧
      (step (run World.empty placeholderBook)
        (Op.updateBook sampleEnv 1 (fileUpdate "dune.pdf"))).1.trace.filter Call.isDestroy =
        [Call.destroy "placeholder_1700000000000"] := by
  with_unfolding_all decide

/-- When the primary upload of `createBook` fails or no file is supplied, the
block hands on the placeholder url and the id `placeholder_` followed by the
time of the call. -/
theorem uploadFile_placeholder (env : Env) (req : BookReq) (w : World)
    (h : primaryUploadFails env req w) :
    (createBook.uploadFile env req.files w).2 =
      (placeholderUrl, "placeholder_" ++ toString env.now) := by
  unfold primaryUploadFails at h
  unfold createBook.uploadFile
  split
  · rename_i bookFile _ heq
    rw [heq] at h
    simp only at h
    unfold cloudinaryUpload
    by_cases hmem : bookFile.path ∈ w.tmpFiles
    · have hup : env.upload bookFile.path = none := by
        rcases h with h | h
        · exact absurd hmem h
        · exact h
      simp [hmem, hup]
    · simp [hmem]
  · rfl

/-- A book answered with 201 by `createBook` is in the record store. -/
theorem createBook_stored (env : Env) (req : BookReq) (w w' : World) (book : Book)
    (h : createBook env req w = (w', Response.ok 201 (Data.book book))) : book ∈ w'.db.books := by
  rcases hf : createBook.uploadFile env req.files w with ⟨w1, fileUrl, publicId⟩
  rcases hc : createBook.uploadCover env req.files w1 with ⟨w2, coverImageUrl⟩
  simp only [createBook, hf, hc] at h
  split at h
  · rename_i db created hcreate
    obtain ⟨-, -, hdb⟩ := bookCreate_ok _ _ _ _ hcreate
    simp only [Prod.mk.injEq, Response.ok.injEq, Data.book.injEq, true_and] at h
    obtain ⟨hw, hb⟩ := h
    subst hb
    rw [← hw, hdb]
    simp
  · simp at h

/-- C16, amended. A book that `createBook` stores without a file or after a
failed primary upload carries the placeholder url and the non-empty public id
`placeholder_` followed by the time of the call.  For a stored book whose
`publicId` is such an id, `deleteBook` issues one destroy call, for that id, and
an `updateBook` that supplies a new primary file issues exactly one destroy
call, for that id. -/
theorem placeholder_id_is_destroyed (env : Env) (w : World) :
    (∀ (req : BookReq) (w' : World) (book : Book), primaryUploadFails env req w →
        createBook env req w = (w', Response.ok 201 (Data.book book)) →
        book ∈ w'.db.books ∧ book.fileUrl = placeholderUrl ∧
          book.publicId = "placeholder_" ++ toString env.now ∧ book.publicId ≠ "") ∧
      (∀ (id : ObjectId) (book : Book) (n : Nat), Book.findById w.db.books id = some book →
        book.publicId = "placeholder_" ++ toString n →
        (deleteBook env id w).1.trace = w.trace ++ [Call.destroy book.publicId] ∧
          ∀ (req : BookReq) (files : Files) (f : UploadedFile) (rest : List UploadedFile),
            req.files = some files → files.file = f :: rest →
            ∃ calls, (updateBook env id req w).1.trace = w.trace ++ calls ∧
              calls.filter Call.isDestroy = [Call.destroy book.publicId]) := by
  constructor
  · intro req w' book hfail hcreate
    obtain ⟨hurl, hpid, -⟩ := createBook_ok env req w w' book hcreate
    have hph := uploadFile_placeholder env req w hfail
    rw [hph] at hurl hpid
    dsimp only at hurl hpid
    refine ⟨createBook_stored env req w w' book hcreate, hurl, hpid, ?_⟩
    rw [hpid]
    exact placeholder_ne_empty _
  · intro id book n hb hph
    have hpid : book.publicId ≠ "" := by
      rw [hph]
      exact placeholder_ne_empty _
    refine ⟨deleteBook_trace env id w book hb hpid, ?_⟩
    intro req files f rest hfiles hfile
    obtain ⟨calls1, ht1, hn1⟩ := replaceFile_trace env book req w files f rest hfiles hfile hpid
    rcases updateBook_trace env id req w book hb with ht | ⟨body1, -, ht⟩
    · refine ⟨Call.destroy book.publicId :: calls1, by rw [ht, ht1], ?_⟩
      simp [List.filter_cons, Call.isDestroy, hn1]
    · obtain ⟨calls2, ht2, hn2⟩ := replaceCover_trace env book req.files body1
        (updateBook.replaceFile env book req w).1
      refine ⟨Call.destroy book.publicId :: (calls1 ++ calls2), ?_, ?_⟩
      · rw [ht, ht2, ht1]
        simp
      · simp [List.filter_cons, Call.isDestroy, hn1, hn2]

set_option maxRecDepth 8000 in
/-- C16, amended, on the sample deployment: the book created without a file
carries `placeholder_1700000000000`; deleting it issues a destroy call for that
id, and so does replacing its file. -/
theorem placeholder_id_is_destroyed_witness :
    (∃ w' book, createBook sampleEnv bareCreate World.empty =
        (w', Response.ok 201 (Data.book book)) ∧
      book.fileUrl = placeholderUrl ∧ book.publicId = "placeholder_1700000000000") ∧
      (deleteBook sampleEnv 1 (run World.empty placeholderBook)).1.trace =
        (run World.empty placeholderBook).trace ++ [Call.destroy "placeholder_1700000000000"] ∧
      ∃ calls, (updateBook sampleEnv 1 (fileUpdate "dune.pdf")
          (multerFields (fileUpdate "dune.pdf").files (run World.empty placeholderBook))).1.trace =
          (multerFields (fileUpdate "dune.pdf").files (run World.empty placeholderBook)).trace ++
            calls ∧
        calls.filter Call.isDestroy = [Call.destroy "placeholder_1700000000000"] :=
  ⟨⟨(createBook sampleEnv bareCreate World.empty).1,
      { _id := 1, title := "Untitled Book", author := "Unknown Author"
        description := "No description available", category := "Fiction", coverImage := ""
        fileUrl := placeholderUrl, publicId := "placeholder_1700000000000", averageRating := 1
        numReviews := 0, user := 7 },
      by with_unfolding_all decide,
      ((placeholder_id_is_destroyed sampleEnv World.empty).1 bareCreate
        (createBook sampleEnv bareCreate World.empty).1
        { _id := 1, title := "Untitled Book", author := "Unknown Author"
          description := "No description available", category := "Fiction", coverImage := ""
          fileUrl := placeholderUrl, publicId := "placeholder_1700000000000", averageRating := 1
          numReviews := 0, user := 7 }
        trivial (by with_unfolding_all decide)).2.1,
      rfl⟩,
    ((placeholder_id_is_destroyed sampleEnv (run World.empty placeholderBook)).2 1
      { _id := 1, title := "Untitled Book", author := "Unknown Author"
        description := "No description available", category := "Fiction", coverImage := ""
        fileUrl := placeholderUrl, publicId := "placeholder_1700000000000", averageRating := 1
        numReviews := 0, user := 7 }
      1700000000000 (by with_unfolding_all decide) (by with_unfolding_all decide)).1,
    ((placeholder_id_is_destroyed sampleEnv
      (multerFields (fileUpdate "dune.pdf").files (run World.empty placeholderBook))).2 1
      { _id := 1, title := "Untitled Book", author := "Unknown Author"
        description := "No description available", category := "Fiction", coverImage := ""
        fileUrl := placeholderUrl, publicId := "placeholder_1700000000000", averageRating := 1
        numReviews := 0, user := 7 }
      1700000000000 (by with_unfolding_all decide) (by with_unfolding_all decide)).2
      (fileUpdate "dune.pdf") { file := [{ path := "dune.pdf" }], coverImage := [] }
      { path := "dune.pdf" } [] rfl rfl⟩

set_option maxRecDepth 8000 in
/-- C17 on a concrete run: book 1 is created with an uploaded cover image stored
as `asset_dune.png`; a later `updateBook` with a new cover image is answered
200 and the book's `coverImage` is the new url, but no destroy call is issued
and `asset_dune.png` stays in the asset store: the stored book has no
`coverImagePublicId`, the path being absent from `BookSchema`. -/
theorem updateBook_never_destroys_old_cover :
    (run World.empty coveredBook).db.books.map (fun b => b.coverImage) =
        ["https://cdn.example/dune.png"] ∧
      "asset_dune.png" ∈ (run World.empty coveredBook).assets ∧
      (step (run World.empty coveredBook)
        (Op.updateBook sampleEnv 1 (coverUpdate "dune2.png"))).2.status = 200 ∧
      (step (run World.empty coveredBook)
        (Op.updateBook sampleEnv 1 (coverUpdate "dune2.png"))).1.db.books.map
        (fun b => b.coverImage) = ["https://cdn.example/dune2.png"] ∧
      (step (run World.empty coveredBook)
        (Op.updateBook sampleEnv 1 (coverUpdate "dune2.png"))).1.trace.filter Call.isDestroy = [] ∧
      "asset_dune.png" ∈ (step (run World.empty coveredBook)
        (Op.updateBook sampleEnv 1 (coverUpdate "dune2.png"))).1.assets := by
  with_unfolding_all decide

/-- No `updateBook` call issues a destroy call for a cover: the calls of the
cover block contain no destroy, whatever the book and the request are. -/
theorem updateBook_cover_block_no_destroy (env : Env) (book : Book) (files : Option Files)
    (body : BookBody) (w : World) :
    ((updateBook.replaceCover env book files body w).1.trace.drop w.trace.length).filter
      Call.isDestroy = [] := by
  obtain ⟨calls, ht, hn⟩ := replaceCover_trace env book files body w
  rw [ht, List.drop_left]
  exact hn

/-! ## C18 to C20: `deleteBook` -/

/-- `deleteBook` on a stored book: answered 500 right after a rejected destroy
of its public id, otherwise answered 200 with the book and its reviews removed. -/
theorem deleteBook_cases (env : Env) (id : ObjectId) (w : World) (book : Book)
    (hb : Book.findById w.db.books id = some book) :
    (book.publicId ≠ "" ∧ env.destroy book.publicId = DestroyOutcome.rejected ∧
        deleteBook env id w =
          ({ w with trace := w.trace ++ [Call.destroy book.publicId] },
            Response.fail 500 (Message.ofError Failure.cloudinary))) ∨
      ((book.publicId = "" ∨ env.destroy book.publicId ≠ DestroyOutcome.rejected) ∧
        (deleteBook env id w).2 = Response.ok 200 Data.empty ∧
        (deleteBook env id w).1.db = Book.remove book w.db) := by
  unfold deleteBook
  rw [hb]
  by_cases hpid : book.publicId = ""
  · exact Or.inr ⟨Or.inl hpid, by simp [hpid], by simp [hpid]⟩
  · simp only [ne_eq, hpid, not_false_eq_true, if_true, cloudinaryDestroy]
    cases hd : env.destroy book.publicId
    · exact Or.inr ⟨Or.inr (by simp), rfl, rfl⟩
    · exact Or.inr ⟨Or.inr (by simp), rfl, rfl⟩
    · exact Or.inl ⟨trivial, rfl, rfl⟩

/-- After `book.remove()` no review references the book. -/
theorem reviewsOf_remove (book : Book) (db : Db) : reviewsOf (Book.remove book db) book._id = [] := by
  simp only [reviewsOf, Book.remove, List.filter_filter, List.filter_eq_nil_iff]
  intro r _
  simp

/-- After `book.remove()`, in a store with distinct book ids, no book of that id
is left. -/
theorem findById_remove (book : Book) (db : Db)
    (hids : db.books.Pairwise (fun a b => a._id ≠ b._id)) :
    Book.findById (Book.remove book db).books book._id = none := by
  simp only [Book.findById, Book.remove]
  rw [eraseP_eq_filter _ _ (ids_pairwise _ book._id hids), List.find?_eq_none]
  intro b hbmem
  rw [List.mem_filter] at hbmem
  simpa using hbmem.2

/-- One handler keeps the book ids distinct and below the next id. -/
theorem step_wellFormed (w : World) (op : Op) (h : w.db.WellFormed) :
    (step w op).1.db.WellFormed := by
  obtain ⟨hids, hlt⟩ := h
  cases op with
  | createBook env req =>
    simp only [step]
    rcases createBook_db env req (multerFields req.files w) with h1 | ⟨book, hid, -, h1⟩ <;>
      simp only [multerFields_db] at h1 <;> rw [h1]
    · exact ⟨hids, hlt⟩
    · rw [multerFields_db] at hid
      constructor
      · rw [List.pairwise_append]
        refine ⟨hids, List.pairwise_singleton _ _, fun a ha b hb => ?_⟩
        rw [List.mem_singleton] at hb
        rw [hb, hid]
        exact Nat.ne_of_lt (hlt a ha)
      · intro b hb
        rw [List.mem_append, List.mem_singleton] at hb
        rcases hb with hb | hb
        · exact Nat.lt_succ_of_lt (hlt b hb)
        · rw [hb, hid]; exact Nat.lt_succ_self _
  | updateBook env id req =>
    simp only [step]
    rcases updateBook_db env id req (multerFields req.files w) with h1 | ⟨body, -, -, h1⟩ <;>
      simp only [multerFields_db] at h1 <;> rw [h1]
    · exact ⟨hids, hlt⟩
    · have hmap : (updateFirst (fun b => b._id == id) body.apply w.db.books).map (fun b => b._id) =
          w.db.books.map (fun b => b._id) := by
        rw [updateFirst_eq_map _ _ _ (ids_pairwise _ id hids), List.map_map]
        apply List.map_congr_left
        intro b _
        simp only [Function.comp]
        split_ifs <;> rfl
      exact ⟨pairwise_ids_of_map_eq _ _ hmap hids, bound_ids_of_map_eq _ _ _ hmap hlt⟩
  | deleteBook env id =>
    simp only [step]
    rcases deleteBook_db env id w with h1 | h1 <;> rw [h1]
    · exact ⟨hids, hlt⟩
    · have hsub : (w.db.books.eraseP (fun b => b._id == id)).Sublist w.db.books :=
        List.eraseP_sublist _
      exact ⟨hids.sublist hsub, fun b hb => hlt b (hsub.subset hb)⟩
  | addReview env req =>
    simp only [step]
    rcases addReview_db env req w with h1 | ⟨r, b0, -, -, h1⟩ <;> rw [h1]
    · exact ⟨hids, hlt⟩
    · obtain ⟨hmap, hnext⟩ := getAverageRating_ids env.aggregateWriteOk req.bookId
        { w.db with reviews := w.db.reviews ++ [r], nextId := w.db.nextId + 1 }
      refine ⟨pairwise_ids_of_map_eq _ _ hmap hids, ?_⟩
      rw [hnext]
      exact bound_ids_of_map_eq _ _ _ hmap (fun b hb => Nat.lt_succ_of_lt (hlt b hb))
  | updateReview req =>
    simp only [step]
    rcases updateReview_db req w with h1 | h1 <;> rw [h1]
    · exact ⟨hids, hlt⟩
    · exact ⟨hids, hlt⟩
  | deleteReview env req =>
    simp only [step]
    rcases deleteReview_db env req w with h1 | ⟨review, -, h1⟩ <;> rw [h1]
    · exact ⟨hids, hlt⟩
    · obtain ⟨hmap, hnext⟩ := getAverageRating_ids env.aggregateWriteOk review.book
        { w.db with reviews := w.db.reviews.eraseP (fun r => r._id == req.id) }
      refine ⟨pairwise_ids_of_map_eq _ _ hmap hids, ?_⟩
      rw [hnext]
      exact bound_ids_of_map_eq _ _ _ hmap hlt

/-- Every store reached from a well-formed one, by any calls, is well formed. -/
theorem run_wellFormed (w : World) (ops : List Op) (h : w.db.WellFormed) :
    (run w ops).db.WellFormed := by
  induction ops generalizing w with
  | nil => exact h
  | cons op ops ih =>
    simp only [run, List.foldl_cons]
    exact ih (step w op).1 (step_wellFormed w op h)

theorem empty_wellFormed : World.empty.db.WellFormed :=
  ⟨List.Pairwise.nil, fun _ hb => absurd hb (List.not_mem_nil _)⟩

/-- C18. In a store with distinct book ids, after a `deleteBook` on a stored
book that is answered 200 no book of that id is in the record store and no
review references the id. -/
theorem deleteBook_removes_book_and_reviews (env : Env) (id : ObjectId) (w : World) (book : Book)
    (hwf : w.db.WellFormed) (hb : Book.findById w.db.books id = some book)
    (hok : (deleteBook env id w).2 = Response.ok 200 Data.empty) :
    Book.findById (deleteBook env id w).1.db.books id = none ∧
      reviewsOf (deleteBook env id w).1.db id = [] ∧
      ∀ r ∈ (deleteBook env id w).1.db.reviews, r.book ≠ id := by
  have hid := findById_id _ _ _ hb
  rcases deleteBook_cases env id w book hb with ⟨-, -, hfail⟩ | ⟨-, -, hdb⟩
  · rw [hfail] at hok
    simp at hok
  · rw [hdb, ← hid]
    refine ⟨findById_remove book w.db hwf.1, reviewsOf_remove book w.db, ?_⟩
    intro r hr
    simp only [Book.remove, List.mem_filter] at hr
    simpa using hr.2

set_option maxRecDepth 8000 in
/-- C18 on the sample deployment: book 1, reviewed by `alice` and `bob`, is
deleted; the store reached from the empty deployment has distinct book ids. -/
theorem deleteBook_removes_book_and_reviews_witness :
    (run World.empty twoReviews).db.WellFormed ∧
      (reviewsOf (run World.empty twoReviews).db 1).length = 2 ∧
      Book.findById (deleteBook sampleEnv 1 (run World.empty twoReviews)).1.db.books 1 = none ∧
      reviewsOf (deleteBook sampleEnv 1 (run World.empty twoReviews)).1.db 1 = [] ∧
      ∀ r ∈ (deleteBook sampleEnv 1 (run World.empty twoReviews)).1.db.reviews, r.book ≠ 1 :=
  ⟨run_wellFormed World.empty twoReviews empty_wellFormed, by with_unfolding_all decide,
    deleteBook_removes_book_and_reviews sampleEnv 1 (run World.empty twoReviews)
      { duneBook with averageRating := 4, numReviews := 2 }
      (run_wellFormed World.empty twoReviews empty_wellFormed) (by with_unfolding_all decide)
      (by with_unfolding_all decide)⟩

set_option maxRecDepth 8000 in
/-- C19 as stated fails: book 1 has the uploaded assets `asset_dune.pdf` and
`asset_dune.png`; `deleteBook` is answered 200 and issues one destroy call, for
`asset_dune.pdf`, and `asset_dune.png` stays in the asset store. -/
theorem deleteBook_issues_one_destroy :
    (run World.empty coveredBook).assets = ["asset_dune.pdf", "asset_dune.png"] ∧
      (step (run World.empty coveredBook) (Op.deleteBook sampleEnv 1)).2 =
        Response.ok 200 Data.empty ∧
      (step (run World.empty coveredBook) (Op.deleteBook sampleEnv 1)).1.trace.filter
        Call.isDestroy = [Call.destroy "asset_dune.pdf"] ∧
      (step (run World.empty coveredBook) (Op.deleteBook sampleEnv 1)).1.assets =
        ["asset_dune.png"] := by
  with_unfolding_all decide

/-- C19, amended. For a stored book with an uploaded primary asset, `deleteBook`
issues exactly one call to the asset store, the destroy of the primary slot's
identifier `publicId`, whatever that call answers. -/
theorem deleteBook_destroys_primary (env : Env) (id : ObjectId) (w : World) (book : Book)
    (hb : Book.findById w.db.books id = some book) (hpid : book.publicId ≠ "") :
    ∃ calls, (deleteBook env id w).1.trace = w.trace ++ calls ∧
      calls.filter Call.isDestroy = [Call.destroy book.publicId] ∧
      calls.filter Call.isUpload = [] :=
  ⟨[Call.destroy book.publicId], deleteBook_trace env id w book hb hpid, rfl, rfl⟩

set_option maxRecDepth 8000 in
/-- C19, amended, on the sample deployment, with the destroy resolved and with
the destroy rejected. -/
theorem deleteBook_destroys_primary_witness :
    (∃ calls, (deleteBook sampleEnv 1 (run World.empty coveredBook)).1.trace =
        (run World.empty coveredBook).trace ++ calls ∧
      calls.filter Call.isDestroy = [Call.destroy "asset_dune.pdf"] ∧
      calls.filter Call.isUpload = []) ∧
    (∃ calls, (deleteBook destroyRejectingEnv 1 (run World.empty coveredBook)).1.trace =
        (run World.empty coveredBook).trace ++ calls ∧
      calls.filter Call.isDestroy = [Call.destroy "asset_dune.pdf"] ∧
      calls.filter Call.isUpload = []) :=
  ⟨deleteBook_destroys_primary sampleEnv 1 (run World.empty coveredBook)
      { duneBook with coverImage := "https://cdn.example/dune.png" }
      (by with_unfolding_all decide) (by decide),
    deleteBook_destroys_primary destroyRejectingEnv 1 (run World.empty coveredBook)
      { duneBook with coverImage := "https://cdn.example/dune.png" }
      (by with_unfolding_all decide) (by decide)⟩

set_option maxRecDepth 8000 in
/-- C20 as stated fails: book 1 has a review; `deleteBook` while Cloudinary
rejects the destroy call is answered 500 and the book and its review are still
in the record store. -/
theorem deleteBook_blocked_by_rejected_destroy :
    (step (run World.empty oneReview) (Op.deleteBook destroyRejectingEnv 1)).2 =
        Response.fail 500 (Message.ofError Failure.cloudinary) ∧
      (step (run World.empty oneReview) (Op.deleteBook destroyRejectingEnv 1)).1.db =
        (run World.empty oneReview).db ∧
      (run World.empty oneReview).db.books.map (fun b => b._id) = [1] ∧
      (reviewsOf (run World.empty oneReview).db 1).length = 1 := by
  with_unfolding_all decide

/-- C20, amended. For a stored book: when its public id is not empty and
Cloudinary rejects the destroy call, `deleteBook` is answered 500 and the record
store, the assets and the staged files are as before; in every other case (the
destroy resolves, with `ok` or `not found`, or there is no public id) the call
is answered 200 and the book and the reviews that reference it are removed. -/
theorem deleteBook_outcome (env : Env) (id : ObjectId) (w : World) (book : Book)
    (hb : Book.findById w.db.books id = some book) :
    (book.publicId ≠ "" → env.destroy book.publicId = DestroyOutcome.rejected →
        deleteBook env id w =
          ({ w with trace := w.trace ++ [Call.destroy book.publicId] },
            Response.fail 500 (Message.ofError Failure.cloudinary))) ∧
      ((book.publicId = "" ∨ env.destroy book.publicId ≠ DestroyOutcome.rejected) →
        (deleteBook env id w).2 = Response.ok 200 Data.empty ∧
          (deleteBook env id w).1.db.books = w.db.books.eraseP (fun b => b._id == id) ∧
          (deleteBook env id w).1.db.reviews = w.db.reviews.filter (fun r => r.book ≠ id) ∧
          reviewsOf (deleteBook env id w).1.db id = []) := by
  have hid := findById_id _ _ _ hb
  rcases deleteBook_cases env id w book hb with ⟨hpid, hrej, hfail⟩ | ⟨hres, hok, hdb⟩
  · refine ⟨fun _ _ => hfail, fun h => ?_⟩
    rcases h with h | h
    · exact absurd h hpid
    · exact absurd hrej h
  · refine ⟨fun hpid hrej => ?_, fun _ => ⟨hok, ?_, ?_, ?_⟩⟩
    · rcases hres with h | h
      · exact absurd h hpid
      · exact absurd hrej h
    · rw [hdb, ← hid]; rfl
    · rw [hdb, ← hid]
      simp only [Book.remove]
      apply List.filter_congr
      intro r _
      by_cases hr : r.book = book._id <;> simp [hr]
    · rw [hdb, ← hid]
      exact reviewsOf_remove book w.db

set_option maxRecDepth 8000 in
/-- C20, amended, on the sample deployment: the reviewed book 1 is deleted with
the destroy rejected and with the destroy resolved. -/
theorem deleteBook_outcome_witness :
    deleteBook destroyRejectingEnv 1 (run World.empty oneReview) =
        ({ run World.empty oneReview with
            trace := (run World.empty oneReview).trace ++ [Call.destroy "asset_dune.pdf"] },
          Response.fail 500 (Message.ofError Failure.cloudinary)) ∧
      ((deleteBook sampleEnv 1 (run World.empty oneReview)).2 = Response.ok 200 Data.empty ∧
        (deleteBook sampleEnv 1 (run World.empty oneReview)).1.db.books =
          (run World.empty oneReview).db.books.eraseP (fun b => b._id == 1) ∧
        (deleteBook sampleEnv 1 (run World.empty oneReview)).1.db.reviews =
          (run World.empty oneReview).db.reviews.filter (fun r => r.book ≠ 1) ∧
        reviewsOf (deleteBook sampleEnv 1 (run World.empty oneReview)).1.db 1 = []) :=
  ⟨(deleteBook_outcome destroyRejectingEnv 1 (run World.empty oneReview)
      { duneBook with averageRating := 5, numReviews := 1 } (by with_unfolding_all decide)).1
      (by decide) rfl,
    (deleteBook_outcome sampleEnv 1 (run World.empty oneReview)
      { duneBook with averageRating := 5, numReviews := 1 } (by with_unfolding_all decide)).2
      (Or.inr (by simp [sampleEnv]))⟩

/-! ## C21: unknown ids -/

set_option maxRecDepth 8000 in
/-- C21 as stated fails: the id `abc` names no stored record, and it is no
`ObjectId` either; the cast inside `findById` throws and each of the five
handlers answers 500, not 404. -/
theorem malformed_id_answered_500 :
    castObjectId "abc" = none ∧
      (atParam "abc" (fun id => updateBook sampleEnv id titleUpdate)
        (run World.empty oneReview)).2.status = 500 ∧
      (atParam "abc" (deleteBook sampleEnv) (run World.empty oneReview)).2.status = 500 ∧
      (atParam "abc" (fun id => addReview sampleEnv { bookId := id, user := bob, body := rate 4 })
        (run World.empty oneReview)).2.status = 500 ∧
      (atParam "abc" (fun id => updateReview { id := id, user := alice, body := rate 4 })
        (run World.empty oneReview)).2.status = 500 ∧
      (atParam "abc" (fun id => deleteReview sampleEnv { id := id, user := alice })
        (run World.empty oneReview)).2.status = 500 := by
  with_unfolding_all decide

/-- C21, amended. A mutation addressed to a well-formed id that is not stored
is answered 404: `updateBook`, `deleteBook` and `addReview` for a book id,
`updateReview` and `deleteReview` for a review id.  A mutation addressed to a
malformed id (a string that is neither 24 hexadecimal digits nor of `length`
12) is answered 500 with the cast error.  In both cases the world is left as it
is, records, assets and call trace included. -/
theorem unknown_id_not_found (env : Env) (w : World) (raw : String) :
    (castObjectId raw = none → utf16Length raw ≠ 12 →
        (∀ req : BookReq, atParam raw (fun id => updateBook env id req) w =
          (w, Response.fail 500 (Message.castError raw))) ∧
        atParam raw (deleteBook env) w = (w, Response.fail 500 (Message.castError raw)) ∧
        (∀ (user : AuthUser) (body : ReviewBody),
          atParam raw (fun id => addReview env { bookId := id, user := user, body := body }) w =
            (w, Response.fail 500 (Message.castError raw))) ∧
        (∀ (user : AuthUser) (body : ReviewBody),
          atParam raw (fun id => updateReview { id := id, user := user, body := body }) w =
            (w, Response.fail 500 (Message.castError raw))) ∧
        (∀ user : AuthUser, atParam raw (fun id => deleteReview env { id := id, user := user }) w =
          (w, Response.fail 500 (Message.castError raw)))) ∧
      (∀ bookId : ObjectId, castObjectId raw = some bookId →
        Book.findById w.db.books bookId = none →
        (∀ req : BookReq, atParam raw (fun id => updateBook env id req) w =
          (w, Response.fail 404
            (Message.text ("Book not found with id of " ++ toString bookId)))) ∧
        atParam raw (deleteBook env) w =
          (w, Response.fail 404 (Message.text ("Book not found with id of " ++ toString bookId))) ∧
        (∀ (user : AuthUser) (body : ReviewBody),
          atParam raw (fun id => addReview env { bookId := id, user := user, body := body }) w =
            (w, Response.fail 404
              (Message.text ("Book not found with id of " ++ toString bookId))))) ∧
      (∀ reviewId : ObjectId, castObjectId raw = some reviewId →
        Review.findById w.db.reviews reviewId = none →
        (∀ (user : AuthUser) (body : ReviewBody),
          atParam raw (fun id => updateReview { id := id, user := user, body := body }) w =
            (w, Response.fail 404
              (Message.text ("Review not found with id of " ++ toString reviewId)))) ∧
        (∀ user : AuthUser, atParam raw (fun id => deleteReview env { id := id, user := user }) w =
          (w, Response.fail 404
            (Message.text ("Review not found with id of " ++ toString reviewId))))) := by
  refine ⟨fun hc _ => ⟨fun req => ?_, ?_, fun user body => ?_, fun user body => ?_, fun user => ?_⟩,
    fun bookId hc hb => ⟨fun req => ?_, ?_, fun user body => ?_⟩,
    fun reviewId hc hr => ⟨fun user body => ?_, fun user => ?_⟩⟩
  · simp only [atParam, hc]
  · simp only [atParam, hc]
  · simp only [atParam, hc]
  · simp only [atParam, hc]
  · simp only [atParam, hc]
  · simp only [atParam, hc, updateBook, hb]
  · simp only [atParam, hc, deleteBook, hb]
  · simp only [atParam, hc, addReview, hb]
  · simp only [atParam, hc, updateReview, hr]
  · simp only [atParam, hc, deleteReview, hr]

set_option maxRecDepth 8000 in
/-- C21, amended, on the sample deployment, where book 1 and review 2 exist:
the malformed id `abc`, the unknown book id 8 and the unknown review id 9. -/
theorem unknown_id_not_found_witness :
    atParam "abc" (deleteBook sampleEnv) (run World.empty oneReview) =
        (run World.empty oneReview, Response.fail 500 (Message.castError "abc")) ∧
      atParam "000000000000000000000008" (deleteBook sampleEnv) (run World.empty oneReview) =
        (run World.empty oneReview,
          Response.fail 404 (Message.text "Book not found with id of 8")) ∧
      atParam "000000000000000000000009"
          (fun id => deleteReview sampleEnv { id := id, user := alice })
          (run World.empty oneReview) =
        (run World.empty oneReview,
          Response.fail 404 (Message.text "Review not found with id of 9")) :=
  ⟨((unknown_id_not_found sampleEnv (run World.empty oneReview) "abc").1
      (by decide) (by decide)).2.1,
    ((unknown_id_not_found sampleEnv (run World.empty oneReview) "000000000000000000000008").2.1 8
      (by decide) (by with_unfolding_all decide)).2.1,
    ((unknown_id_not_found sampleEnv (run World.empty oneReview) "000000000000000000000009").2.2 9
      (by decide) (by with_unfolding_all decide)).2 alice⟩

/-! ## C22, C23: what `updateBook` leaves alone -/

theorem map_updateFirst {α β : Type} (p : α → Bool) (f : α → α) (g : α → β)
    (h : ∀ x, g (f x) = g x) (l : List α) : (updateFirst p f l).map g = l.map g := by
  induction l with
  | nil => rfl
  | cons x xs ih =>
    by_cases hx : p x = true
    · simp [updateFirst, hx, h]
    · simp [updateFirst, hx, ih]

/-- The record store after `updateBook`: as before, or both blocks completed and
the first book of the id carries the body they left. -/
theorem updateBook_db_blocks (env : Env) (id : ObjectId) (req : BookReq) (w : World) :
    (updateBook env id req w).1.db = w.db ∨
      ∃ (book : Book) (w1 : World) (body1 : BookBody) (w2 : World) (body2 : BookBody),
        updateBook.replaceFile env book req w = (w1, Except.ok body1) ∧
        updateBook.replaceCover env book req.files body1 w1 = (w2, Except.ok body2) ∧
        (updateBook env id req w).1.db =
          { w.db with books := updateFirst (fun b => b._id == id) body2.apply w.db.books } := by
  unfold updateBook
  split
  · exact Or.inl rfl
  · rename_i book _
    have h1 := replaceFile_db env book req w
    rcases hf : updateBook.replaceFile env book req w with ⟨w1, r1⟩
    rw [hf] at h1
    cases r1 with
    | error e => exact Or.inl (by simpa using h1)
    | ok body1 =>
      have h2 := replaceCover_db env book req.files body1 w1
      dsimp only
      rcases hc : updateBook.replaceCover env book req.files body1 w1 with ⟨w2, r2⟩
      rw [hc] at h2
      cases r2 with
      | error e => exact Or.inl (by simp_all)
      | ok body2 =>
        dsimp only at h1 h2 ⊢
        split
        · rename_i db updated hup
          obtain ⟨-, hdb, -⟩ := bookUpdate_ok _ _ _ _ _ _ hup
          refine Or.inr ⟨book, w1, body1, w2, body2, hf, hc, ?_⟩
          simp [hdb, h2, h1]
        · exact Or.inl (by simp [h2, h1])

theorem replaceFile_noFile (env : Env) (book : Book) (req : BookReq) (w : World)
    (h : noPrimaryFile req) : updateBook.replaceFile env book req w = (w, Except.ok req.body) := by
  unfold updateBook.replaceFile
  cases hfiles : req.files with
  | none => rfl
  | some files => simp [h files hfiles]

theorem replaceCover_noCover (env : Env) (book : Book) (req : BookReq) (body : BookBody)
    (w : World) (h : noCoverImage req) :
    updateBook.replaceCover env book req.files body w = (w, Except.ok body) := by
  unfold updateBook.replaceCover
  cases hfiles : req.files with
  | none => rfl
  | some files => simp [h files hfiles]

/-- The primary-file block of `updateBook` never touches the `coverImage` of the
body. -/
theorem replaceFile_coverImage (env : Env) (book : Book) (req : BookReq) (w w1 : World)
    (body : BookBody) (h : updateBook.replaceFile env book req w = (w1, Except.ok body)) :
    body.coverImage = req.body.coverImage := by
  unfold updateBook.replaceFile at h
  split at h
  · split at h
    · simp at h
    · split at h
      · simp at h
      · split at h
        · simp at h
        · simp only [Prod.mk.injEq, Except.ok.injEq] at h
          rw [← h.2]
  · simp only [Prod.mk.injEq, Except.ok.injEq] at h
    rw [← h.2]

/-- Calls of the cover block of `updateBook`: neither a destroy nor an upload
into the folder of the book files. -/
theorem replaceCover_calls (env : Env) (book : Book) (files : Option Files) (body : BookBody)
    (w : World) :
    ∃ calls, (updateBook.replaceCover env book files body w).1.trace = w.trace ++ calls ∧
      calls.filter Call.isDestroy = [] ∧ calls.filter Call.isBookUpload = [] := by
  unfold updateBook.replaceCover
  split
  · rename_i coverImage _ _
    simp only [Book.coverImagePublicId]
    have hu := cloudinaryUpload_trace env coverImage.path "image" "digital_library/covers" w
    rcases hup : cloudinaryUpload env coverImage.path "image" "digital_library/covers" w
      with ⟨w2, o⟩
    rw [hup] at hu
    dsimp only at hu
    cases o with
    | none =>
      exact ⟨[Call.upload coverImage.path "image" "digital_library/covers"], hu, rfl,
        by simp [Call.isBookUpload]⟩
    | some result =>
      dsimp only
      have hl := unlinkSync_trace coverImage.path w2
      rcases hun : unlinkSync coverImage.path w2 with ⟨w3, ok2⟩
      rw [hun] at hl
      dsimp only at hl
      refine ⟨[Call.upload coverImage.path "image" "digital_library/covers",
        Call.unlink coverImage.path], ?_, rfl, by simp [Call.isBookUpload]⟩
      cases ok2 <;> simp [hl, hu]
  · exact ⟨[], by simp, rfl, rfl⟩

set_option maxRecDepth 8000 in
/-- C22 as stated fails: an `updateBook` request without any file whose body
carries `fileUrl`, `publicId` and `coverImage` is answered 200 and the three
paths of book 1 take the values of the body. -/
theorem updateBook_body_overwrites_slots :
    assetBodyUpdate.files = none ∧
      (run World.empty uploadedBook).db.books.map (fun b => (b.fileUrl, b.publicId, b.coverImage)) =
        [("https://cdn.example/dune.pdf", "asset_dune.pdf", "")] ∧
      (step (run World.empty uploadedBook) (Op.updateBook sampleEnv 1 assetBodyUpdate)).2.status =
        200 ∧
      (step (run World.empty uploadedBook) (Op.updateBook sampleEnv 1 assetBodyUpdate)).1.db.books.map
        (fun b => (b.fileUrl, b.publicId, b.coverImage)) =
        [("https://elsewhere.example/x.pdf", "x", "https://elsewhere.example/x.png")] := by
  with_unfolding_all decide

/-- C22, amended. For an `updateBook` request that supplies no primary file: no
destroy call and no upload into the folder of the book files is issued, and
when the body carries neither `fileUrl` nor `publicId` every book keeps its
`fileUrl` and `publicId`; for a request that supplies no cover image and whose
body carries no `coverImage`, every book keeps its `coverImage`. -/
theorem updateBook_untouched_slots (env : Env) (id : ObjectId) (req : BookReq) (w : World) :
    (noPrimaryFile req →
        (∃ calls, (updateBook env id req w).1.trace = w.trace ++ calls ∧
          calls.filter Call.isDestroy = [] ∧ calls.filter Call.isBookUpload = []) ∧
        (req.body.fileUrl = none → req.body.publicId = none →
          (updateBook env id req w).1.db.books.map (fun b => (b._id, b.fileUrl, b.publicId)) =
            w.db.books.map (fun b => (b._id, b.fileUrl, b.publicId)))) ∧
      (noCoverImage req → req.body.coverImage = none →
        (updateBook env id req w).1.db.books.map (fun b => (b._id, b.coverImage)) =
          w.db.books.map (fun b => (b._id, b.coverImage))) := by
  refine ⟨fun hnf => ⟨?_, fun hfu hpi => ?_⟩, fun hnc hci => ?_⟩
  · cases hb : Book.findById w.db.books id with
    | none => exact ⟨[], by simp [updateBook, hb], rfl, rfl⟩
    | some book =>
      have hrf := replaceFile_noFile env book req w hnf
      rcases updateBook_trace env id req w book hb with ht | ⟨body1, hb1, ht⟩
      · exact ⟨[], by rw [ht, hrf]; simp, rfl, rfl⟩
      · rw [hrf] at ht
        obtain ⟨calls, hc, hd, hu⟩ := replaceCover_calls env book req.files body1 w
        exact ⟨calls, by rw [ht, hc], hd, hu⟩
  · rcases updateBook_db_blocks env id req w with h | ⟨book, w1, body1, w2, body2, hrf, hrc, h⟩
    · rw [h]
    · rw [replaceFile_noFile env book req w hnf] at hrf
      simp only [Prod.mk.injEq, Except.ok.injEq] at hrf
      obtain ⟨hfu2, hpi2, -⟩ := replaceCover_ok env book req.files body1 body2 w1 w2 hrc
      rw [← hrf.2] at hfu2 hpi2
      rw [h]
      exact map_updateFirst _ _ _ (fun b => by simp [BookBody.apply, hfu2, hpi2, hfu, hpi]) _
  · rcases updateBook_db_blocks env id req w with h | ⟨book, w1, body1, w2, body2, hrf, hrc, h⟩
    · rw [h]
    · have hc1 := replaceFile_coverImage env book req w w1 body1 hrf
      rw [replaceCover_noCover env book req body1 w1 hnc] at hrc
      simp only [Prod.mk.injEq, Except.ok.injEq] at hrc
      rw [h]
      exact map_updateFirst _ _ _ (fun b => by simp [BookBody.apply, ← hrc.2, hc1, hci]) _

set_option maxRecDepth 8000 in
/-- C22, amended, on the sample deployment: a request that changes the title
only. -/
theorem updateBook_untouched_slots_witness :
    (step (run World.empty uploadedBook) (Op.updateBook sampleEnv 1 titleUpdate)).2.status = 200 ∧
      (updateBook sampleEnv 1 titleUpdate (run World.empty uploadedBook)).1.db.books.map
          (fun b => (b._id, b.fileUrl, b.publicId)) =
        (run World.empty uploadedBook).db.books.map (fun b => (b._id, b.fileUrl, b.publicId)) ∧
      (updateBook sampleEnv 1 titleUpdate (run World.empty uploadedBook)).1.db.books.map
          (fun b => (b._id, b.coverImage)) =
        (run World.empty uploadedBook).db.books.map (fun b => (b._id, b.coverImage)) :=
  ⟨by with_unfolding_all decide,
    ((updateBook_untouched_slots sampleEnv 1 titleUpdate (run World.empty uploadedBook)).1
      (fun files h => by simp [titleUpdate] at h)).2 rfl rfl,
    (updateBook_untouched_slots sampleEnv 1 titleUpdate (run World.empty uploadedBook)).2
      (fun files h => by simp [titleUpdate] at h) rfl⟩

set_option maxRecDepth 8000 in
/-- C23 as stated fails: an `updateBook` request whose body carries
`averageRating = 5` and `numReviews = 100` is answered 200 and book 1, which has
no review, holds these two values. -/
theorem updateBook_body_overwrites_aggregate :
    (run World.empty uploadedBook).db.books.map (fun b => (b.averageRating, b.numReviews)) =
        [(1, 0)] ∧
      (step (run World.empty uploadedBook)
        (Op.updateBook sampleEnv 1 aggregateBodyUpdate)).2.status = 200 ∧
      (step (run World.empty uploadedBook)
        (Op.updateBook sampleEnv 1 aggregateBodyUpdate)).1.db.books.map
        (fun b => (b.averageRating, b.numReviews)) = [(5, 100)] ∧
      (step (run World.empty uploadedBook)
        (Op.updateBook sampleEnv 1 aggregateBodyUpdate)).1.db.reviews = [] := by
  with_unfolding_all decide

/-- C23, amended. For every `updateBook` request whose body carries neither
`averageRating` nor `numReviews`, whatever else it carries and whatever the
store calls answer, every book has the `averageRating` and `numReviews` it had
before the call. -/
theorem updateBook_keeps_aggregate (env : Env) (id : ObjectId) (req : BookReq) (w : World)
    (ha : req.body.averageRating = none) (hn : req.body.numReviews = none) :
    (updateBook env id req w).1.db.books.map (fun b => (b._id, b.averageRating, b.numReviews)) =
      w.db.books.map (fun b => (b._id, b.averageRating, b.numReviews)) := by
  rcases updateBook_db env id req w with h | ⟨body, hba, hbn, h⟩
  · rw [h]
  · rw [h]
    rw [ha] at hba
    rw [hn] at hbn
    exact map_updateFirst _ _ _ (fun b => by simp [BookBody.apply, hba, hbn]) _

set_option maxRecDepth 8000 in
/-- C23, amended, on the sample deployment: the reviewed book 1 gets a new file
and keeps its aggregate. -/
theorem updateBook_keeps_aggregate_witness :
    (run World.empty oneReview).db.books.map (fun b => (b._id, b.averageRating, b.numReviews)) =
        [(1, 5, 1)] ∧
      (updateBook sampleEnv 1 (fileUpdate "dune2.pdf")
          (multerFields (fileUpdate "dune2.pdf").files (run World.empty oneReview))).1.db.books.map
          (fun b => (b._id, b.averageRating, b.numReviews)) =
        (multerFields (fileUpdate "dune2.pdf").files (run World.empty oneReview)).db.books.map
          (fun b => (b._id, b.averageRating, b.numReviews)) :=
  ⟨by with_unfolding_all decide,
    updateBook_keeps_aggregate sampleEnv 1 (fileUpdate "dune2.pdf")
      (multerFields (fileUpdate "dune2.pdf").files (run World.empty oneReview)) rfl rfl⟩

/-! ## C24: staged files -/

set_option maxRecDepth 8000 in
/-- C24 on concrete runs: (1) `createBook` with a book file and a cover image
while Cloudinary rejects the uploads is answered 201 and both staged files are
still on disk; (2) `updateBook` with a new file while Cloudinary rejects the
upload is answered 500 and the staged file is still on disk; (3) when the
uploads resolve, the staged files are gone. -/
theorem staged_file_left_on_upload_failure :
    (step World.empty (Op.createBook rejectingEnv coverCreate)).2.status = 201 ∧
      (step World.empty (Op.createBook rejectingEnv coverCreate)).1.tmpFiles =
        ["dune.pdf", "dune.png"] ∧
      (step (run World.empty uploadedBook)
        (Op.updateBook rejectingEnv 1 (fileUpdate "dune2.pdf"))).2.status = 500 ∧
      (run World.empty uploadedBook).tmpFiles = [] ∧
      (step (run World.empty uploadedBook)
        (Op.updateBook rejectingEnv 1 (fileUpdate "dune2.pdf"))).1.tmpFiles = ["dune2.pdf"] ∧
      (step World.empty (Op.createBook sampleEnv coverCreate)).1.tmpFiles = [] := by
  with_unfolding_all decide

/-- Where the staged file is removed: right after an upload that Cloudinary
resolved.  The primary upload block of `createBook` leaves the file of a
resolved upload off the disk. -/
theorem uploadFile_removes_staged (env : Env) (files : Files) (f : UploadedFile)
    (rest : List UploadedFile) (r : UploadResult) (w : World) (hfile : files.file = f :: rest)
    (hstaged : f.path ∈ w.tmpFiles) (hup : env.upload f.path = some r) :
    f.path ∉ (createBook.uploadFile env (some files) w).1.tmpFiles := by
  unfold createBook.uploadFile
  simp only [Option.map_some', hfile]
  unfold cloudinaryUpload
  simp only [hstaged, if_true, hup]
  unfold unlinkSync
  simp only [hstaged, if_true]
  simp

/-! ## C25: the mean of ratings between 1 and 5 -/

theorem sum_bounds (l : List ℚ) (h : ∀ x ∈ l, 1 ≤ x ∧ x ≤ 5) :
    (l.length : ℚ) ≤ l.sum ∧ l.sum ≤ 5 * (l.length : ℚ) := by
  induction l with
  | nil => simp
  | cons x xs ih =>
    have hx := h x (List.mem_cons_self _ _)
    have hxs := ih (fun y hy => h y (List.mem_cons_of_mem _ hy))
    simp only [List.length_cons, List.sum_cons, Nat.cast_add, Nat.cast_one]
    constructor
    · linarith [hx.1, hxs.1]
    · linarith [hx.2, hxs.2]

theorem mean_bounds (l : List ℚ) (hne : l ≠ []) (h : ∀ x ∈ l, 1 ≤ x ∧ x ≤ 5) :
    1 ≤ mean l ∧ mean l ≤ 5 := by
  have hpos : (0 : ℚ) < (l.length : ℚ) := by
    have : 0 < l.length := List.length_pos.mpr hne
    exact_mod_cast this
  obtain ⟨h1, h2⟩ := sum_bounds l h
  unfold mean
  constructor
  · rw [le_div_iff₀ hpos]
    linarith
  · rw [div_le_iff₀ hpos]
    linarith

/-- C25. When the reviews of a stored book are not empty and their ratings all
lie between 1 and 5, the row computed by the aggregation carries an
`averageRating` between 1 and 5, and so does the book after
`getAverageRating` wrote it. -/
theorem getAverageRating_within_bounds (db : Db) (bookId : ObjectId) (b : Book)
    (hb : Book.findById db.books bookId = some b) (hne : reviewsOf db bookId ≠ [])
    (hr : ∀ r ∈ reviewsOf db bookId, 1 ≤ r.rating ∧ r.rating ≤ 5) :
    (∃ row, Review.aggregate db.reviews bookId = [row] ∧
        1 ≤ row.averageRating ∧ row.averageRating ≤ 5) ∧
      ∃ b', Book.findById (Review.getAverageRating true bookId db).books bookId = some b' ∧
        1 ≤ b'.averageRating ∧ b'.averageRating ≤ 5 := by
  have hbounds : 1 ≤ mean (ratingsOf db bookId) ∧ mean (ratingsOf db bookId) ≤ 5 := by
    apply mean_bounds
    · rw [← reviewsOf_ne_nil_iff]; exact hne
    · intro x hx
      simp only [ratingsOf, List.mem_map] at hx
      obtain ⟨r, hrm, hrx⟩ := hx
      rw [← hrx]
      exact hr r hrm
  constructor
  · exact ⟨_, aggregate_of_ne_nil db bookId hne, hbounds.1, hbounds.2⟩
  · exact ⟨_, getAverageRating_findById db bookId b hb hne, hbounds.1, hbounds.2⟩

/-- C25 on `staleDb`, where book 1 has ratings 5 and 3. -/
theorem getAverageRating_within_bounds_witness :
    ∃ b', Book.findById (Review.getAverageRating true 1 staleDb).books 1 = some b' ∧
      1 ≤ b'.averageRating ∧ b'.averageRating ≤ 5 :=
  (getAverageRating_within_bounds staleDb 1 staleBook rfl (by decide)
    (by with_unfolding_all decide)).2

/-! ## C26: the rating validators -/

theorem validate_rating_out_of_range (x : ℚ) (c : Option String) (hx : x < 1 ∨ 5 < x) :
    Review.validate (some x) c ≠ [] := by
  unfold Review.validate
  simp [hx]

theorem bodyValidate_rating_out_of_range (body : ReviewBody) (x : ℚ) (hb : body.rating = some x)
    (hx : x < 1 ∨ 5 < x) : body.validate ≠ [] := by
  unfold ReviewBody.validate
  simp [hb, hx]

/-- No stored review by the user for the book: the key of the unique index is
free. -/
theorem keyTaken_of_findOne (l : List Review) (user book : ObjectId)
    (h : Review.findOne l user book = none) : Review.keyTaken l book user = false := by
  simp only [Review.findOne, List.find?_eq_none] at h
  simp only [Review.keyTaken, List.any_eq_false]
  intro r hr hk
  apply h r hr
  simp only [Bool.and_eq_true, beq_iff_eq] at hk ⊢
  exact ⟨hk.2, hk.1⟩

/-- Under the unique index, no other review holds the key of a stored review. -/
theorem keyTaken_erase_of_unique (p : Review → Bool) (old : Review) (l : List Review)
    (hl : l.Pairwise (fun a b => ¬(a.book = b.book ∧ a.user = b.user)))
    (hfind : l.find? p = some old) :
    Review.keyTaken (l.eraseP p) old.book old.user = false := by
  induction l with
  | nil => simp at hfind
  | cons x xs ih =>
    rw [List.pairwise_cons] at hl
    by_cases hx : p x = true
    · simp only [List.find?_cons, hx, Option.some.injEq] at hfind
      subst hfind
      simp only [List.eraseP_cons, hx, if_true, Review.keyTaken, List.any_eq_false]
      intro r hr hk
      simp only [Bool.and_eq_true, beq_iff_eq] at hk
      exact hl.1 r hr ⟨hk.1.symm, hk.2.symm⟩
    · have hx' : p x = false := by simpa using hx
      simp only [List.find?_cons, hx'] at hfind
      have hmem : old ∈ xs := List.mem_of_find?_eq_some hfind
      have hrest := ih hl.2 hfind
      simp only [Review.keyTaken] at hrest ⊢
      simp only [List.eraseP_cons, hx', cond_false, List.any_cons, hrest, Bool.or_false]
      have hne := hl.1 old hmem
      cases hcmp : (x.book == old.book && x.user == old.user) with
      | false => rfl
      | true =>
        simp only [Bool.and_eq_true, beq_iff_eq] at hcmp
        exact absurd hcmp hne

/-- `addReview` on a stored book, by a user without a review of it, with a body
that passes the validators: the review is created and the hooks run. -/
theorem addReview_accepts (env : Env) (req : AddReviewReq) (w : World) (b : Book)
    (hb : Book.findById w.db.books req.bookId = some b)
    (hone : Review.findOne w.db.reviews req.user.id req.bookId = none)
    (hv : Review.validate req.body.rating req.body.comment = []) :
    addReview env req w =
      (Review.postHook env
          { _id := w.db.nextId, rating := req.body.rating.getD 0
            comment := req.body.comment.getD "", book := req.bookId, user := req.user.id }
          { w with db := { w.db with
              reviews := w.db.reviews ++
                [{ _id := w.db.nextId, rating := req.body.rating.getD 0
                   comment := req.body.comment.getD "", book := req.bookId, user := req.user.id }]
              nextId := w.db.nextId + 1 } },
        Response.ok 201 (Data.review
          { _id := w.db.nextId, rating := req.body.rating.getD 0
            comment := req.body.comment.getD "", book := req.bookId, user := req.user.id })) := by
  simp only [addReview, hb, hone, Review.create, hv, keyTaken_of_findOne _ _ _ hone]
  simp

/-- `deleteReview` on a stored review by its author or an admin: the review is
removed and the hook runs. -/
theorem deleteReview_accepts (env : Env) (req : DeleteReviewReq) (w : World) (review : Review)
    (hf : Review.findById w.db.reviews req.id = some review)
    (hauth : review.user = req.user.id ∨ req.user.role = "admin") :
    deleteReview env req w =
      (Review.postHook env review
          { w with db := { w.db with
              reviews := w.db.reviews.eraseP (fun r => r._id == req.id) } },
        Response.ok 200 Data.empty) := by
  have hna : ¬(review.user ≠ req.user.id ∧ req.user.role ≠ "admin") := by
    rintro ⟨h1, h2⟩
    rcases hauth with h | h
    · exact h1 h
    · exact h2 h
  simp only [deleteReview, hf]
  rw [if_neg hna]

/-- `updateReview` on a stored review by its author or an admin, with a body
that passes the update validators and names neither `book` nor `user`, in a
store that respects the unique index: the body is written. -/
theorem updateReview_accepts (req : UpdateReviewReq) (w : World) (review : Review)
    (hf : Review.findById w.db.reviews req.id = some review)
    (hauth : review.user = req.user.id ∨ req.user.role = "admin")
    (hu : UniquePairs w.db) (hv : req.body.validate = [])
    (hbook : req.body.book = none) (huser : req.body.user = none) :
    updateReview req w =
      ({ w with db := { w.db with
          reviews := updateFirst (fun r => r._id == req.id) req.body.apply w.db.reviews } },
        Response.ok 200 (Data.review (req.body.apply review))) := by
  have hna : ¬(review.user ≠ req.user.id ∧ req.user.role ≠ "admin") := by
    rintro ⟨h1, h2⟩
    rcases hauth with h | h
    · exact h1 h
    · exact h2 h
  have hkey := keyTaken_erase_of_unique (fun r => r._id == req.id) review w.db.reviews hu hf
  have hb : (req.body.apply review).book = review.book := by simp [ReviewBody.apply, hbook]
  have hus : (req.body.apply review).user = review.user := by simp [ReviewBody.apply, huser]
  simp only [updateReview, hf]
  rw [if_neg hna]
  simp only [Review.findByIdAndUpdate, hv, hb, hus, hkey]
  simp

/-- The review written by `findByIdAndUpdate` is the stored review of that id. -/
theorem findById_updateFirst (id : ObjectId) (body : ReviewBody) (l : List Review)
    (review : Review) (hf : Review.findById l id = some review) :
    Review.findById (updateFirst (fun r => r._id == id) body.apply l) id =
      some (body.apply review) := by
  unfold Review.findById at hf ⊢
  rw [find?_updateFirst _ _ (fun x hx => by simpa [ReviewBody.apply] using hx), hf]
  rfl

set_option maxRecDepth 8000 in
/-- C26 as stated fails: `addReview` with the rating 4.5 is answered 201, the
review is stored with that rating and the book's `averageRating` becomes 4.5;
`updateReview` with the rating 4.5 is answered 200 and the review carries it. -/
theorem fractional_rating_accepted :
    (step (run World.empty uploadedBook)
        (Op.addReview sampleEnv { bookId := 1, user := alice, body := rate (9 / 2) })).2.status =
        201 ∧
      (step (run World.empty uploadedBook)
        (Op.addReview sampleEnv { bookId := 1, user := alice, body := rate (9 / 2) })).1.db.reviews.map
        (fun r => r.rating) = [9 / 2] ∧
      (step (run World.empty uploadedBook)
        (Op.addReview sampleEnv { bookId := 1, user := alice, body := rate (9 / 2) })).1.db.books.map
        (fun b => b.averageRating) = [9 / 2] ∧
      (step (run World.empty oneReview)
        (Op.updateReview { id := 2, user := alice, body := rate (9 / 2) })).2.status = 200 ∧
      (step (run World.empty oneReview)
        (Op.updateReview { id := 2, user := alice, body := rate (9 / 2) })).1.db.reviews.map
        (fun r => r.rating) = [9 / 2] := by
  with_unfolding_all decide

/-- C26, amended. The rating is checked against the range only.  A rating below
1 or above 5 is rejected: `addReview` and `updateReview` with such a rating are
answered with a failure and leave the world, reviews and books included, as it
was.  Every rating from 1 to 5, integer or not, is accepted: `addReview` with
such a rating and a comment, for a stored book the caller has not reviewed, is
answered 201 and the review is stored with that rating; `updateReview` with
such a rating by the author or an admin, the body naming neither `book` nor
`user` nor an empty comment, is answered 200 and the stored review carries
that rating. -/
theorem rating_checked_against_range_only (env : Env) (w : World) (x : ℚ) :
    ((x < 1 ∨ 5 < x) →
        (∀ req : AddReviewReq, req.body.rating = some x →
          (addReview env req w).1 = w ∧ ∃ s m, (addReview env req w).2 = Response.fail s m) ∧
        (∀ req : UpdateReviewReq, req.body.rating = some x →
          (updateReview req w).1 = w ∧ ∃ s m, (updateReview req w).2 = Response.fail s m)) ∧
      ((1 ≤ x ∧ x ≤ 5) →
        (∀ (req : AddReviewReq) (b : Book) (c : String), req.body.rating = some x →
          req.body.comment = some c → c ≠ "" →
          Book.findById w.db.books req.bookId = some b →
          Review.findOne w.db.reviews req.user.id req.bookId = none →
          ∃ w' review, addReview env req w = (w', Response.ok 201 (Data.review review)) ∧
            review.rating = x ∧ w'.db.reviews = w.db.reviews ++ [review]) ∧
        (∀ (req : UpdateReviewReq) (review : Review), req.body.rating = some x →
          (∀ c, req.body.comment = some c → c ≠ "") →
          req.body.book = none → req.body.user = none →
          Review.findById w.db.reviews req.id = some review →
          (review.user = req.user.id ∨ req.user.role = "admin") → UniquePairs w.db →
          ∃ w' updated, updateReview req w = (w', Response.ok 200 (Data.review updated)) ∧
            updated.rating = x ∧ Review.findById w'.db.reviews req.id = some updated)) := by
  constructor
  · intro hx
    constructor
    · intro req hreq
      unfold addReview
      split
      · exact ⟨rfl, _, _, rfl⟩
      · split
        · exact ⟨rfl, _, _, rfl⟩
        · have hv := validate_rating_out_of_range x req.body.comment hx
          rw [← hreq] at hv
          simp only [Review.create, hv, ne_eq, not_false_eq_true, if_true]
          exact ⟨trivial, _, _, rfl⟩
    · intro req hreq
      unfold updateReview
      split
      · exact ⟨rfl, _, _, rfl⟩
      · split_ifs
        · exact ⟨rfl, _, _, rfl⟩
        · have hv := bodyValidate_rating_out_of_range req.body x hreq hx
          simp only [Review.findByIdAndUpdate, hv, ne_eq, not_false_eq_true, if_true]
          exact ⟨trivial, _, _, rfl⟩
  · intro hx
    have hin : ¬(x < 1 ∨ 5 < x) := by
      rintro (h | h)
      · exact absurd hx.1 (not_le.mpr h)
      · exact absurd hx.2 (not_le.mpr h)
    constructor
    · intro req b c hr hc hcne hb hone
      have hv : Review.validate req.body.rating req.body.comment = [] := by
        simp [Review.validate, hr, hc, hcne, hin]
      rw [addReview_accepts env req w b hb hone hv]
      refine ⟨_, _, rfl, ?_, ?_⟩
      · simp [hr]
      · simp [Review.postHook, getAverageRating_reviews]
    · intro req review hr hc hbook huser hf hauth hu
      have hv : req.body.validate = [] := by
        unfold ReviewBody.validate
        rw [hr]
        cases hcm : req.body.comment with
        | none => simp [hin]
        | some c => simp [hin, hc c hcm]
      rw [updateReview_accepts req w review hf hauth hu hv hbook huser]
      refine ⟨_, _, rfl, ?_, ?_⟩
      · simp [ReviewBody.apply, hr]
      · exact findById_updateFirst req.id req.body w.db.reviews review hf

set_option maxRecDepth 8000 in
/-- C26, amended, on the sample deployment: the ratings 0 and 6 are rejected,
the rating 4.5 is accepted by `addReview` and by `updateReview`. -/
theorem rating_checked_against_range_only_witness :
    ((addReview sampleEnv { bookId := 1, user := alice, body := rate 0 }
          (run World.empty uploadedBook)).1 = run World.empty uploadedBook ∧
        ∃ s m, (addReview sampleEnv { bookId := 1, user := alice, body := rate 0 }
          (run World.empty uploadedBook)).2 = Response.fail s m) ∧
      ((updateReview { id := 2, user := alice, body := rate 6 } (run World.empty oneReview)).1 =
          run World.empty oneReview ∧
        ∃ s m, (updateReview { id := 2, user := alice, body := rate 6 }
          (run World.empty oneReview)).2 = Response.fail s m) ∧
      (∃ w' review, addReview sampleEnv { bookId := 1, user := alice, body := rate (9 / 2) }
          (run World.empty uploadedBook) = (w', Response.ok 201 (Data.review review)) ∧
        review.rating = 9 / 2 ∧
        w'.db.reviews = (run World.empty uploadedBook).db.reviews ++ [review]) ∧
      (∃ w' updated, updateReview { id := 2, user := alice, body := rate (9 / 2) }
          (run World.empty oneReview) = (w', Response.ok 200 (Data.review updated)) ∧
        updated.rating = 9 / 2 ∧ Review.findById w'.db.reviews 2 = some updated) :=
  ⟨((rating_checked_against_range_only sampleEnv (run World.empty uploadedBook) 0).1
      (Or.inl (by norm_num))).1 { bookId := 1, user := alice, body := rate 0 } rfl,
    ((rating_checked_against_range_only sampleEnv (run World.empty oneReview) 6).1
      (Or.inr (by norm_num))).2 { id := 2, user := alice, body := rate 6 } rfl,
    ((rating_checked_against_range_only sampleEnv (run World.empty uploadedBook) (9 / 2)).2
      ⟨by norm_num, by norm_num⟩).1 { bookId := 1, user := alice, body := rate (9 / 2) }
      duneBook "read it" rfl rfl (by decide) (by with_unfolding_all decide)
      (by with_unfolding_all decide),
    ((rating_checked_against_range_only sampleEnv (run World.empty oneReview) (9 / 2)).2
      ⟨by norm_num, by norm_num⟩).2 { id := 2, user := alice, body := rate (9 / 2) }
      { _id := 2, rating := 5, comment := "read it", book := 1, user := 10 } rfl
      (fun c hc => by
        simp only [rate, Option.some.injEq] at hc
        rw [← hc]
        decide)
      rfl rfl (by with_unfolding_all decide) (Or.inl rfl) (by
        unfold UniquePairs
        have hdb : (run World.empty oneReview).db.reviews =
            [{ _id := 2, rating := 5, comment := "read it", book := 1, user := 10 }] := by
          with_unfolding_all decide
        rw [hdb]
        exact List.pairwise_singleton _ _)⟩

/-! ## C27: a failed aggregate write -/

theorem getAverageRating_rejected (bookId : ObjectId) (db : Db) :
    Review.getAverageRating false bookId db = db := by
  simp [Review.getAverageRating]

theorem getAverageRating_nextId (ok : Bool) (bookId : ObjectId) (db : Db) :
    (Review.getAverageRating ok bookId db).nextId = db.nextId :=
  (getAverageRating_ids ok bookId db).2

/-- C27. When the record store rejects the aggregate write, the failure stays
inside `getAverageRating`.  `addReview` on a stored book, by a user without a
review of it and with a valid body, is answered 201 with the created review,
the review is in the record store, and the recompute was called; `deleteReview`
on a stored review by its author or an admin is answered 200, the review is
gone from the record store, and the recompute was called.  In both cases every
book is as it was. -/
theorem aggregate_write_failure_swallowed (env : Env) (w : World)
    (h : env.aggregateWriteOk = false) :
    (∀ (req : AddReviewReq) (b : Book), Book.findById w.db.books req.bookId = some b →
        Review.findOne w.db.reviews req.user.id req.bookId = none →
        Review.validate req.body.rating req.body.comment = [] →
        ∃ w' review, addReview env req w = (w', Response.ok 201 (Data.review review)) ∧
          review.book = req.bookId ∧ review.user = req.user.id ∧
          w'.db.reviews = w.db.reviews ++ [review] ∧ w'.db.books = w.db.books ∧
          w'.trace = w.trace ++ [Call.getAverageRating req.bookId]) ∧
      (∀ (req : DeleteReviewReq) (review : Review),
        Review.findById w.db.reviews req.id = some review →
        (review.user = req.user.id ∨ req.user.role = "admin") →
        ∃ w', deleteReview env req w = (w', Response.ok 200 Data.empty) ∧
          w'.db.reviews = w.db.reviews.eraseP (fun r => r._id == req.id) ∧
          w'.db.books = w.db.books ∧
          w'.trace = w.trace ++ [Call.getAverageRating review.book]) := by
  constructor
  · intro req b hb hone hv
    rw [addReview_accepts env req w b hb hone hv]
    refine ⟨_, _, rfl, rfl, rfl, ?_, ?_, ?_⟩
    · simp [Review.postHook, getAverageRating_reviews]
    · simp [Review.postHook, h, getAverageRating_rejected]
    · simp [Review.postHook]
  · intro req review hf hauth
    rw [deleteReview_accepts env req w review hf hauth]
    refine ⟨_, rfl, ?_, ?_, ?_⟩
    · simp [Review.postHook, getAverageRating_reviews]
    · simp [Review.postHook, h, getAverageRating_rejected]
    · simp [Review.postHook]

set_option maxRecDepth 8000 in
/-- C27 on the sample deployment with a record store that rejects the aggregate
write: `addReview` is answered 201, the review is stored and book 1 keeps
`numReviews = 0`; `deleteReview` of the only review is answered 200, the review
is gone and book 1 keeps `numReviews = 1` and `averageRating = 5`. -/
theorem aggregate_write_failure_swallowed_witness :
    (∃ w' review, addReview writeFailingEnv { bookId := 1, user := alice, body := rate 5 }
        (run World.empty uploadedBook) = (w', Response.ok 201 (Data.review review)) ∧
      w'.db.reviews = [review] ∧
      w'.db.books.map (fun b => (b.averageRating, b.numReviews)) = [(1, 0)]) ∧
      (∃ w', deleteReview writeFailingEnv { id := 2, user := alice } (run World.empty oneReview) =
          (w', Response.ok 200 Data.empty) ∧
        w'.db.reviews = [] ∧
        w'.db.books.map (fun b => (b.averageRating, b.numReviews)) = [(5, 1)]) := by
  obtain ⟨w1, review, h1, -, -, h2, h3, -⟩ := (aggregate_write_failure_swallowed writeFailingEnv
    (run World.empty uploadedBook) rfl).1 { bookId := 1, user := alice, body := rate 5 } duneBook
    (by with_unfolding_all decide) (by with_unfolding_all decide) (by with_unfolding_all decide)
  obtain ⟨w2, h4, h5, h6, -⟩ := (aggregate_write_failure_swallowed writeFailingEnv
    (run World.empty oneReview) rfl).2 { id := 2, user := alice }
    { _id := 2, rating := 5, comment := "read it", book := 1, user := 10 }
    (by with_unfolding_all decide) (Or.inl rfl)
  refine ⟨⟨w1, review, h1, ?_, ?_⟩, ⟨w2, h4, ?_, ?_⟩⟩
  · rw [h2]
    have : (run World.empty uploadedBook).db.reviews = [] := by with_unfolding_all decide
    rw [this]
    rfl
  · rw [h3]
    with_unfolding_all decide
  · rw [h5]
    with_unfolding_all decide
  · rw [h6]
    with_unfolding_all decide

/-! ## C28: who may update or delete a review -/

/-- C28. For a stored review and a caller who is neither its author nor an
admin, `updateReview` and `deleteReview` are answered 401 and leave the world
as it was, every review and every book included; hence a call answered 200 came
from the author or from an admin. -/
theorem review_mutation_needs_author_or_admin (env : Env) (w : World) (id : ObjectId)
    (user : AuthUser) (review : Review) (hf : Review.findById w.db.reviews id = some review) :
    ((review.user ≠ user.id ∧ user.role ≠ "admin") →
        (∀ body : ReviewBody, updateReview { id := id, user := user, body := body } w =
          (w, Response.fail 401 (Message.text "Not authorized to update this review"))) ∧
        deleteReview env { id := id, user := user } w =
          (w, Response.fail 401 (Message.text "Not authorized to delete this review"))) ∧
      (∀ (body : ReviewBody) (w' : World) (d : Data),
        updateReview { id := id, user := user, body := body } w = (w', Response.ok 200 d) →
        review.user = user.id ∨ user.role = "admin") ∧
      (∀ (w' : World) (d : Data),
        deleteReview env { id := id, user := user } w = (w', Response.ok 200 d) →
        review.user = user.id ∨ user.role = "admin") := by
  have h401 : (review.user ≠ user.id ∧ user.role ≠ "admin") →
      (∀ body : ReviewBody, updateReview { id := id, user := user, body := body } w =
        (w, Response.fail 401 (Message.text "Not authorized to update this review"))) ∧
      deleteReview env { id := id, user := user } w =
        (w, Response.fail 401 (Message.text "Not authorized to delete this review")) := by
    intro hna
    constructor
    · intro body
      simp only [updateReview, hf]
      rw [if_pos hna]
    · simp only [deleteReview, hf]
      rw [if_pos hna]
  refine ⟨h401, ?_, ?_⟩
  · intro body w' d hok
    by_contra hcon
    have hna : review.user ≠ user.id ∧ user.role ≠ "admin" := by
      constructor
      · exact fun h => hcon (Or.inl h)
      · exact fun h => hcon (Or.inr h)
    rw [(h401 hna).1 body] at hok
    simp at hok
  · intro w' d hok
    by_contra hcon
    have hna : review.user ≠ user.id ∧ user.role ≠ "admin" := by
      constructor
      · exact fun h => hcon (Or.inl h)
      · exact fun h => hcon (Or.inr h)
    rw [(h401 hna).2] at hok
    simp at hok

set_option maxRecDepth 8000 in
/-- C28 on the sample deployment: `carol` tries to change and to delete the
review of `alice`. -/
theorem review_mutation_needs_author_or_admin_witness :
    updateReview { id := 2, user := carol, body := rate 1 } (run World.empty oneReview) =
        (run World.empty oneReview,
          Response.fail 401 (Message.text "Not authorized to update this review")) ∧
      deleteReview sampleEnv { id := 2, user := carol } (run World.empty oneReview) =
        (run World.empty oneReview,
          Response.fail 401 (Message.text "Not authorized to delete this review")) :=
  ⟨((review_mutation_needs_author_or_admin sampleEnv (run World.empty oneReview) 2 carol
      { _id := 2, rating := 5, comment := "read it", book := 1, user := 10 }
      (by with_unfolding_all decide)).1 ⟨by decide, by decide⟩).1 (rate 1),
    ((review_mutation_needs_author_or_admin sampleEnv (run World.empty oneReview) 2 carol
      { _id := 2, rating := 5, comment := "read it", book := 1, user := 10 }
      (by with_unfolding_all decide)).1 ⟨by decide, by decide⟩).2⟩

/-! ## C29: `fileFilter` -/

theorem startsWith_iff (pat text : List Char) :
    startsWith pat text = true ↔ ∃ after, text = pat ++ after := by
  induction pat generalizing text with
  | nil => simp [startsWith]
  | cons p ps ih =>
    cases text with
    | nil => simp [startsWith]
    | cons c cs =>
      simp only [startsWith, Bool.and_eq_true, beq_iff_eq, ih, List.cons_append, List.cons.injEq]
      constructor
      · rintro ⟨hpc, after, hcs⟩
        exact ⟨after, hpc.symm, hcs⟩
      · rintro ⟨after, hpc, hcs⟩
        exact ⟨hpc.symm, after, hcs⟩

theorem occursIn_iff (pat text : List Char) : occursIn pat text = true ↔ Occurs pat text := by
  induction text with
  | nil =>
    simp only [occursIn, startsWith_iff, Occurs]
    constructor
    · rintro ⟨after, h⟩
      exact ⟨[], after, by simpa using h⟩
    · rintro ⟨before, after, h⟩
      have h1 : before ++ pat ++ after = [] := h.symm
      simp only [List.append_eq_nil] at h1
      exact ⟨[], by simp [h1.1.2]⟩
  | cons c cs ih =>
    simp only [occursIn, Bool.or_eq_true, startsWith_iff, ih, Occurs]
    constructor
    · rintro (⟨after, h⟩ | ⟨before, after, h⟩)
      · exact ⟨[], after, by simpa using h⟩
      · exact ⟨c :: before, after, by simp [h]⟩
    · rintro ⟨before, after, h⟩
      cases before with
      | nil => exact Or.inl ⟨after, by simpa using h⟩
      | cons b bs =>
        simp only [List.cons_append, List.cons.injEq] at h
        exact Or.inr ⟨bs, after, h.2⟩

theorem filetypesTest_iff (s : String) : filetypesTest s = true ↔ mentionsFiletype s := by
  simp only [filetypesTest, List.any_eq_true, occursIn_iff, mentionsFiletype]

/-- C29 on two concrete files: `notes.pdfx` with the MIME type
`application/pdf` is accepted although its extension is none of the five, and
the image `photo.gif` with the MIME type `image/gif` is rejected.  The filter is
meant to accept pdf, epub and images, and says so in its comment and in its
error message. -/
theorem fileFilter_substring_match :
    toLowerCase (extname "notes.pdfx") = ".pdfx" ∧ ".pdfx" ∉ listedExtensions ∧
      fileFilter { originalname := "notes.pdfx", mimetype := "application/pdf" } =
        FilterResult.accept ∧
      fileFilter { originalname := "photo.gif", mimetype := "image/gif" } =
        FilterResult.reject "Only PDF, EPUB, and image files are allowed" := by
  decide

/-- What `fileFilter` computes: it accepts a file exactly when one of `pdf`,
`epub`, `jpg`, `jpeg`, `png` occurs somewhere in its lower-cased extension and
one of them occurs somewhere in its MIME type, and rejects every other file
with the error `Only PDF, EPUB, and image files are allowed`; files with one of
the five extensions and a matching MIME type are among the accepted ones. -/
theorem fileFilter_accepts_iff (file : IncomingFile) :
    (fileFilter file = FilterResult.accept ↔
        mentionsFiletype (toLowerCase (extname file.originalname)) ∧
          mentionsFiletype file.mimetype) ∧
      (fileFilter file ≠ FilterResult.accept →
        fileFilter file = FilterResult.reject "Only PDF, EPUB, and image files are allowed") ∧
      (toLowerCase (extname file.originalname) ∈ listedExtensions →
        file.mimetype ∈ listedMimetypes → fileFilter file = FilterResult.accept) := by
  have hcases : (fileFilter file = FilterResult.accept ∧
        filetypesTest (toLowerCase (extname file.originalname)) = true ∧
          filetypesTest file.mimetype = true) ∨
      (fileFilter file = FilterResult.reject "Only PDF, EPUB, and image files are allowed" ∧
        ¬(filetypesTest (toLowerCase (extname file.originalname)) = true ∧
          filetypesTest file.mimetype = true)) := by
    by_cases h : (filetypesTest (toLowerCase (extname file.originalname)) &&
        filetypesTest file.mimetype) = true
    · refine Or.inl ⟨?_, by simpa using h⟩
      simp only [fileFilter]
      rw [if_pos h]
    · refine Or.inr ⟨?_, fun hboth => h (by simp [hboth.1, hboth.2])⟩
      simp only [fileFilter]
      rw [if_neg h]
  have hiff : fileFilter file = FilterResult.accept ↔
      mentionsFiletype (toLowerCase (extname file.originalname)) ∧
        mentionsFiletype file.mimetype := by
    rw [← filetypesTest_iff, ← filetypesTest_iff]
    rcases hcases with ⟨ha, hb⟩ | ⟨hr, hn⟩
    · exact ⟨fun _ => hb, fun _ => ha⟩
    · refine ⟨fun he => ?_, fun hb => absurd hb hn⟩
      rw [hr] at he
      cases he
  refine ⟨hiff, ?_, ?_⟩
  · intro hne
    rcases hcases with ⟨ha, -⟩ | ⟨hr, -⟩
    · exact absurd ha hne
    · exact hr
  · intro hext hmime
    rw [hiff, ← filetypesTest_iff, ← filetypesTest_iff]
    constructor
    · simp only [listedExtensions, List.mem_cons, List.mem_singleton, List.not_mem_nil,
        or_false] at hext
      rcases hext with h | h | h | h | h <;> rw [h] <;> decide
    · simp only [listedMimetypes, List.mem_cons, List.mem_singleton, List.not_mem_nil,
        or_false] at hmime
      rcases hmime with h | h | h | h <;> rw [h] <;> decide

/-! ## C30: the update document of `PUT /api/users/:id` -/

/-- C30 on a concrete request: `alice` updates her own profile with the body
`password: ""`, `role: ""`; the request passes the authorisation check and the
update document handed to the record store carries both fields. -/
theorem putUser_keeps_falsy_password_and_role :
    alice.role ≠ "admin" ∧
      putUser.updateDocument
          { user := alice, id := 10, body := [("password", Json.str ""), ("role", Json.str "")] } =
        some [("password", Json.str ""), ("role", Json.str "")] ∧
      hasField [("password", Json.str ""), ("role", Json.str "")] "password" = true ∧
      hasField [("password", Json.str ""), ("role", Json.str "")] "role" = true := by
  decide

theorem hasField_deleteField (doc : JsonObject) (key : String) :
    hasField (deleteField doc key) key = false := by
  simp only [hasField, deleteField, List.any_eq_false, List.mem_filter]
  rintro kv ⟨-, h⟩
  simpa using h

theorem hasField_deleteField_other (doc : JsonObject) (key other : String)
    (h : hasField doc key = false) : hasField (deleteField doc other) key = false := by
  simp only [hasField, deleteField, List.any_eq_false, List.mem_filter] at h ⊢
  rintro kv ⟨hmem, -⟩
  exact h kv hmem

end DigitalLibrary
